import Mathlib

/-!
# ComfyUI-Custom-Batchbox — verification of the request-execution pipeline

A shallow embedding, in Lean 4, of the core request-execution pipeline of the
ComfyUI-Custom-Batchbox repository:

* `src/adapters/template_engine.py` — payload template rendering,
* `src/adapters/generic.py` — request building, response parsing, the
  retrying executor and the async polling loop,
* `src/adapters/base.py` — the `APIResponse` record and image download,
* `src/batchbox_logger.py` — retry configuration and backoff delays,
* `src/config_manager.py` — endpoint selection and failover candidates,
* `src/independent_generator.py` — failover orchestration, the concurrent
  batch orchestrator and the content hash.

Python values are modelled by the mutual inductive family `PyVal` /
`PyList` / `PyDict`; Python strings are `List Char`.  Machine-level
effects are handled as follows:

* HTTP traffic, the OSS / Files-API caches, the account credential
  collaborator, PIL image decoding and image saving are external
  collaborators; they enter the model as explicit oracle functions
  gathered in the `Env` structure.  A theorem quantifying over `Env`
  quantifies over every possible behaviour of those collaborators.
* Wall-clock time in the polling loop is idealised: one loop iteration
  advances the clock by exactly the 2-second inter-poll sleep (network
  time is not charged), which is the idealisation the spec itself uses.
* Python exceptions are explicit: fallible translated functions return
  `Except PyExn _`.
* Recursions of the source that are not structural (character scanners,
  the wildcard path extractor, the polling loop) are written with an
  explicit fuel argument; the public wrapper supplies fuel that is large
  enough that the out-of-fuel branch is unreachable on the wrapper's
  inputs, keeping every definition executable by `decide` / `rfl`.
* Floating-point retry delays (`1.0 * 2.0 ** attempt` capped at `60.0`)
  are modelled as rationals; all values appearing in the source are
  exactly representable in binary floating point, so no rounding is lost.

External pure library functions (`hashlib.md5`, `json.dumps`,
`base64.b64decode`) are modelled by executable stand-ins documented at
their definition sites.
-/

namespace Batchbox

/-- Python strings are modelled as lists of characters. -/
abbrev Str := List Char

/-- Python `bytes` values (contents are never interpreted by the core). -/
abbrev Bytes := List Nat

/-- The left-brace character (written by code point throughout). -/
def lbrace : Char := '\x7b'

/-- The right-brace character (written by code point throughout). -/
def rbrace : Char := '\x7d'

mutual

/-- A Python value, as far as the pipeline inspects values: `None`,
booleans, integers, strings, `bytes`, lists (which also stand for the
tuples the code unpacks positionally) and string-keyed dicts.  `floatv`
carries a float literal by its decimal text: the pipeline only ever
places float constants into payloads (`temperature: 0.8`) and never
computes with them. -/
inductive PyVal where
  | none
  | bool (b : Bool)
  | int (n : Int)
  | floatv (lit : Str)
  | str (s : Str)
  | bytes (b : Bytes)
  | list (xs : PyList)
  | dict (kvs : PyDict)
deriving DecidableEq

/-- A list of Python values. -/
inductive PyList where
  | nil
  | cons (hd : PyVal) (tl : PyList)
deriving DecidableEq

/-- A Python dict with string keys, in insertion order. -/
inductive PyDict where
  | nil
  | cons (k : Str) (v : PyVal) (tl : PyDict)
deriving DecidableEq

end

namespace PyList

/-- Convert a `PyList` to a Lean list. -/
def toList : PyList → List PyVal
  | .nil => []
  | .cons v tl => v :: toList tl

/-- Build a `PyList` from a Lean list. -/
def ofList : List PyVal → PyList
  | [] => .nil
  | v :: tl => .cons v (ofList tl)

/-- Length of a `PyList`. -/
def length : PyList → Nat
  | .nil => 0
  | .cons _ tl => length tl + 1

/-- Zero-based indexing, `none` out of range. -/
def get? : PyList → Nat → Option PyVal
  | .nil, _ => Option.none
  | .cons v _, 0 => some v
  | .cons _ tl, n + 1 => get? tl n

end PyList

namespace PyDict

/-- Convert a `PyDict` to a Lean association list (insertion order). -/
def toList : PyDict → List (Str × PyVal)
  | .nil => []
  | .cons k v tl => (k, v) :: toList tl

/-- Build a `PyDict` from a Lean association list. -/
def ofList : List (Str × PyVal) → PyDict
  | [] => .nil
  | (k, v) :: tl => .cons k v (ofList tl)

/-- `k in d` for a Python dict: key membership. -/
def hasKey (d : PyDict) (k : Str) : Bool :=
  match d with
  | .nil => false
  | .cons k' _ tl => if k' = k then true else hasKey tl k

/-- `d.get(k)`: the first binding of `k`, if any. -/
def get? (d : PyDict) (k : Str) : Option PyVal :=
  match d with
  | .nil => Option.none
  | .cons k' v tl => if k' = k then some v else get? tl k

/-- `d.get(k, default)`: lookup with a default. -/
def getD (d : PyDict) (k : Str) (dflt : PyVal) : PyVal :=
  (d.get? k).getD dflt

/-- `d[k] = v`: update the first binding in place, else append (Python
dict assignment keeps the position of an existing key). -/
def set (d : PyDict) (k : Str) (v : PyVal) : PyDict :=
  match d with
  | .nil => .cons k v .nil
  | .cons k' v' tl => if k' = k then .cons k' v tl else .cons k' v' (set tl k v)

/-- `d.pop(k, None)`: remove the first binding of `k`, if any. -/
def popKey (d : PyDict) (k : Str) : PyDict :=
  match d with
  | .nil => .nil
  | .cons k' v tl => if k' = k then tl else .cons k' v (popKey tl k)

/-- `d1.update(d2)`: merge `d2` into `d1` (Python `dict.update`). -/
def update (d : PyDict) : PyDict → PyDict
  | .nil => d
  | .cons k v tl => update (d.set k v) tl

/-- The values of the dict, in insertion order (`d.values()`). -/
def values : PyDict → List PyVal
  | .nil => []
  | .cons _ v tl => v :: values tl

/-- The keys of the dict, in insertion order (`d.keys()`). -/
def keys : PyDict → List Str
  | .nil => []
  | .cons k _ tl => k :: keys tl

end PyDict

/-- Python exceptions distinguished by the pipeline's `except` clauses. -/
inductive PyExn where
  | typeError (msg : Str)
  | valueError (msg : Str)
  | indexError
  | attributeError (msg : Str)
deriving DecidableEq

end Batchbox

namespace Batchbox

/-! ## Character and string helpers (ASCII model of the `str` methods used) -/

/-- `\w` of Python's `re` module, restricted to ASCII (the identifiers the
templates use): letters, digits and underscore. -/
def isWordChar (c : Char) : Bool :=
  ('a' ≤ c && c ≤ 'z') || ('A' ≤ c && c ≤ 'Z') || ('0' ≤ c && c ≤ '9') || c = '_'

/-- ASCII decimal digit test (`str.isdigit` on the path components used). -/
def isDigitChar (c : Char) : Bool :=
  '0' ≤ c && c ≤ '9'

/-- Python whitespace for `str.strip`. -/
def isSpaceChar (c : Char) : Bool :=
  c = ' ' || c = '\t' || c = '\n' || c = '\x0d' || c = '\x0b' || c = '\x0c'

/-- ASCII upper-casing of one character (`str.upper`). -/
def upperChar (c : Char) : Char :=
  if 'a' ≤ c && c ≤ 'z' then Char.ofNat (c.toNat - 32) else c

/-- `s.upper()` (ASCII model). -/
def pyUpper (s : Str) : Str := s.map upperChar

/-- `s.strip()`. -/
def pyStrip (s : Str) : Str :=
  ((s.dropWhile isSpaceChar).reverse.dropWhile isSpaceChar).reverse

/-- `s.startswith(p)`. -/
def startsWith (p s : Str) : Bool := s.take p.length = p

/-- `s.split(sep)` for a one-character separator, with Python semantics
(`"".split(".") == [""]`, empty segments kept). -/
def pySplitChar (sep : Char) (s : Str) : List Str :=
  s.foldr
    (fun c acc =>
      match acc with
      | [] => [[c]]
      | g :: gs => if c = sep then [] :: g :: gs else (c :: g) :: gs)
    [[]]

/-- The decimal digit character for `d < 10`. -/
def digitChar (d : Nat) : Char := Char.ofNat (48 + d)

/-- Decimal rendering of a natural number, most significant digit first;
the fuel argument makes the division recursion structural and is
discharged by the wrapper `natRep`. -/
def natRepAux : Nat → Nat → Str
  | 0, _ => []
  | fuel + 1, n =>
    if n < 10 then [digitChar n]
    else natRepAux fuel (n / 10) ++ [digitChar (n % 10)]

/-- `str(n)` for a non-negative Python int. -/
def natRep (n : Nat) : Str := natRepAux (n + 1) n

/-- `str(n)` for a Python int (f-string formatting of integers). -/
def intRep (n : Int) : Str :=
  if n < 0 then '-' :: natRep n.natAbs else natRep n.natAbs

/-! ## `str()` of a Python value

`pyStr` models `str(value)`; containers fall back to a `repr`-like
rendering.  The rendering of containers and `bytes` is simplified
(double quotes, no escaping) — the pipeline only ever feeds scalars whose
`str` is modelled exactly (strings verbatim, ints in decimal, `True` /
`False` / `None`) into user-visible output, and no claim inspects the
container rendering. -/

mutual

/-- `repr`-like rendering of a value (simplified for containers). -/
def pyRepr : PyVal → Str
  | .none => "None".toList
  | .bool b => if b then "True".toList else "False".toList
  | .int n => intRep n
  | .floatv lit => lit
  | .str s => '"' :: s ++ ['"']
  | .bytes b => 'b' :: '"' :: (b.map fun n => Char.ofNat (n % 256)) ++ ['"']
  | .list xs => '[' :: pyReprList xs ++ [']']
  | .dict kvs => lbrace :: pyReprDict kvs ++ [rbrace]

/-- Comma-separated renderings of list elements. -/
def pyReprList : PyList → Str
  | .nil => []
  | .cons v .nil => pyRepr v
  | .cons v tl => pyRepr v ++ ',' :: ' ' :: pyReprList tl

/-- Comma-separated renderings of dict entries. -/
def pyReprDict : PyDict → Str
  | .nil => []
  | .cons k v .nil => '"' :: k ++ '"' :: ':' :: ' ' :: pyRepr v
  | .cons k v tl => '"' :: k ++ '"' :: ':' :: ' ' :: pyRepr v ++ ',' :: ' ' :: pyReprDict tl

end

/-- `str(value)`: strings are returned verbatim (no quoting), other
values use their rendering. -/
def pyStr : PyVal → Str
  | .str s => s
  | v => pyRepr v

/-- Python truthiness of a value. -/
def pyTruthy : PyVal → Bool
  | .none => false
  | .bool b => b
  | .int n => n ≠ 0
  | .floatv lit => lit ≠ "0.0".toList
  | .str s => !s.isEmpty
  | .bytes b => !b.isEmpty
  | .list xs => !(xs.toList.isEmpty)
  | .dict kvs => !(kvs.toList.isEmpty)

/-- `x in container` (Python membership): key of a dict, substring of a
string, element of a list; other right operands raise `TypeError`. -/
def pyContains (container : PyVal) (x : PyVal) : Except PyExn Bool :=
  match container with
  | .dict kvs =>
    match x with
    | .str s => .ok (kvs.hasKey s)
    | .list _ => .error (.typeError "unhashable type".toList)
    | .dict _ => .error (.typeError "unhashable type".toList)
    | _ => .ok false
  | .str s =>
    match x with
    | .str sub => .ok ((List.range (s.length + 1)).any fun i => startsWith sub (s.drop i))
    | _ => .error (.typeError "requires string as left operand".toList)
  | .list xs => .ok (xs.toList.contains x)
  | _ => .error (.typeError "argument not iterable".toList)

/-- `for x in v`: the iteration sequence of a value (list elements, dict
keys, one-character strings); non-iterables raise `TypeError`. -/
def pyIter : PyVal → Except PyExn (List PyVal)
  | .list xs => .ok xs.toList
  | .dict kvs => .ok (kvs.keys.map PyVal.str)
  | .str s => .ok (s.map fun c => PyVal.str [c])
  | .bytes b => .ok (b.map PyVal.int)
  | _ => .error (.typeError "object is not iterable".toList)

/-- `d.get(key, default)` called on an arbitrary value: dicts look the key
up (non-`str` scalar keys are absent from a `str`-keyed dict, unhashable
keys raise), anything else has no `get` attribute. -/
def pyGetMethod (v : PyVal) (key : PyVal) (dflt : PyVal) : Except PyExn PyVal :=
  match v with
  | .dict kvs =>
    match key with
    | .str s => .ok ((kvs.get? s).getD dflt)
    | .list _ => .error (.typeError "unhashable type".toList)
    | .dict _ => .error (.typeError "unhashable type".toList)
    | _ => .ok dflt
  | _ => .error (.attributeError "no attribute get".toList)

end Batchbox

namespace Batchbox

/-! ## `TemplateEngine` (`src/adapters/template_engine.py`)

An engine instance is its `value_mappings` dict (`vm` below).  `params`
is the parameter dict. -/

/-- `re.fullmatch(r'\{\{(\w+)\}\}', template)`: the whole string is one
`{{var}}` reference; returns the variable name. -/
def fullVarMatch? (t : Str) : Option Str :=
  let n := t.length
  let inner := (t.drop 2).take (n - 4)
  if 5 ≤ n ∧ t.take 2 = [lbrace, lbrace] ∧ t.drop (n - 2) = [rbrace, rbrace] ∧
      inner.all isWordChar then
    some inner
  else
    Option.none

/-- `TemplateEngine._build_chat_content`: a content-block list from the
prompt plus any prepared base64 image data-URLs, in input order. -/
def buildChatContent (params : PyDict) : Except PyExn PyVal := do
  let prompt := params.getD "prompt".toList (.str [])
  let head : List PyVal :=
    if pyTruthy prompt then
      [.dict (.cons "type".toList (.str "text".toList)
        (.cons "text".toList prompt .nil))]
    else []
  let imgs ← pyIter (params.getD "_images_base64".toList (.list .nil))
  let blocks := imgs.map fun imgData =>
    PyVal.dict (.cons "type".toList (.str "image_url".toList)
      (.cons "image_url".toList
        (.dict (.cons "url".toList imgData .nil)) .nil))
  return .list (PyList.ofList (head ++ blocks))

/-- The scan in `TemplateEngine._get_mapped_value`: the first parameter
value that is a string and exists in the mapping. -/
def scanParamsForMapping (mapping : PyVal) : List PyVal → Except PyExn PyVal
  | [] => .ok .none
  | v :: rest => do
    match v with
    | .str s =>
      let isIn ← pyContains mapping (.str s)
      if isIn then return .str s else scanParamsForMapping mapping rest
    | _ => scanParamsForMapping mapping rest

/-- `TemplateEngine._get_mapped_value`. -/
def getMappedValue (vm : PyDict) (name : Str) (params : PyDict) :
    Except PyExn PyVal := do
  match vm.get? name with
  | Option.none => return .none
  | some mapping =>
    -- direct match: strip a '_map_' or '_extract_' prefix and look the
    -- remainder up in params (first prefix whose stripped name is a key)
    let source1 : PyVal :=
      if startsWith "_map_".toList name ∧ params.hasKey (name.drop 5) then
        params.getD (name.drop 5) .none
      else if startsWith "_extract_".toList name ∧ params.hasKey (name.drop 9) then
        params.getD (name.drop 9) .none
      else .none
    -- if no direct match (a `None` source counts as no match), scan values
    let source2 ←
      if source1 = PyVal.none then scanParamsForMapping mapping params.values
      else pure source1
    if source2 = PyVal.none then return .none
    else pyGetMethod mapping source2 source2

/-- `TemplateEngine._get_value`. -/
def getValue (vm : PyDict) (varName : Str) (params : PyDict) :
    Except PyExn PyVal :=
  if varName = "_chat_content".toList then buildChatContent params
  else if startsWith "_".toList varName then getMappedValue vm varName params
  else .ok ((params.get? varName).getD .none)

/-- The scan of `VARIABLE_PATTERN.sub(replace_var, template)`: replaces
every non-overlapping `{{word}}` occurrence, left to right, by
`str(value)` (empty for `None`); on a failed match at a `{` the scan
advances one character, as the regex engine does.  Fuel is the length of
the remaining input. -/
def subVarsAux (vm : PyDict) (params : PyDict) :
    Nat → Str → Except PyExn Str
  | 0, s => .ok s
  | _ + 1, [] => .ok []
  | fuel + 1, c :: rest =>
    if c = lbrace then
      match rest with
      | c2 :: rest2 =>
        if c2 = lbrace then
          let w := rest2.takeWhile isWordChar
          let after := rest2.dropWhile isWordChar
          match w, after with
          | _ :: _, a1 :: a2 :: rest3 =>
            if a1 = rbrace ∧ a2 = rbrace then do
              let v ← getValue vm w params
              let repl := if v = PyVal.none then [] else pyStr v
              let tail ← subVarsAux vm params fuel rest3
              return repl ++ tail
            else do
              let tail ← subVarsAux vm params fuel rest
              return c :: tail
          | _, _ => do
            let tail ← subVarsAux vm params fuel rest
            return c :: tail
        else do
          let tail ← subVarsAux vm params fuel rest
          return c :: tail
      | [] => .ok [c]
    else do
      let tail ← subVarsAux vm params fuel rest
      return c :: tail

/-- `TemplateEngine._render_string`. -/
def renderString (vm : PyDict) (params : PyDict) (t : Str) :
    Except PyExn PyVal := do
  match fullVarMatch? t with
  | some w => getValue vm w params
  | Option.none => return .str (← subVarsAux vm params t.length t)

mutual

/-- `TemplateEngine.render`. -/
def render (vm : PyDict) (params : PyDict) : PyVal → Except PyExn PyVal
  | .str s => renderString vm params s
  | .dict kvs => do return .dict (← renderDict vm params kvs)
  | .list xs => do return .list (← renderList vm params xs)
  | t => .ok t

/-- `TemplateEngine._render_dict`: renders each value, dropping keys whose
rendered value is `None`. -/
def renderDict (vm : PyDict) (params : PyDict) : PyDict → Except PyExn PyDict
  | .nil => .ok .nil
  | .cons k v tl => do
    let rv ← render vm params v
    let rest ← renderDict vm params tl
    if rv = PyVal.none then return rest
    else return .cons k rv rest

/-- `TemplateEngine._render_list`. -/
def renderList (vm : PyDict) (params : PyDict) : PyList → Except PyExn PyList
  | .nil => .ok .nil
  | .cons v tl => do
    return .cons (← render vm params v) (← renderList vm params tl)

end

end Batchbox

namespace Batchbox

/-! ## Canonical JSON and the content hash
(`IndependentGenerator._compute_params_hash`, `src/independent_generator.py`)

`json.dumps(d, sort_keys=True, separators=(',', ':'))` and
`hashlib.md5(...).hexdigest()` are Python standard-library collaborators.
`jsonSer` renders exactly the canonical shape the call produces — keys
sorted, compact separators — with one simplification: only `"` and `\`
are escaped inside strings (CPython also escapes control and non-ASCII
characters; both escapings are injective, and no claim inspects the
escaped text itself).  `md5Hex` is an executable stand-in for the MD5 hex
digest: a deterministic, injective hex fingerprint of the input.  The
repository uses the digest purely as a content fingerprint for external
cache matching, so the contract the code relies on — equal inputs give
equal digests, distinct inputs give distinct fingerprints — is exactly
what the stand-in provides (MD5's collision behaviour lies outside this
repository). -/

/-- Lexicographic `≤` on Python strings (code-point order), as used by
`sort_keys=True`. -/
def strLe : Str → Str → Bool
  | [], _ => true
  | _ :: _, [] => false
  | a :: as, b :: bs => if a = b then strLe as bs else decide (a < b)

/-- Stable insertion of an element into a sorted list (`x` goes before
the first element it compares `le` to). -/
def insertLe {α : Type} (le : α → α → Bool) (x : α) : List α → List α
  | [] => [x]
  | y :: ys => if le x y then x :: y :: ys else y :: insertLe le x ys

/-- Stable sort by `le` (the behaviour of Python's `sorted`). -/
def sortLe {α : Type} (le : α → α → Bool) : List α → List α
  | [] => []
  | x :: xs => insertLe le x (sortLe le xs)

/-- JSON string escaping (simplified: `"` and `\` only). -/
def jsonEscape : Str → Str
  | [] => []
  | c :: rest =>
    if c = '"' ∨ c = '\\' then '\\' :: c :: jsonEscape rest
    else c :: jsonEscape rest

/-- A JSON string literal. -/
def jsonStrLit (s : Str) : Str := '"' :: jsonEscape s ++ ['"']

/-- Comma-join (the compact `,` item separator). -/
def joinComma : List Str → Str
  | [] => []
  | [x] => x
  | x :: rest => x ++ ',' :: joinComma rest

mutual

/-- `json.dumps(·, sort_keys=True, separators=(',', ':'))`; `bytes`
values are not JSON serializable and raise `TypeError`. -/
def jsonSer : PyVal → Except PyExn Str
  | .none => .ok "null".toList
  | .bool b => .ok (if b then "true".toList else "false".toList)
  | .int n => .ok (intRep n)
  | .floatv lit => .ok lit
  | .str s => .ok (jsonStrLit s)
  | .bytes _ => .error (.typeError "not JSON serializable".toList)
  | .list xs => do return '[' :: (← jsonSerList xs) ++ [']']
  | .dict kvs => do
    let entries ← jsonSerEntries kvs
    let sorted := sortLe (fun a b => strLe a.1 b.1) entries
    return lbrace :: joinComma (sorted.map fun e => jsonStrLit e.1 ++ ':' :: e.2)
      ++ [rbrace]

/-- Comma-joined serializations of list elements. -/
def jsonSerList : PyList → Except PyExn Str
  | .nil => .ok []
  | .cons v .nil => jsonSer v
  | .cons v tl => do return (← jsonSer v) ++ ',' :: (← jsonSerList tl)

/-- The (key, serialized value) pairs of a dict, in insertion order
(sorting happens at the dict node). -/
def jsonSerEntries : PyDict → Except PyExn (List (Str × Str))
  | .nil => .ok []
  | .cons k v tl => do return (k, ← jsonSer v) :: (← jsonSerEntries tl)

end

/-- A hex digit character (lower case, as `hexdigest` prints). -/
def hexDigitChar (d : Nat) : Char :=
  if d < 10 then digitChar d else Char.ofNat (87 + d)

/-- Fixed-width big-endian hex rendering. -/
def natToHexW : Nat → Nat → Str
  | 0, _ => []
  | w + 1, n => natToHexW w (n / 16) ++ [hexDigitChar (n % 16)]

/-- Stand-in for `hashlib.md5(s.encode()).hexdigest()` — see the section
comment: a deterministic injective hex fingerprint (six hex digits per
character code point). -/
def md5Hex (s : Str) : Str := (s.map fun c => natToHexW 6 c.toNat).flatten

/-- The string fed to the hash:
`f"{model}|{prompt}|{batch_count}|{seed}|{extra_params_normalized}"`. -/
def paramsStrOf (model prompt : Str) (batchCount : Nat) (seed : Int)
    (extraNorm : Str) : Str :=
  model ++ '|' :: prompt ++ '|' :: natRep batchCount ++ '|' :: intRep seed
    ++ '|' :: extraNorm

/-- `IndependentGenerator._compute_params_hash`: drop any `seed` key from
`extra_params`, canonically serialize, and hash the assembled string. -/
def computeParamsHash (model prompt : Str) (batchCount : Nat) (seed : Int)
    (extraParams : Option PyDict) : Except PyExn Str := do
  let base := match extraParams with
    | some d => if pyTruthy (.dict d) then d else .nil
    | Option.none => .nil
  let paramsForHash := base.popKey "seed".toList
  let extraNorm ← jsonSer (.dict paramsForHash)
  return md5Hex (paramsStrOf model prompt batchCount seed extraNorm)

/-! ## Base64 (`base64` standard-library collaborator)

A plain base64 codec: the encoder is exact; the decoder accepts
well-formed four-character groups (with `=` padding in the final group)
after discarding non-alphabet characters, as `b64decode` does, and
reports failure as `none` (the callers catch the library's exception). -/

/-- The base64 alphabet value of a character, if any. -/
def b64Val? (c : Char) : Option Nat :=
  if 'A' ≤ c ∧ c ≤ 'Z' then some (c.toNat - 65)
  else if 'a' ≤ c ∧ c ≤ 'z' then some (c.toNat - 71)
  else if '0' ≤ c ∧ c ≤ '9' then some (c.toNat + 4)
  else if c = '+' then some 62
  else if c = '/' then some 63
  else Option.none

/-- The base64 alphabet character for a 6-bit value. -/
def b64Chr (n : Nat) : Char :=
  if n < 26 then Char.ofNat (65 + n)
  else if n < 52 then Char.ofNat (97 + n - 26)
  else if n < 62 then Char.ofNat (48 + n - 52)
  else if n = 62 then '+' else '/'

/-- `base64.b64encode(b).decode('utf-8')`. -/
def b64encode : Bytes → Str
  | [] => []
  | [x] => [b64Chr (x / 4 % 64), b64Chr (x % 4 * 16), '=', '=']
  | [x, y] => [b64Chr (x / 4 % 64), b64Chr (x % 4 * 16 + y / 16), b64Chr (y % 16 * 4), '=']
  | x :: y :: z :: rest =>
    b64Chr (x / 4 % 64) :: b64Chr (x % 4 * 16 + y / 16) :: b64Chr (y % 16 * 4 + z / 64)
      :: b64Chr (z % 64) :: b64encode rest

/-- Decode one four-character base64 group. -/
def b64Group : Char → Char → Char → Char → Option Bytes
  | a, b, c, d =>
    match b64Val? a, b64Val? b with
    | some va, some vb =>
      if c = '=' ∧ d = '=' then some [va * 4 + vb / 16]
      else
        match b64Val? c with
        | some vc =>
          if d = '=' then some [va * 4 + vb / 16, vb % 16 * 16 + vc / 4]
          else
            match b64Val? d with
            | some vd => some [va * 4 + vb / 16, vb % 16 * 16 + vc / 4, vc % 4 * 64 + vd]
            | Option.none => Option.none
        | Option.none => Option.none
    | _, _ => Option.none

/-- Decode a cleaned base64 string, four characters at a time. -/
def b64DecodeGroups : Str → Option Bytes
  | [] => some []
  | a :: b :: c :: d :: rest => do
    let hd ← b64Group a b c d
    let tl ← b64DecodeGroups rest
    some (hd ++ tl)
  | _ => Option.none

/-- `base64.b64decode(s)`: discard non-alphabet characters, then decode;
`none` models the `binascii.Error` the callers catch. -/
def pyB64decode (s : Str) : Option Bytes :=
  b64DecodeGroups (s.filter fun c => (b64Val? c).isSome ∨ c = '=')

end Batchbox

namespace Batchbox

/-! ## Path extraction (`src/adapters/base.py::_get_nested_value`,
`src/adapters/generic.py::_extract_images_from_path` /
`_add_image_to_result`) -/

/-- `s.isdigit()` (ASCII model): non-empty and all decimal digits. -/
def isDigitStr (s : Str) : Bool := !s.isEmpty && s.all isDigitChar

/-- The numeric value of an all-digit string. -/
def digitsVal (s : Str) : Nat :=
  s.foldl (fun acc c => acc * 10 + (c.toNat - 48)) 0

/-- `int(s)`: optional surrounding whitespace, optional sign, at least
one digit (numeric-literal underscores are not modelled); `none` models
the `ValueError` the caller catches. -/
def pyParseInt (s : Str) : Option Int :=
  let t := pyStrip s
  match t with
  | '-' :: ds => if isDigitStr ds then some (-(digitsVal ds : Int)) else Option.none
  | '+' :: ds => if isDigitStr ds then some (digitsVal ds : Int) else Option.none
  | ds => if isDigitStr ds then some (digitsVal ds : Int) else Option.none

/-- Python list indexing `xs[i]` with negative wrap-around; `none` models
`IndexError`. -/
def pyListIndex (xs : PyList) (i : Int) : Option PyVal :=
  let n := xs.length
  if 0 ≤ i then
    if i < (n : Int) then xs.get? i.toNat else Option.none
  else
    if -i ≤ (n : Int) then xs.get? (n - (-i).toNat) else Option.none

/-- `APIAdapter._get_nested_value`: walk a dot-separated path; dicts by
key, lists by all-digit components (a bad index raises `IndexError`),
anything else gives `None`. -/
def getNestedValue (data : PyVal) (path : Str) : Except PyExn PyVal :=
  go (pySplitChar '.' path) data
where
  /-- One step per path component. -/
  go : List Str → PyVal → Except PyExn PyVal
  | [], v => .ok v
  | k :: rest, v =>
    match v with
    | .dict kvs => go rest (kvs.getD k .none)
    | .list xs =>
      if isDigitStr k then
        match xs.get? (digitsVal k) with
        | some x => go rest x
        | Option.none => .error .indexError
      else .ok .none
    | _ => .ok .none

/-- The character scan of `_extract_images_from_path` that splits a path
into field and bracket parts (`"data[*].url"` into
`["data", "[*]", "url"]`). -/
def parsePathParts (path : Str) : List Str :=
  let step : List Str × Str → Char → List Str × Str := fun acc c =>
    let (parts, current) := acc
    if c = '.' then
      (if current.isEmpty then parts else parts ++ [current], [])
    else if c = '[' then
      ((if current.isEmpty then parts else parts ++ [current]), ['['])
    else if c = ']' then
      (parts ++ [current ++ [']']], [])
    else
      (parts, current ++ [c])
  let (parts, current) := path.foldl step ([], [])
  if current.isEmpty then parts else parts ++ [current]

/-- `'.'.join(parts)`. -/
def joinDots : List Str → Str
  | [] => []
  | [x] => x
  | x :: rest => x ++ '.' :: joinDots rest

/-- The `result` dict of `_extract_images_from_path`: collected URLs
(left as raw values — a `{url: ...}` object's field is appended
unchecked) and decoded image bytes. -/
structure Extracted where
  urls : List PyVal
  bytesList : List Bytes
deriving DecidableEq

/-- The empty extraction result. -/
def Extracted.empty : Extracted := ⟨[], []⟩

/-- Does the extraction hold anything (`result["urls"] or result["bytes"]`)? -/
def Extracted.nonempty (e : Extracted) : Bool :=
  !e.urls.isEmpty || !e.bytesList.isEmpty

/-- Merge two extraction results. -/
def Extracted.append (e₁ e₂ : Extracted) : Extracted :=
  ⟨e₁.urls ++ e₂.urls, e₁.bytesList ++ e₂.bytesList⟩

/-- The Markdown-image scan of `_add_image_to_result`
(`re.findall(r'!\[[^\]]*\]\(([^)\s]+)(?:\s+"[^"]*")?\)', value)`):
left-to-right non-overlapping matches, one-character advance on a failed
match, capturing the URL.  Fuel is the length of the remaining input. -/
def mdFindAllAux : Nat → Str → List Str
  | 0, _ => []
  | _ + 1, [] => []
  | fuel + 1, c :: rest =>
    if c = '!' then
      match rest with
      | '[' :: r1 =>
        -- `[^\]]*` then `]` then `(`
        let r2 := r1.dropWhile (fun d => d ≠ ']')
        match r2 with
        | ']' :: '(' :: r3 =>
          -- `([^)\s]+)`
          let cap := r3.takeWhile (fun d => d ≠ ')' ∧ !isSpaceChar d)
          let r4 := r3.dropWhile (fun d => d ≠ ')' ∧ !isSpaceChar d)
          if cap.isEmpty then mdFindAllAux fuel rest
          else
            match r4 with
            | ')' :: r5 => cap :: mdFindAllAux fuel r5
            | d :: _ =>
              if isSpaceChar d then
                -- optional `\s+"[^"]*"` then `)`
                let r6 := r4.dropWhile isSpaceChar
                match r6 with
                | '"' :: r7 =>
                  let r8 := r7.dropWhile (fun e => e ≠ '"')
                  match r8 with
                  | '"' :: ')' :: r9 => cap :: mdFindAllAux fuel r9
                  | _ => mdFindAllAux fuel rest
                | _ => mdFindAllAux fuel rest
              else mdFindAllAux fuel rest
            | [] => mdFindAllAux fuel rest
        | _ => mdFindAllAux fuel rest
      | _ => mdFindAllAux fuel rest
    else mdFindAllAux fuel rest

/-- All Markdown-image URLs in a string. -/
def mdFindAll (s : Str) : List Str := mdFindAllAux s.length s

/-- Does the string start with `http://` or `https://`? -/
def isHttpUrl (s : Str) : Bool :=
  startsWith "http://".toList s || startsWith "https://".toList s

/-- `_add_image_to_result`: classify one extracted value as Markdown
image links, a direct URL, probable base64 (length over 100), or a
`{url}` / `{b64_json}` object; everything else is ignored. -/
def addImageToResult (value : PyVal) (acc : Extracted) : Extracted :=
  match value with
  | .str s =>
    let md := mdFindAll s
    if !md.isEmpty then
      ⟨acc.urls ++ (md.filter isHttpUrl).map PyVal.str, acc.bytesList⟩
    else if isHttpUrl s then
      ⟨acc.urls ++ [.str s], acc.bytesList⟩
    else if 100 < s.length then
      match pyB64decode s with
      | some b => ⟨acc.urls, acc.bytesList ++ [b]⟩
      | Option.none => acc
    else acc
  | .dict kvs =>
    match kvs.get? "url".toList with
    | some u => ⟨acc.urls ++ [u], acc.bytesList⟩
    | Option.none =>
      match kvs.get? "b64_json".toList with
      | some (.str s) =>
        match pyB64decode s with
        | some b => ⟨acc.urls, acc.bytesList ++ [b]⟩
        | Option.none => acc
      | _ => acc
  | _ => acc

/-- The navigation loop of `_extract_images_from_path` over parsed parts
(`break` on a `None` value; `[*]` fans out, recursing on the re-joined
remaining path, and returns early; after the loop the final value is
classified if truthy).  One unit of fuel is consumed per step so that the
recursion is structural; the wrapper supplies fuel that the loop cannot
exhaust. -/
def extractLoop : Nat → List Str → PyVal → Option Extracted
  | 0, _, _ => Option.none
  | _ + 1, [], current =>
    let res := if pyTruthy current then addImageToResult current .empty else .empty
    if res.nonempty then some res else Option.none
  | fuel + 1, part :: restParts, current =>
    if current = PyVal.none then Option.none
    else if startsWith "[".toList part then
      let idx := (part.drop 1).take (part.length - 2)
      if idx = "*".toList then
        match current with
        | .list xs =>
          let remaining := joinDots restParts
          let res := xs.toList.foldl
            (fun acc item =>
              if remaining.isEmpty then addImageToResult item acc
              else
                match extractLoop fuel (parsePathParts remaining) item with
                | some e => acc.append e
                | Option.none => acc)
            .empty
          if res.nonempty then some res else Option.none
        | _ => extractLoop fuel restParts current
      else
        match pyParseInt idx with
        | some i =>
          match current with
          | .list xs => extractLoop fuel restParts ((pyListIndex xs i).getD .none)
          | _ => extractLoop fuel restParts .none
        | Option.none => extractLoop fuel restParts .none
    else
      match current with
      | .dict kvs => extractLoop fuel restParts (kvs.getD part .none)
      | _ => extractLoop fuel restParts .none

/-- `_extract_images_from_path`: parse the path and walk it. -/
def extractImagesAux (fuel : Nat) (data : PyVal) (path : Str) : Option Extracted :=
  extractLoop fuel (parsePathParts path) data

/-- `_extract_images_from_path(data, path)`.  Each loop step consumes a
part (at most the path length per wildcard level) and each wildcard level
drops a bracket part, so `(length + 1)²` fuel is never exhausted. -/
def extractImagesFromPath (data : PyVal) (path : Str) : Option Extracted :=
  extractImagesAux ((path.length + 1) * (path.length + 1)) data path

end Batchbox

namespace Batchbox

/-! ## Records: `APIResponse` (`src/adapters/base.py`) and the
configuration dicts handed to `GenericAPIAdapter` -/

/-- The standardized `APIResponse` dataclass.  `image_urls` keeps raw
values: the parser appends a `{url: ...}` object's field unchecked. -/
structure APIResponse where
  success : Bool
  images : List Bytes := []
  image_urls : List PyVal := []
  raw_response : PyVal := .dict .nil
  error_message : Str := []
  task_id : Str := []
  status : Str := []
deriving DecidableEq

/-- The `provider_config` dict (name, base URL, API key, plus the
optional multipart file-naming keys a hand-built config may carry). -/
structure ProviderConf where
  name : Str
  base_url : Str
  api_key : Str
  file_format : Option Str := Option.none
  file_field : Option Str := Option.none
deriving DecidableEq

/-- One mode's configuration dict; `Option.none` models an absent key,
with the source's `.get` default applied at each use site. -/
structure ModeConf where
  endpoint : Option Str := Option.none
  method : Option Str := Option.none
  content_type : Option Str := Option.none
  payload_template : Option PyVal := Option.none
  value_mappings : Option PyDict := Option.none
  response_type : Option Str := Option.none
  task_id_path : Option Str := Option.none
  response_path : Option Str := Option.none
  polling_endpoint : Option Str := Option.none
  status_path : Option Str := Option.none
  success_value : Option Str := Option.none
  oss_endpoint : Option Str := Option.none
  file_format : Option Str := Option.none
  file_field : Option Str := Option.none
  generation_config : Option PyDict := Option.none
  use_oss_cache : Option Bool := Option.none
deriving DecidableEq

/-- An endpoint's configuration dict from a model's `api_endpoints`. -/
structure EndpointConf where
  provider : Option Str := Option.none
  priority : Option Int := Option.none
  display_name : Option Str := Option.none
  modes : List (Str × ModeConf) := []
  api_format : Option Str := Option.none
  auth_type : Option Str := Option.none
  auth_header_format : Option Str := Option.none
  prompt_prefix : Option Str := Option.none
  model_name : Option Str := Option.none
  use_oss_cache : Option Bool := Option.none
  extra_params : Option PyDict := Option.none
  file_format : Option Str := Option.none
  file_field : Option Str := Option.none
deriving DecidableEq

/-- `modes[mode]` lookup on an endpoint's mode map. -/
def EndpointConf.getMode? (ec : EndpointConf) (mode : Str) : Option ModeConf :=
  (ec.modes.find? fun m => m.1 = mode).map Prod.snd

/-- `mode in modes`. -/
def EndpointConf.hasMode (ec : EndpointConf) (mode : Str) : Bool :=
  (ec.getMode? mode).isSome

/-- `s.rstrip('/')`. -/
def rstripSlash (s : Str) : Str :=
  (s.reverse.dropWhile (fun c => c = '/')).reverse

/-- The `base_url` property of `APIAdapter`. -/
def adapterBaseUrl (pc : ProviderConf) : Str := rstripSlash pc.base_url

/-! ## External collaborators: the oracle environment

One `Env` fixes the behaviour of every external effect during one
execution: the outcome of the `k`-th main HTTP call and of the `k`-th
polling call, per-attempt image downloads, the OSS and Gemini-Files
caches, the account collaborator, and PIL decoding / image saving in the
orchestrator.  Theorems quantify over `Env`. -/

/-- The observable outcome of one `requests` call, as classified by the
source's `except` clauses. -/
inductive HttpAttempt where
  | resp (status : Nat) (body : Option PyVal) (text : Str)
  | timeoutExn
  | connExn (msg : Str)
  | otherExn (msg : Str)
deriving DecidableEq

/-- The oracle environment (see section comment). -/
structure Env where
  http : Nat → HttpAttempt
  poll : Nat → HttpAttempt
  downloadAttempt : PyVal → Nat → Option Bytes
  ossEnabled : Bool
  ossUpload : Bytes → Str → Str → Option Str
  filesAvailable : Bool
  filesUpload : Str → Bytes → Str → Str → Option Str
  accountOk : Bool
  accountToken : Str
  resolveModelId : Str → Str
  pilError : Bytes → Option Str
  savePreview : Bytes → Nat → Option PyVal

/-- `APIAdapter._download_image`: up to `fuel` attempts, returning the
first successful download (any failure is swallowed); `none` after the
last attempt. -/
def downloadImageAux (env : Env) (url : PyVal) : Nat → Nat → Option Bytes
  | _, 0 => Option.none
  | attempt, fuel + 1 =>
    match env.downloadAttempt url attempt with
    | some b => some b
    | Option.none => downloadImageAux env url (attempt + 1) fuel

/-- `_download_image(url)` with its default three attempts. -/
def downloadImage (env : Env) (url : PyVal) : Option Bytes :=
  downloadImageAux env url 0 3

/-! ## Response parsing (`GenericAPIAdapter.parse_response`) -/

/-- Python `v == n` against an int literal (`True == 1`, `False == 0`,
values of other types compare unequal). -/
def pyEqInt (v : PyVal) (m : Int) : Bool :=
  match v with
  | .int n => n = m
  | .bool b => (if b then (1 : Int) else 0) = m
  | _ => false

/-- Python `a or b` on values. -/
def pyOr (a b : PyVal) : PyVal := if pyTruthy a then a else b

/-- `v[0]` (used on `candidates`): list head, first character of a
string; other receivers raise. -/
def pyIndexZero (v : PyVal) : Except PyExn PyVal :=
  match v with
  | .list xs =>
    match xs.get? 0 with
    | some x => .ok x
    | Option.none => .error .indexError
  | .str s =>
    match s with
    | c :: _ => .ok (.str [c])
    | [] => .error .indexError
  | _ => .error (.typeError "object is not subscriptable".toList)

/-- The `inline_data` / `file_data` collection over one part of a Gemini
candidate's content. -/
def geminiPartImages (part : PyVal) :
    Except PyExn (List Bytes × List PyVal) := do
  let inlineData := pyOr (← pyGetMethod part (.str "inlineData".toList) .none)
    (← pyGetMethod part (.str "inline_data".toList) .none)
  let imgs ←
    if pyTruthy inlineData then do
      let b64Data ← pyGetMethod inlineData (.str "data".toList) (.str [])
      if pyTruthy b64Data then
        match b64Data with
        | .str s =>
          match pyB64decode s with
          | some b => pure [b]
          | Option.none => pure []    -- decode failure is caught and logged
        | _ => pure []                -- ditto (TypeError inside the try)
      else pure []
    else pure []
  let fileData := pyOr (← pyGetMethod part (.str "fileData".toList) .none)
    (← pyGetMethod part (.str "file_data".toList) .none)
  let urls ←
    if pyTruthy fileData then do
      let fileUri := pyOr (← pyGetMethod fileData (.str "fileUri".toList) .none)
        (← pyGetMethod fileData (.str "file_uri".toList) .none)
      if pyTruthy fileUri then pure [fileUri] else pure []
    else pure []
  return (imgs, urls)

/-- `GenericAPIAdapter._parse_gemini_response`: account error envelope,
account `{"data": ...}` unwrapping, missing candidates,
`finishReason == "OTHER"`, then inline/file image parts in order. -/
def parseGeminiResponse (data₀ : PyVal) : Except PyExn APIResponse := do
  -- Account-specific error format
  let hasErrCode ← pyContains data₀ (.str "errCode".toList)
  if hasErrCode ∧ !pyEqInt (← pyGetMethod data₀ (.str "code".toList) (.int 0)) 0 then
    let errMsg := pyStr (← pyGetMethod data₀ (.str "errMsg".toList)
      (.str "Unknown Account error".toList))
    let errCode := pyStr (← pyGetMethod data₀ (.str "errCode".toList) (.str "?".toList))
    return { success := false
             error_message :=
               "Account error (".toList ++ errCode ++ "): ".toList ++ errMsg
             raw_response := data₀ }
  -- Account envelope unwrapping
  let hasData ← pyContains data₀ (.str "data".toList)
  let inner ← pyGetMethod data₀ (.str "data".toList) .none
  let isDict : Bool := match inner with | .dict _ => true | _ => false
  let hasCands ← pyContains data₀ (.str "candidates".toList)
  let data := if hasData ∧ isDict ∧ !hasCands then inner else data₀
  let candidates ← pyGetMethod data (.str "candidates".toList) (.list .nil)
  if !pyTruthy candidates then
    return { success := false
             error_message := "No candidates in Gemini response".toList
             raw_response := data }
  let cand0 ← pyIndexZero candidates
  let finishReason ← pyGetMethod cand0 (.str "finishReason".toList) (.str [])
  if finishReason = .str "OTHER".toList then
    return { success := false
             error_message := ("Gemini could not generate image for this prompt "
               ++ "(try a more descriptive image prompt)").toList
             raw_response := data }
  let content ← pyGetMethod cand0 (.str "content".toList) (.dict .nil)
  let parts ← pyGetMethod content (.str "parts".toList) (.list .nil)
  let partList ← pyIter parts
  let collected ← partList.foldlM
    (fun (acc : List Bytes × List PyVal) part => do
      let (imgs, urls) ← geminiPartImages part
      return (acc.1 ++ imgs, acc.2 ++ urls))
    ([], [])
  if collected.1.isEmpty ∧ collected.2.isEmpty then
    return { success := false
             error_message := "No images found in Gemini response".toList
             raw_response := data }
  return { success := true
           images := collected.1
           image_urls := collected.2
           raw_response := data }

/-- `GenericAPIAdapter.parse_response`: JSON decoding, Gemini detection,
the async task-id branch, then synchronous image extraction. -/
def parseResponse (ec : EndpointConf) (mc : ModeConf) (body? : Option PyVal)
    (text : Str) : Except PyExn APIResponse := do
  match body? with
  | Option.none =>
    return { success := false
             error_message := "Invalid JSON response: ".toList ++ text.take 200
             raw_response := .dict (.cons "text".toList (.str text) .nil) }
  | some data =>
    let apiFormat := ec.api_format.getD "openai".toList
    let hasCands ← pyContains data (.str "candidates".toList)
    if apiFormat = "gemini".toList ∨ hasCands then
      parseGeminiResponse data
    else
      let responseType := mc.response_type.getD "sync".toList
      let asyncPending ←
        if responseType = "async".toList then do
          let taskIdPath := mc.task_id_path.getD "task_id".toList
          let taskId ← getNestedValue data taskIdPath
          if pyTruthy taskId then
            pure (some ({ success := true
                          task_id := pyStr taskId
                          status := "pending".toList
                          raw_response := data } : APIResponse))
          else pure Option.none
        else pure Option.none
      match asyncPending with
      | some r => return r
      | Option.none =>
        let responsePath := mc.response_path.getD "data[0].url".toList
        match extractImagesFromPath data responsePath with
        | Option.none =>
          return { success := false
                   error_message := "No images found in response".toList
                   raw_response := data }
        | some e =>
          return { success := true
                   image_urls := e.urls
                   images := e.bytesList
                   raw_response := data }

end Batchbox

namespace Batchbox

/-! ## Retry configuration and backoff (`src/batchbox_logger.py`) -/

/-- `RETRYABLE_STATUS_CODES`. -/
def RETRYABLE_STATUS_CODES : List Nat := [429, 502, 503, 504]

/-- `RetryConfig` (delays as rationals; every float the source uses is a
small dyadic, exactly representable). -/
structure RetryConfig where
  max_retries : Nat := 3
  initial_delay : ℚ := 1
  max_delay : ℚ := 60
  exponential_base : ℚ := 2
  retryable_codes : List Nat := RETRYABLE_STATUS_CODES
deriving DecidableEq

/-- `calculate_delay(attempt, config)`: exponential backoff
`initial * base ** attempt`, capped at `max_delay`. -/
def calculateDelay (attempt : Nat) (config : RetryConfig) : ℚ :=
  min (config.initial_delay * config.exponential_base ^ attempt) config.max_delay

/-! ## `str.replace` and the polling loop
(`GenericAPIAdapter._poll_for_result`) -/

/-- One left-to-right pass of `s.replace(pat, repl)` (non-empty `pat`,
non-overlapping); fuel is the remaining input length. -/
def replaceAllAux (pat repl : Str) : Nat → Str → Str
  | 0, s => s
  | _ + 1, [] => []
  | fuel + 1, c :: rest =>
    if !pat.isEmpty ∧ startsWith pat (c :: rest) then
      repl ++ replaceAllAux pat repl fuel ((c :: rest).drop pat.length)
    else
      c :: replaceAllAux pat repl fuel rest

/-- `s.replace(pat, repl)`. -/
def pyReplace (s pat repl : Str) : Str := replaceAllAux pat repl s.length s

/-- One polling HTTP request in the trace: the idealised clock value at
which it fires and the URL it targets. -/
structure PollRecord where
  time : Nat
  url : Str
deriving DecidableEq

/-- The failure vocabulary of the polling loop (hard-coded in the
source). -/
def POLL_FAILURE_VALUES : List Str :=
  ["FAILURE".toList, "FAILED".toList, "ERROR".toList]

/-- The polling URL: base URL plus the polling endpoint with
`{{task_id}}` and `{task_id}` placeholders substituted. -/
def pollUrlOf (pc : ProviderConf) (mc : ModeConf) (taskId : Str) : Str :=
  let pollingEndpoint := mc.polling_endpoint.getD "/v1/tasks/\x7btask_id\x7d".toList
  let templated :=
    pyReplace (pyReplace pollingEndpoint "\x7b\x7btask_id\x7d\x7d".toList taskId)
      "\x7btask_id\x7d".toList taskId
  adapterBaseUrl pc ++ templated

/-- The body of `_poll_for_result`'s `while` loop.  `elapsed` is the
idealised clock (each iteration sleeps 2 s; request time is not
charged); `pollIdx` counts polling requests; the fuel is one unit per
iteration, which `pollForResult` supplies in full.  Every exception
inside an iteration — a non-JSON body, a bad status path — is caught by
the loop's `except` and polling continues. -/
def pollLoop (env : Env) (mc : ModeConf) (theUrl : Str) (timeout : Nat) :
    Nat → Nat → Nat → APIResponse × List PollRecord
  | _, _, 0 =>
    ({ success := false
       error_message := "Polling timeout after ".toList ++ natRep timeout ++ "s".toList }, [])
  | pollIdx, elapsed, fuel + 1 =>
    if elapsed < timeout then
      let t := elapsed + 2
      let rec' : PollRecord := { time := t, url := theUrl }
      let continue_ := fun () =>
        let inner := pollLoop env mc theUrl timeout (pollIdx + 1) t fuel
        (inner.1, rec' :: inner.2)
      match env.poll pollIdx with
      | .resp status body _ =>
        if status ≠ 200 then continue_ ()
        else
          match body with
          | Option.none => continue_ ()     -- resp.json() raised; caught
          | some data =>
            let statusPath := mc.status_path.getD "data.status".toList
            match getNestedValue data statusPath with
            | .error _ => continue_ ()      -- raised; caught
            | .ok statusVal =>
              let normalizedStatus :=
                if statusVal = PyVal.none then []
                else pyUpper (pyStrip (pyStr statusVal))
              let successValue := mc.success_value.getD "SUCCESS".toList
              let normalizedSuccess := pyUpper (pyStrip successValue)
              if normalizedStatus = normalizedSuccess then
                let responsePath := mc.response_path.getD "data.data.data[*].url".toList
                match extractImagesFromPath data responsePath with
                | some e =>
                  ({ success := true
                     image_urls := e.urls
                     images := e.bytesList
                     raw_response := data }, [rec'])
                | Option.none =>
                  ({ success := false
                     error_message := "No images in completed task".toList
                     raw_response := data }, [rec'])
              else if normalizedStatus ∈ POLL_FAILURE_VALUES then
                ({ success := false
                   error_message := "Task failed: ".toList ++ pyStr data
                   raw_response := data }, [rec'])
              else continue_ ()
      | _ => continue_ ()                   -- request raised; caught
    else
      ({ success := false
         error_message := "Polling timeout after ".toList ++ natRep timeout ++ "s".toList }, [])

/-- `GenericAPIAdapter._poll_for_result(task_id, timeout=600)`, returning
the final response together with the trace of polling requests. -/
def pollForResult (env : Env) (pc : ProviderConf) (mc : ModeConf)
    (taskId : Str) (timeout : Nat := 600) : APIResponse × List PollRecord :=
  pollLoop env mc (pollUrlOf pc mc taskId) timeout 0 0 (timeout / 2 + 1)

end Batchbox

namespace Batchbox

/-! ## Request building (`GenericAPIAdapter.build_request` and friends) -/

/-- `len(v)` (`TypeError` for unsized values). -/
def pyLen : PyVal → Except PyExn Nat
  | .str s => .ok s.length
  | .bytes b => .ok b.length
  | .list xs => .ok xs.length
  | .dict kvs => .ok kvs.toList.length
  | _ => .error (.typeError "object has no len".toList)

/-- `a, b = v`: positional unpacking of a two-element sequence. -/
def pyUnpack2 (v : PyVal) : Except PyExn (PyVal × PyVal) :=
  match v with
  | .list (.cons a (.cons b .nil)) => .ok (a, b)
  | .list _ => .error (.valueError "unpacking a sequence of wrong length".toList)
  | .str [a, b] => .ok (.str [a], .str [b])
  | .str _ => .error (.valueError "unpacking a sequence of wrong length".toList)
  | _ => .error (.typeError "cannot unpack non-sequence".toList)

/-- `v[i]` for a non-negative literal index. -/
def pyTupleIdx (v : PyVal) (i : Nat) : Except PyExn PyVal :=
  match v with
  | .list xs =>
    match xs.get? i with
    | some x => .ok x
    | Option.none => .error .indexError
  | .str s =>
    match s.get? i with
    | some c => .ok (.str [c])
    | Option.none => .error .indexError
  | _ => .error (.typeError "object is not subscriptable".toList)

/-- `v[:3]` on the sequences the multipart code slices. -/
def pySliceTo3 (v : PyVal) : PyVal :=
  match v with
  | .list xs => .list (PyList.ofList (xs.toList.take 3))
  | .str s => .str (s.take 3)
  | v => v

/-- `int(v)` (`str` parsing, `bool` widening; other types raise). -/
def pyToInt (v : PyVal) : Except PyExn Int :=
  match v with
  | .int n => .ok n
  | .bool b => .ok (if b then 1 else 0)
  | .str s =>
    match pyParseInt s with
    | some n => .ok n
    | Option.none => .error (.valueError "invalid literal for int".toList)
  | _ => .error (.typeError "int argument must be a string or a number".toList)

/-- `"sub" in str(value)`: substring containment. -/
def containsSubstr (s sub : Str) : Bool :=
  (List.range (s.length + 1)).any fun i => startsWith sub (s.drop i)

/-- The first truthy value of an `a or b or c or default` chain of
optional config strings. -/
def firstTruthyStr (opts : List (Option Str)) (dflt : Str) : Str :=
  match opts with
  | [] => dflt
  | o :: rest =>
    match o with
    | some s => if s.isEmpty then firstTruthyStr rest dflt else s
    | Option.none => firstTruthyStr rest dflt

/-- The request descriptor dict returned by the builders; `jsonBody`,
`dataBody` and `files` model the optional `json` / `data` / `files`
keys. -/
structure RequestInfo where
  url : Str
  method : Str
  headers : List (Str × Str)
  jsonBody : Option PyVal := Option.none
  dataBody : Option PyVal := Option.none
  files : Option (List (Str × PyVal)) := Option.none
deriving DecidableEq

/-- The OSS-cache upload pass over `_upload_files` (inside the source's
blanket `try`): the uploaded URLs if the cache is enabled and every
upload succeeds, `none` otherwise (any exception or failed upload falls
back to multipart). -/
def ossUploadAll (env : Env) (uploads : PyVal) : Option (List Str) :=
  if !env.ossEnabled then Option.none
  else
    match pyIter uploads with
    | .error _ => Option.none
    | .ok items =>
      let step : Option (List Str) → PyVal → Option (List Str) := fun acc entry => do
        let urls ← acc
        let (_, fileTuple) ← (pyUnpack2 entry).toOption
        let filename ← (pyTupleIdx fileTuple 0).toOption
        let fileBytes ← (pyTupleIdx fileTuple 1).toOption
        let len ← (pyLen fileTuple).toOption
        let mime := if 2 < len then (pyTupleIdx fileTuple 2).toOption.getD (.str [])
          else .str "image/png".toList
        match fileBytes with
        | .bytes b =>
          match env.ossUpload b (pyStr filename) (pyStr mime) with
          | some u => some (urls ++ [u])
          | Option.none => Option.none
        | _ => Option.none
      items.foldl step (some [])

/-- `GenericAPIAdapter._prepare_images_base64`: build the
`_images_base64` data-URL list from `_upload_files` (a cached base64 is
reused, otherwise the bytes are encoded). -/
def prepareImagesBase64 (params : PyDict) : Except PyExn PyDict := do
  let uploads := params.getD "_upload_files".toList (.list .nil)
  let items ← pyIter uploads
  let images ← items.mapM fun entry => do
    let (_, fileTuple) ← pyUnpack2 entry
    let len ← pyLen fileTuple
    if 4 ≤ len then do
      if len ≠ 4 then
        throw (.valueError "unpacking a sequence of wrong length".toList)
      let mime ← pyTupleIdx fileTuple 2
      let cached ← pyTupleIdx fileTuple 3
      return PyVal.str ("data:".toList ++ pyStr mime ++ ";base64,".toList ++ pyStr cached)
    else do
      if len ≠ 3 then
        throw (.valueError "unpacking a sequence of wrong length".toList)
      let fileBytes ← pyTupleIdx fileTuple 1
      let mime ← pyTupleIdx fileTuple 2
      match fileBytes with
      | .bytes b =>
        return PyVal.str ("data:".toList ++ pyStr mime ++ ";base64,".toList ++ b64encode b)
      | _ => throw (.typeError "argument should be a bytes-like object".toList)
  return params.set "_images_base64".toList (.list (PyList.ofList images))

/-- The multipart renaming of `_upload_files` according to the
configured file-naming convention. -/
def renameUploadFiles (fileFormat fileField : Str) (items : List PyVal) :
    Except PyExn (List (Str × PyVal)) := do
  let withIdx := items.enum
  withIdx.mapM fun p => do
    let (i, entry) := p
    let (_, fileTuple) ← pyUnpack2 entry
    let len ← pyLen fileTuple
    let multipartTuple := if 3 < len then pySliceTo3 fileTuple else fileTuple
    let name : Str :=
      if fileFormat = "same_name".toList then fileField
      else if fileFormat = "indexed".toList then
        fileField ++ '[' :: natRep i ++ [']']
      else if fileFormat = "array".toList then fileField ++ "[]".toList
      else if fileFormat = "numbered".toList then fileField ++ natRep (i + 1)
      else fileField
    return (name, multipartTuple)

end Batchbox

namespace Batchbox

/-- `GenericAPIAdapter._build_openai_request`. -/
def buildOpenaiRequest (env : Env) (pc : ProviderConf) (ec : EndpointConf)
    (mc : ModeConf) (params₀ : PyDict) : Except PyExn RequestInfo := do
  let endpointPath := mc.endpoint.getD []
  let method := mc.method.getD "POST".toList
  let contentType₀ := mc.content_type.getD "application/json".toList
  let payloadTemplate := mc.payload_template.getD (.dict .nil)
  let url₀ := adapterBaseUrl pc ++ endpointPath
  -- headers (account mode falls back to bearer if the Account singleton
  -- is unavailable)
  let authType := ec.auth_type.getD "api".toList
  let headers₀ : List (Str × Str) :=
    if authType = "account".toList ∧ env.accountOk then
      [("X-Auth-T".toList, env.accountToken)]
    else
      [("Authorization".toList, "Bearer ".toList ++ pc.api_key)]
  -- OSS cache: upload images and switch to JSON + URL mode
  let useOss := ec.use_oss_cache.getD false
  let uploads := params₀.getD "_upload_files".toList (.list .nil)
  let ossUrls : Option (List Str) :=
    if useOss ∧ contentType₀ = "multipart/form-data".toList ∧ pyTruthy uploads then
      match ossUploadAll env uploads with
      | some us => if us.isEmpty then Option.none else some us
      | Option.none => Option.none
    else Option.none
  let (contentType, url, params₁) :=
    match ossUrls with
    | some us =>
      ("application/json".toList,
       adapterBaseUrl pc ++ (mc.oss_endpoint.getD "/v1/images/generations".toList),
       params₀.set "image_urls".toList (.list (PyList.ofList (us.map PyVal.str))))
    | Option.none => (contentType₀, url₀, params₀)
  -- prepare base64 data-URLs when the template mentions `_chat_content`
  let params ←
    if containsSubstr (pyStr payloadTemplate) "_chat_content".toList then
      prepareImagesBase64 params₁
    else pure params₁
  -- render the payload template
  let payload₀ ← render (mc.value_mappings.getD .nil) params payloadTemplate
  -- auto-add the endpoint's model name when not already present
  let modelName := ec.model_name.getD []
  let payload₁ ←
    if !modelName.isEmpty then do
      let hasModel ← pyContains payload₀ (.str "model".toList)
      if !hasModel then
        match payload₀ with
        | .dict kvs => pure (PyVal.dict (kvs.set "model".toList (.str modelName)))
        | _ => throw (.typeError "object does not support item assignment".toList)
      else pure payload₀
    else pure payload₀
  -- pass through all non-internal params not already in the payload
  let payload₂ ← params.toList.foldlM
    (fun (payload : PyVal) kv => do
      let (k, v) := kv
      if startsWith "_".toList k then pure payload
      else do
        let present ← pyContains payload (.str k)
        if present then pure payload
        else if v ≠ PyVal.none ∧ v ≠ PyVal.str [] then
          match payload with
          | .dict kvs => pure (PyVal.dict (kvs.set k v))
          | _ => throw (.typeError "object does not support item assignment".toList)
        else pure payload)
    payload₁
  -- merge the endpoint's extra_params without overwriting
  let extraParams := ec.extra_params.getD .nil
  let payload ←
    if !extraParams.toList.isEmpty then
      extraParams.toList.foldlM
        (fun (payload : PyVal) kv => do
          let (k, v) := kv
          let present ← pyContains payload (.str k)
          if !present then
            match payload with
            | .dict kvs => pure (PyVal.dict (kvs.set k v))
            | _ => throw (.typeError "object does not support item assignment".toList)
          else pure payload)
        payload₂
    else pure payload₂
  -- body representation by content type
  if contentType = "application/json".toList then
    return { url := url
             method := method
             headers := headers₀ ++ [("Content-Type".toList, contentType)]
             jsonBody := some payload }
  else if contentType = "multipart/form-data".toList then do
    match payload with
    | .dict kvs => do
      let dataDict := PyDict.ofList
        (kvs.toList.filter fun kv => !startsWith "_".toList kv.1)
      let fileFormat := firstTruthyStr
        [mc.file_format, ec.file_format, pc.file_format] "same_name".toList
      let fileField := firstTruthyStr
        [mc.file_field, ec.file_field, pc.file_field] "image".toList
      let uploadItems ← pyIter (params.getD "_upload_files".toList (.list .nil))
      let renamed ← renameUploadFiles fileFormat fileField uploadItems
      return { url := url
               method := method
               headers := headers₀
               dataBody := some (.dict dataDict)
               files := some renamed }
    | _ => throw (.attributeError "object has no attribute items".toList)
  else
    return { url := url
             method := method
             headers := headers₀ ++ [("Content-Type".toList, contentType)]
             dataBody := some payload }

/-- `GenericAPIAdapter._build_gemini_request`. -/
def buildGeminiRequest (env : Env) (pc : ProviderConf) (ec : EndpointConf)
    (mc : ModeConf) (params : PyDict) : Except PyExn RequestInfo := do
  let modelName := ec.model_name.getD []
  let endpointPath :=
    pyReplace (pyReplace (mc.endpoint.getD []) "\x7b\x7bmodel\x7d\x7d".toList modelName)
      "\x7bapi_key\x7d".toList pc.api_key
  let url := adapterBaseUrl pc ++ endpointPath
  let authType := ec.auth_type.getD "api".toList
  let authHeaderFormat := ec.auth_header_format.getD "bearer".toList
  let ctJson : Str × Str := ("Content-Type".toList, "application/json".toList)
  let headers : List (Str × Str) :=
    if authType = "account".toList ∧ env.accountOk then
      let mdn := params.getD "_model_display_name".toList (.str [])
      let resolved₀ := if pyTruthy mdn then env.resolveModelId (pyStr mdn) else []
      let resolved := if resolved₀.isEmpty then modelName else resolved₀
      let imageSize := params.getD "image_size".toList (.str "1K".toList)
      [("X-Auth-T".toList, env.accountToken),
       ("X-Model-ID".toList, resolved),
       ("X-Image-Size".toList, pyStr imageSize), ctJson]
    else if authType = "account".toList then
      [("Authorization".toList, "Bearer ".toList ++ pc.api_key), ctJson]
    else if authHeaderFormat = "none".toList then [ctJson]
    else [("Authorization".toList, "Bearer ".toList ++ pc.api_key), ctJson]
  -- contents: prompt text plus image parts
  let prompt := params.getD "prompt".toList (.str [])
  let textPart : PyVal := .dict (.cons "text".toList prompt .nil)
  let uploads := params.getD "_upload_files".toList (.list .nil)
  let useCache := mc.use_oss_cache.getD false || ec.use_oss_cache.getD false
  let googleApiKey : Option Str :=
    if useCache ∧ pyTruthy uploads ∧ ec.auth_type.getD "api".toList ≠ "account".toList
        ∧ !pc.api_key.isEmpty then
      some pc.api_key
    else Option.none
  let filesApiAvailable := googleApiKey.isSome ∧ env.filesAvailable
  let uploadItems ← pyIter uploads
  let imageParts ← uploadItems.mapM fun entry => do
    let (_, fileTuple) ← pyUnpack2 entry
    let len ← pyLen fileTuple
    let (fileBytes, mime, cached) ←
      if 4 ≤ len then do
        if len ≠ 4 then
          throw (.valueError "unpacking a sequence of wrong length".toList)
        pure (← pyTupleIdx fileTuple 1, ← pyTupleIdx fileTuple 2, ← pyTupleIdx fileTuple 3)
      else do
        if len ≠ 3 then
          throw (.valueError "unpacking a sequence of wrong length".toList)
        pure (← pyTupleIdx fileTuple 1, ← pyTupleIdx fileTuple 2, PyVal.none)
    -- Files API upload (failures fall back to inline base64)
    let fileUri : Option Str :=
      if filesApiAvailable then
        match googleApiKey, fileBytes with
        | some key, .bytes b =>
          let filename := (pyTupleIdx fileTuple 0).toOption.getD (.str [])
          env.filesUpload key b (pyStr filename) (pyStr mime)
        | _, _ => Option.none
      else Option.none
    match fileUri with
    | some uri =>
      return PyVal.dict (.cons "file_data".toList
        (.dict (.cons "mime_type".toList mime
          (.cons "file_uri".toList (.str uri) .nil))) .nil)
    | Option.none => do
      let b64Data ←
        if pyTruthy cached then pure (pyStr cached)
        else
          match fileBytes with
          | .bytes b => pure (b64encode b)
          | _ => throw (.typeError "argument should be a bytes-like object".toList)
      return PyVal.dict (.cons "inline_data".toList
        (.dict (.cons "mime_type".toList mime
          (.cons "data".toList (.str b64Data) .nil))) .nil)
  let contents : PyVal := .list (.cons
    (.dict (.cons "parts".toList
      (.list (PyList.ofList (textPart :: imageParts))) .nil)) .nil)
  -- generationConfig
  let gc₀ := mc.generation_config.getD .nil
  let extraParams := ec.extra_params.getD .nil
  let gc₁ :=
    match extraParams.get? "responseModalities".toList with
    | some v => if gc₀.hasKey "responseModalities".toList then gc₀
                else gc₀.set "responseModalities".toList v
    | Option.none => gc₀
  let gc₂ ←
    if params.hasKey "seed".toList ∧ pyTruthy (params.getD "seed".toList .none)
        ∧ !gc₁.hasKey "seed".toList then do
      let n ← pyToInt (params.getD "seed".toList .none)
      pure (gc₁.set "seed".toList (.int n))
    else pure gc₁
  -- imageConfig (the aspect-ratio sentinel "auto" is omitted)
  let ic₀ : PyDict := .nil
  let ic₁ :=
    if params.hasKey "image_size".toList ∧ pyTruthy (params.getD "image_size".toList .none) then
      ic₀.set "imageSize".toList (params.getD "image_size".toList .none)
    else ic₀
  let ic :=
    if params.hasKey "aspect_ratio".toList
        ∧ pyTruthy (params.getD "aspect_ratio".toList .none) then
      if params.getD "aspect_ratio".toList .none = .str "auto".toList then ic₁
      else ic₁.set "aspectRatio".toList (params.getD "aspect_ratio".toList .none)
    else ic₁
  let gc₃ := if !ic.toList.isEmpty then gc₂.set "imageConfig".toList (.dict ic) else gc₂
  let gc₄ := if gc₃.hasKey "maxOutputTokens".toList then gc₃
    else gc₃.set "maxOutputTokens".toList (.int 32768)
  let gc₅ := if gc₄.hasKey "temperature".toList then gc₄
    else gc₄.set "temperature".toList (.floatv "0.8".toList)
  let gc := if gc₅.hasKey "candidateCount".toList then gc₅
    else gc₅.set "candidateCount".toList (.int 1)
  let payload : PyVal := .dict (.cons "contents".toList contents
    (.cons "generationConfig".toList (.dict gc) .nil))
  return { url := url
           method := "POST".toList
           headers := headers
           jsonBody := some payload }

/-- `GenericAPIAdapter.build_request`: apply any prompt prefix, then
route by the endpoint's API format. -/
def buildRequest (env : Env) (pc : ProviderConf) (ec : EndpointConf)
    (mc : ModeConf) (params₀ : PyDict) : Except PyExn RequestInfo :=
  let promptPrefix := ec.prompt_prefix.getD []
  let params :=
    if !promptPrefix.isEmpty ∧ params₀.hasKey "prompt".toList then
      params₀.set "prompt".toList
        (.str (promptPrefix ++ pyStr (params₀.getD "prompt".toList (.str []))))
    else params₀
  if ec.api_format.getD "openai".toList = "gemini".toList then
    buildGeminiRequest env pc ec mc params
  else
    buildOpenaiRequest env pc ec mc params

end Batchbox

namespace Batchbox

/-! ## The executor (`GenericAPIAdapter.execute`) -/

deriving instance DecidableEq for Except

/-- `str(e)` of a modelled exception (the text wrapped into converted
failure responses). -/
def pyExnMsg : PyExn → Str
  | .typeError m => m
  | .valueError m => m
  | .indexError => "list index out of range".toList
  | .attributeError m => m

/-- The adapter's request timeout attribute (`self.timeout = 600`). -/
def ADAPTER_TIMEOUT_S : Nat := 600

/-- What one execution of the retry loop produced: the final result (or
the escaping exception), the number of HTTP calls made, and the backoff
delays slept between them. -/
structure ExecOutcome where
  result : Except PyExn APIResponse
  calls : Nat
  delays : List ℚ
deriving DecidableEq

/-- Everything the `try` block does after a non-retryable (or
retry-exhausted) HTTP response arrives: status check, response parsing
(an exception here is caught by the `except Exception` clause and
converted), async polling, and URL downloads. -/
def executeFinish (env : Env) (pc : ProviderConf) (ec : EndpointConf)
    (mc : ModeConf) (status : Nat) (body : Option PyVal) (text : Str) :
    APIResponse :=
  let isSuccess := 200 ≤ status ∧ status < 300
  if !isSuccess then
    { success := false
      error_message := "HTTP ".toList ++ natRep status ++ ": ".toList ++ text.take 200
      raw_response := .dict (.cons "status_code".toList (.int status)
        (.cons "text".toList (.str text) .nil)) }
  else
    match parseResponse ec mc body text with
    | .error e =>
      { success := false
        error_message := "Request failed: ".toList ++ pyExnMsg e }
    | .ok r₀ =>
      let r₁ :=
        if !r₀.task_id.isEmpty ∧ r₀.status = "pending".toList then
          (pollForResult env pc mc r₀.task_id ADAPTER_TIMEOUT_S).1
        else r₀
      if r₁.success ∧ !r₁.image_urls.isEmpty ∧ r₁.images.isEmpty then
        { r₁ with images := r₁.image_urls.filterMap (downloadImage env) }
      else r₁

/-- The `for attempt in range(max_retries + 1)` loop of `execute`.  The
fuel is the number of attempts remaining (`max_retries + 1` initially),
so its exhaustion is exactly the loop running off its range; `lastError`
threads the `last_error` local. -/
def executeAttempts (env : Env) (pc : ProviderConf) (ec : EndpointConf)
    (mc : ModeConf) (cfg : RetryConfig) :
    Nat → Option Str → Nat → Except PyExn APIResponse × Nat × List ℚ
  | _, lastError, 0 =>
    (.ok { success := false
           error_message := lastError.getD "Unknown error".toList }, 0, [])
  | attempt, lastError, fuel + 1 =>
    match env.http attempt with
    | .resp status body text =>
      if status ∈ RETRYABLE_STATUS_CODES ∧ attempt < cfg.max_retries then
        let inner := executeAttempts env pc ec mc cfg (attempt + 1) lastError fuel
        (inner.1, inner.2.1 + 1, calculateDelay attempt cfg :: inner.2.2)
      else
        (.ok (executeFinish env pc ec mc status body text), 1, [])
    | .timeoutExn =>
      let msg := "Request timeout after ".toList ++ natRep ADAPTER_TIMEOUT_S ++ "s".toList
      if attempt < cfg.max_retries then
        let inner := executeAttempts env pc ec mc cfg (attempt + 1) (some msg) fuel
        (inner.1, inner.2.1 + 1, calculateDelay attempt cfg :: inner.2.2)
      else
        (.ok { success := false, error_message := msg }, 1, [])
    | .connExn m =>
      let msg := "Connection error: ".toList ++ m
      if attempt < cfg.max_retries then
        let inner := executeAttempts env pc ec mc cfg (attempt + 1) (some msg) fuel
        (inner.1, inner.2.1 + 1, calculateDelay attempt cfg :: inner.2.2)
      else
        (.ok { success := false, error_message := msg }, 1, [])
    | .otherExn m =>
      (.ok { success := false
             error_message := "Request failed: ".toList ++ m }, 1, [])

/-- The pre-loop multipart diagnostics
(`sum(len(f[1][1]) for f in files if len(f) > 1 and len(f[1]) > 1)`),
which run outside the `try` and can raise on malformed file tuples. -/
def multipartDebugCheck (ri : RequestInfo) : Except PyExn Unit :=
  match ri.jsonBody, ri.files with
  | Option.none, some fs =>
    fs.foldlM
      (fun _ f => do
        let innerLen ← pyLen f.2
        if 1 < innerLen then do
          let inner1 ← pyTupleIdx f.2 1
          let _ ← pyLen inner1
          pure ()
        else pure ())
      ()
  | _, _ => .ok ()

/-- `GenericAPIAdapter.execute(params, mode, retry_config=None)`:
request building and the pre-loop diagnostics run before the `try`, so
their exceptions escape; the attempt loop then classifies outcomes and
retries with backoff. -/
def execute (env : Env) (pc : ProviderConf) (ec : EndpointConf) (mc : ModeConf)
    (params : PyDict) (retryConfig : Option RetryConfig := Option.none) :
    ExecOutcome :=
  let cfg := retryConfig.getD {}
  match buildRequest env pc ec mc params with
  | .error e => { result := .error e, calls := 0, delays := [] }
  | .ok ri =>
    match multipartDebugCheck ri with
    | .error e => { result := .error e, calls := 0, delays := [] }
    | .ok _ =>
      let out := executeAttempts env pc ec mc cfg 0 Option.none (cfg.max_retries + 1)
      { result := out.1, calls := out.2.1, delays := out.2.2 }

end Batchbox

namespace Batchbox

/-! ## Configuration manager (`src/config_manager.py`): endpoint
selection and failover candidates.

The YAML loading, hot reloading and TTL caches are I/O plumbing with no
semantic effect on one request's execution; the model works from the
loaded configuration. -/

/-- One entry of the `providers` section. -/
structure ProviderEntry where
  display_name : Option Str := Option.none
  base_url : Option Str := Option.none
  api_key : Option Str := Option.none
deriving DecidableEq

/-- The loaded configuration, restricted to the fields the execution
pipeline reads: providers, each model's `api_endpoints`, and the two
settings the generator consults. -/
structure Config where
  providers : List (Str × ProviderEntry) := []
  models : List (Str × List EndpointConf) := []
  settings_auto_failover : Option Bool := Option.none
  node_auto_endpoint_mode : Option Str := Option.none
deriving DecidableEq

/-- `ConfigManager.get_provider_config` (the dataclass's fields the
pipeline uses; `base_url` is right-stripped of `/`). -/
def getProviderConfig (cfg : Config) (name? : Option Str) : Option ProviderConf := do
  let name ← name?
  let p ← (cfg.providers.find? fun e => e.1 = name).map Prod.snd
  return { name := name
           base_url := rstripSlash (p.base_url.getD [])
           api_key := p.api_key.getD [] }

/-- The priority sort key (`x.get("priority", 999)`). -/
def priorityKey (ep : EndpointConf) : Int := ep.priority.getD 999

/-- `ConfigManager.get_api_endpoints`: a model's endpoints sorted
ascending by priority (Python's stable `sorted`). -/
def getApiEndpoints (cfg : Config) (model : Str) : List EndpointConf :=
  match (cfg.models.find? fun e => e.1 = model).map Prod.snd with
  | Option.none => []
  | some eps => sortLe (fun a b => decide (priorityKey a ≤ priorityKey b)) eps

/-- A selected endpoint: the dict
`{"provider": ..., "config": ..., "endpoint_config": ...}`. -/
structure EndpointInfo where
  provider : ProviderConf
  config : ModeConf
  endpoint_config : EndpointConf
deriving DecidableEq

/-- Does the mode's config carry a truthy `endpoint` path
(`modes[mode].get("endpoint")`)? -/
def modeHasEndpoint (m : ModeConf) : Bool :=
  match m.endpoint with
  | some s => !s.isEmpty
  | Option.none => false

/-- A provider usable for selection: configured and with a non-empty API
key (`if not provider or not provider.api_key: continue`). -/
def usableProvider (cfg : Config) (ep : EndpointConf) : Option ProviderConf := do
  let prov ← getProviderConfig cfg ep.provider
  if prov.api_key.isEmpty then Option.none else some prov

/-- The requested-mode-or-fallback selection shared by the lookup
functions: the requested mode if configured with an endpoint path,
otherwise the other mode. -/
def selectModeWithFallback (ep : EndpointConf) (prov : ProviderConf)
    (mode fallbackMode : Str) : Option EndpointInfo :=
  match ep.getMode? mode with
  | some m =>
    if modeHasEndpoint m then some ⟨prov, m, ep⟩
    else
      match ep.getMode? fallbackMode with
      | some fm => if modeHasEndpoint fm then some ⟨prov, fm, ep⟩ else Option.none
      | Option.none => Option.none
  | Option.none =>
    match ep.getMode? fallbackMode with
    | some fm => if modeHasEndpoint fm then some ⟨prov, fm, ep⟩ else Option.none
    | Option.none => Option.none

/-- The fallback mode (`"img2img" if mode == "text2img" else "text2img"`). -/
def fallbackModeOf (mode : Str) : Str :=
  if mode = "text2img".toList then "img2img".toList else "text2img".toList

/-- `ConfigManager.get_best_endpoint`: first endpoint, in priority
order, whose provider is usable and that offers the mode (or its
fallback) with an endpoint path. -/
def getBestEndpoint (cfg : Config) (model : Str) (mode : Str) :
    Option EndpointInfo :=
  go (getApiEndpoints cfg model)
where
  /-- Scan the sorted endpoint list. -/
  go : List EndpointConf → Option EndpointInfo
  | [] => Option.none
  | ep :: rest =>
    match usableProvider cfg ep with
    | Option.none => go rest
    | some prov =>
      match selectModeWithFallback ep prov mode (fallbackModeOf mode) with
      | some info => some info
      | Option.none => go rest

/-- The name an endpoint is matched by for manual selection
(`ep.get("display_name") or ep.get("provider")`). -/
def endpointDisplayName (ep : EndpointConf) : Option Str :=
  match ep.display_name with
  | some s => if s.isEmpty then ep.provider else some s
  | Option.none => ep.provider

/-- `ConfigManager.get_endpoint_by_name`: match by display name or
provider name; silently falls back to priority selection when no usable
endpoint matches. -/
def getEndpointByName (cfg : Config) (model : Str) (name : Str) (mode : Str) :
    Option EndpointInfo :=
  go (getApiEndpoints cfg model)
where
  /-- Scan the sorted endpoint list for a name match. -/
  go : List EndpointConf → Option EndpointInfo
  | [] => getBestEndpoint cfg model mode
  | ep :: rest =>
    if endpointDisplayName ep ≠ some name then go rest
    else
      match usableProvider cfg ep with
      | Option.none => go rest
      | some prov =>
        match selectModeWithFallback ep prov mode (fallbackModeOf mode) with
        | some info => some info
        | Option.none => go rest

/-- `ConfigManager.get_endpoint_by_index` (round-robin selection):
index modulo the endpoint count, with fallback to priority selection
when the indexed endpoint is unusable. -/
def getEndpointByIndex (cfg : Config) (model : Str) (index : Nat) (mode : Str) :
    Option EndpointInfo :=
  let endpoints := getApiEndpoints cfg model
  if endpoints.isEmpty then Option.none
  else
    match endpoints.get? (index % endpoints.length) with
    | Option.none => Option.none
    | some ep =>
      match usableProvider cfg ep with
      | Option.none => getBestEndpoint cfg model mode
      | some prov =>
        match selectModeWithFallback ep prov mode (fallbackModeOf mode) with
        | some info => some info
        | Option.none => getBestEndpoint cfg model mode

/-- One iteration of the `get_alternative_endpoints` loop: skip the
excluded provider, skip unusable providers, require the requested mode
(no mode fallback here). -/
def alternativeCandidate (cfg : Config) (mode : Str)
    (excludeProvider : Option Str) (ep : EndpointConf) : Option EndpointInfo :=
  if ep.provider = excludeProvider then Option.none
  else
    match usableProvider cfg ep with
    | Option.none => Option.none
    | some prov =>
      match ep.getMode? mode with
      | some m => some ⟨prov, m, ep⟩
      | Option.none => Option.none

/-- `ConfigManager.get_alternative_endpoints`: the failover candidates —
every endpoint, in priority order, whose provider differs from the
excluded one, is usable, and configures the requested mode. -/
def getAlternativeEndpoints (cfg : Config) (model : Str) (mode : Str)
    (excludeProvider : Option Str) : List EndpointInfo :=
  (getApiEndpoints cfg model).filterMap
    (alternativeCandidate cfg mode excludeProvider)

/-! ## `IndependentGenerator` (`src/independent_generator.py`) -/

/-- One abstract run of `GenericAPIAdapter(...).execute(params, mode)`
for a selected endpoint.  `execute` is deterministic once an `Env` is
fixed, so quantifying over this oracle quantifies over the adapter's
possible behaviours (including a raised exception, which
`execute_with_failover` does not catch). -/
abbrev ExecOracle := EndpointInfo → PyDict → Except PyExn APIResponse

/-- `IndependentGenerator.get_adapter`: endpoint selection by override
name, round-robin counter, or priority.  `rrCurrent` is the value of the
shared per-model round-robin counter observed by this call. -/
def getAdapter (cfg : Config) (rrCurrent : Nat) (model : Str) (mode : Str)
    (endpointOverride : Option Str) : Option EndpointInfo :=
  match endpointOverride with
  | some name => getEndpointByName cfg model name mode
  | Option.none =>
    let autoMode := cfg.node_auto_endpoint_mode.getD "priority".toList
    if autoMode = "round_robin".toList then
      if (getApiEndpoints cfg model).isEmpty then Option.none
      else getEndpointByIndex cfg model rrCurrent mode
    else getBestEndpoint cfg model mode

/-- The undifferentiated final failure of `execute_with_failover`. -/
def allProvidersFailed : APIResponse :=
  { success := false, error_message := "All providers failed".toList }

/-- The failover loop over the alternative endpoints: first success
wins, otherwise the undifferentiated failure. -/
def tryAlternatives (oracle : ExecOracle) (params : PyDict) :
    List EndpointInfo → Except PyExn APIResponse
  | [] => .ok allProvidersFailed
  | alt :: rest => do
    let r ← oracle alt params
    if r.success then return r else tryAlternatives oracle params rest

/-- `IndependentGenerator.execute_with_failover`: run the selected
endpoint; on failure — and only when no explicit override disabled
failover — try every alternative whose provider differs from the one
that just failed. -/
def executeWithFailover (cfg : Config) (oracle : ExecOracle) (rrCurrent : Nat)
    (model : Str) (params₀ : PyDict) (mode : Str)
    (endpointOverride : Option Str) : Except PyExn APIResponse := do
  let autoFailover₀ := cfg.settings_auto_failover.getD true
  let autoFailover := if endpointOverride.isSome then false else autoFailover₀
  let params := params₀.set "_model_display_name".toList (.str model)
  let adapter? := getAdapter cfg rrCurrent model mode endpointOverride
  let primaryFailed ←
    match adapter? with
    | some info => do
      let r ← oracle info params
      if r.success then return r else pure ()
    | Option.none => pure ()
  let _ := primaryFailed
  if autoFailover then
    let exclude := adapter?.map fun info => info.provider.name
    let alts := getAlternativeEndpoints cfg model mode exclude
    tryAlternatives oracle params alts
  else
    return allProvidersFailed

end Batchbox

namespace Batchbox

/-! ## The batch orchestrator (`IndependentGenerator.generate`)

`asyncio.gather(*tasks, return_exceptions=True)` returns the items'
outcomes in task order whatever the completion order; each item is the
deterministic function of its own inputs modelled by `processItem`
below, so the model evaluates the items in index order.  The per-item
round-robin counter reads under concurrency are an oracle (`rrOf`). -/

/-- The result dict `generate` returns. -/
structure GenResult where
  success : Bool
  error : Option Str := Option.none
  preview_images : List PyVal := []
  response_info : Option Str := Option.none
  params_hash : Option Str := Option.none
deriving DecidableEq

/-- Strip a data-URL prefix: `img_b64.split(",", 1)[1]` when a comma is
present. -/
def stripDataUrlPrefix (s : Str) : Str :=
  if s.contains ',' then (s.dropWhile (fun c => c ≠ ',')).drop 1 else s

/-- The shared upload-file entries built once from the base64 inputs
(decode failures are caught and skipped): the tuple
`(f"image{i+1}", (f"image{i+1}.png", bytes, "image/png", img_b64))`. -/
def buildSharedUploads (imagesBase64 : List Str) : List PyVal :=
  imagesBase64.enum.filterMap fun p =>
    let (i, raw) := p
    let b64 := stripDataUrlPrefix raw
    match pyB64decode b64 with
    | Option.none => Option.none
    | some bs =>
      let name := "image".toList ++ natRep (i + 1)
      some (.list (.cons (.str name)
        (.cons (.list (.cons (.str (name ++ ".png".toList))
          (.cons (.bytes bs)
            (.cons (.str "image/png".toList)
              (.cons (.str b64) .nil))))) .nil)))

/-- The image handling of one successful item: PIL-decode each returned
image (an error is logged), save it immediately (a `None` save result is
dropped), collecting previews in order. -/
def itemImagesFold (env : Env) (batchIdx : Nat) (images : List Bytes) :
    List PyVal × Str :=
  images.foldl
    (fun acc b =>
      match env.pilError b with
      | some e => (acc.1, acc.2 ++ "Image decode error: ".toList ++ e ++ "\n".toList)
      | Option.none =>
        match env.savePreview b batchIdx with
        | some p => (acc.1 ++ [p], acc.2)
        | Option.none => acc)
    ([], [])

/-- `process_single_batch(batch_idx)`: derive the item's seed, run the
failover executor (an exception escapes to `gather`), then decode and
save.  Returns `(previews, log)`. -/
def processItem (cfg : Config) (oracle : ExecOracle) (env : Env)
    (rrOf : Nat → Nat) (model : Str) (params : PyDict) (mode : Str)
    (endpointOverride : Option Str) (seed : Int) (batchIdx : Nat) :
    Except PyExn (List PyVal × Str) := do
  let currentSeed : Int := if seed > 0 then seed + batchIdx else 0
  let currentParams :=
    if currentSeed > 0 then params.set "seed".toList (.int currentSeed) else params
  let result ← executeWithFailover cfg oracle (rrOf batchIdx) model currentParams
    mode endpointOverride
  if result.success then
    return itemImagesFold env batchIdx result.images
  else
    return ([], "Batch ".toList ++ natRep (batchIdx + 1) ++ " failed: ".toList
      ++ result.error_message ++ "\n".toList)

/-- The sort key of the result-collection pass
(`x[0] if isinstance(x, tuple) else 999`). -/
def gatherKey (r : Nat × Except PyExn (List PyVal × Str)) : Nat :=
  match r.2 with
  | .ok _ => r.1
  | .error _ => 999

/-- The shared parameter dict `generate` builds before dispatch:
`{"prompt": ..., "seed": ...}` merged with `extra_params`, plus the
shared `_upload_files` entries when decoding produced any. -/
def genBaseParams (prompt : Str) (seed : Int) (extraParams : Option PyDict)
    (imagesBase64 : Option (List Str)) : PyDict :=
  let params₀ : PyDict := .cons "prompt".toList (.str prompt)
    (.cons "seed".toList (.int seed) .nil)
  let params₁ := match extraParams with
    | some d => params₀.update d
    | Option.none => params₀
  let uploads := match imagesBase64 with
    | some imgs => if imgs.isEmpty then [] else buildSharedUploads imgs
    | Option.none => []
  if uploads.isEmpty then params₁
  else params₁.set "_upload_files".toList (.list (PyList.ofList uploads))

/-- The parameter dict batch item `batchIdx` executes with: the shared
params after per-item seed derivation
(`current_seed = seed + batch_idx if seed > 0 else 0`, written into the
dict only when positive). -/
def itemParams (prompt : Str) (seed : Int) (extraParams : Option PyDict)
    (imagesBase64 : Option (List Str)) (batchIdx : Nat) : PyDict :=
  let params := genBaseParams prompt seed extraParams imagesBase64
  let currentSeed : Int := if seed > 0 then seed + batchIdx else 0
  if currentSeed > 0 then params.set "seed".toList (.int currentSeed) else params

/-- `IndependentGenerator.generate`: build the shared parameters and
uploads, dispatch every batch item, reassemble in index order, and
aggregate.  The returned `Except` carries an exception the coroutine
itself would raise (the content-hash serialization is the only source
after dispatch). -/
def generate (cfg : Config) (oracle : ExecOracle) (env : Env)
    (rrOf : Nat → Nat) (model prompt : Str) (seed : Int) (batchCount : Nat)
    (extraParams : Option PyDict) (imagesBase64 : Option (List Str))
    (endpointOverride : Option Str) : Except PyExn GenResult := do
  let hasImages := match imagesBase64 with
    | some imgs => !imgs.isEmpty
    | Option.none => false
  let mode := if hasImages then "img2img".toList else "text2img".toList
  let params := genBaseParams prompt seed extraParams imagesBase64
  let results := (List.range batchCount).map fun i =>
    (i, processItem cfg oracle env rrOf model params mode endpointOverride seed i)
  let sortedResults := sortLe (fun a b => decide (gatherKey a ≤ gatherKey b)) results
  let collected := sortedResults.foldl
    (fun (acc : List PyVal × Str) r =>
      match r.2 with
      | .ok (previews, log) => (acc.1 ++ previews, acc.2 ++ log)
      | .error e => (acc.1, acc.2 ++ "Batch error: ".toList ++ pyExnMsg e ++ "\n".toList))
    ([], [])
  let allPreviews := collected.1
  let responseLog := collected.2
  if allPreviews.isEmpty then
    return { success := false
             error := some ("Generation failed.\n".toList ++ responseLog) }
  else do
    let paramsHash ← computeParamsHash model prompt batchCount seed extraParams
    return { success := true
             preview_images := allPreviews
             response_info := some (if responseLog.isEmpty then "Success".toList
               else responseLog)
             params_hash := some paramsHash }

end Batchbox

namespace Batchbox

/-! ## Derived observations used by the verification statements -/

/-- The previews batch item `i` contributes to the aggregate (empty for
a failed or crashed item). -/
def itemPreviews (cfg : Config) (oracle : ExecOracle) (env : Env)
    (rrOf : Nat → Nat) (model : Str) (params : PyDict) (mode : Str)
    (endpointOverride : Option Str) (seed : Int) (i : Nat) : List PyVal :=
  match processItem cfg oracle env rrOf model params mode endpointOverride seed i with
  | .ok (previews, _) => previews
  | .error _ => []

/-- The log fragment batch item `i` contributes to the aggregate. -/
def itemLog (cfg : Config) (oracle : ExecOracle) (env : Env)
    (rrOf : Nat → Nat) (model : Str) (params : PyDict) (mode : Str)
    (endpointOverride : Option Str) (seed : Int) (i : Nat) : Str :=
  match processItem cfg oracle env rrOf model params mode endpointOverride seed i with
  | .ok (_, log) => log
  | .error e => "Batch error: ".toList ++ pyExnMsg e ++ "\n".toList

/-- How one polling iteration treats one HTTP outcome: a decisive
success status (carrying the body), a decisive failure status, or
indecisive (non-200, unparsable body, bad status path, raised exception,
or an unrecognized status value). -/
inductive PollDecision where
  | success (data : PyVal)
  | failure (data : PyVal)
  | indecisive
deriving DecidableEq

/-- Classify one polling outcome exactly as the loop body does. -/
def pollDecisionOf (mc : ModeConf) (a : HttpAttempt) : PollDecision :=
  match a with
  | .resp status body _ =>
    if status ≠ 200 then .indecisive
    else
      match body with
      | Option.none => .indecisive
      | some data =>
        match getNestedValue data (mc.status_path.getD "data.status".toList) with
        | .error _ => .indecisive
        | .ok statusVal =>
          let normalizedStatus :=
            if statusVal = PyVal.none then []
            else pyUpper (pyStrip (pyStr statusVal))
          if normalizedStatus = pyUpper (pyStrip (mc.success_value.getD "SUCCESS".toList)) then
            .success data
          else if normalizedStatus ∈ POLL_FAILURE_VALUES then .failure data
          else .indecisive
  | _ => .indecisive

/-- Is one main-loop HTTP outcome one the executor retries (a retryable
status code, a timeout, or a connection error)? -/
def retryableOutcome (a : HttpAttempt) : Bool :=
  match a with
  | .resp status _ _ => status ∈ RETRYABLE_STATUS_CODES
  | .timeoutExn => true
  | .connExn _ => true
  | .otherExn _ => false

/-- A scalar JSON value: `None`, a boolean, an integer or a string (the
value universe over which hash-sensitivity is proved). -/
def scalarOK : PyVal → Bool
  | .none => true
  | .bool _ => true
  | .int _ => true
  | .str _ => true
  | _ => false

/-! ## A decoder for the canonical JSON of scalar dicts

These definitions reverse `jsonSer` on the serializations it produces
for string-keyed dicts of scalar values; the round-trip theorems below
turn them into the injectivity facts the hash-sensitivity claim needs.
They are verification tools, not part of the embedded program. -/

/-- Decode the body of a JSON string literal up to its closing quote,
undoing `jsonEscape`. -/
def parseStrBody : Str → Option (Str × Str)
  | [] => Option.none
  | '"' :: rest => some ([], rest)
  | '\\' :: c :: rest => do
    let (s, r) ← parseStrBody rest
    some (c :: s, r)
  | '\\' :: [] => Option.none
  | c :: rest => do
    let (s, r) ← parseStrBody rest
    some (c :: s, r)

/-- Munch a maximal digit run and its value. -/
def parseNatMunch (s : Str) : Option (Nat × Str) :=
  let ds := s.takeWhile isDigitChar
  if ds.isEmpty then Option.none
  else some (digitsVal ds, s.dropWhile isDigitChar)

/-- Decode one serialized scalar. -/
def parseScalar : Str → Option (PyVal × Str)
  | 'n' :: 'u' :: 'l' :: 'l' :: r => some (.none, r)
  | 't' :: 'r' :: 'u' :: 'e' :: r => some (.bool true, r)
  | 'f' :: 'a' :: 'l' :: 's' :: 'e' :: r => some (.bool false, r)
  | '"' :: r => do
    let (s, r') ← parseStrBody r
    some (.str s, r')
  | '-' :: r => do
    let (n, r') ← parseNatMunch r
    some (.int (-(n : Int)), r')
  | s => do
    let (n, r') ← parseNatMunch s
    some (.int (n : Int), r')

/-- Decode a comma-separated entry list up to the closing brace. -/
def parseEntries : Nat → Str → Option (List (Str × PyVal) × Str)
  | 0, _ => Option.none
  | fuel + 1, s =>
    match s with
    | '"' :: r => do
      let (k, r₁) ← parseStrBody r
      match r₁ with
      | ':' :: r₂ => do
        let (v, r₃) ← parseScalar r₂
        match r₃ with
        | ',' :: r₄ => do
          let (es, r₅) ← parseEntries fuel r₄
          some ((k, v) :: es, r₅)
        | c :: r₄ =>
          if c = rbrace then some ([(k, v)], r₄) else Option.none
        | [] => Option.none
      | _ => Option.none
    | _ => Option.none

/-- Decode a whole serialized scalar dict. -/
def parseDict (s : Str) : Option (List (Str × PyVal)) :=
  match s with
  | c :: r =>
    if c = lbrace then
      match r with
      | d :: r' => if d = rbrace ∧ r' = [] then some [] else
        match parseEntries r.length r with
        | some (es, r₂) => if r₂ = [] then some es else Option.none
        | Option.none => Option.none
      | [] => Option.none
    else Option.none
  | [] => Option.none

/-- The hex value of a fingerprint digit. -/
def hexDigitVal (c : Char) : Nat :=
  if c.toNat ≥ 97 then c.toNat - 87 else c.toNat - 48

/-- Fold a hex string back into its value. -/
def hexVal (s : Str) : Nat :=
  s.foldl (fun acc c => acc * 16 + hexDigitVal c) 0

end Batchbox

namespace Batchbox

/-! # Verification

Shared lemmas first, then one theorem per verified property (with a
closed witness instantiation wherever a theorem carries hypotheses). -/

/-- Setting a key makes it the key's binding. -/
theorem PyDict.get?_set : ∀ (d : PyDict) (k : Str) (v : PyVal),
    (d.set k v).get? k = some v
  | .nil, k, v => by simp [PyDict.set, PyDict.get?]
  | .cons k' v' tl, k, v => by
    by_cases h : k' = k
    · simp [PyDict.set, PyDict.get?, h]
    · simp [PyDict.set, PyDict.get?, h, PyDict.get?_set tl k v]

/-- Setting another key leaves a key's binding unchanged. -/
theorem PyDict.get?_set_ne : ∀ (d : PyDict) (k k' : Str) (v : PyVal),
    k' ≠ k → (d.set k' v).get? k = d.get? k
  | .nil, k, k', v, h => by simp [PyDict.set, PyDict.get?, h]
  | .cons k₀ v₀ tl, k, k', v, h => by
    by_cases h₀ : k₀ = k'
    · subst h₀
      simp [PyDict.set, PyDict.get?, h]
    · by_cases h₁ : k₀ = k
      · simp [PyDict.set, PyDict.get?, h₀, h₁, Ne.symm h]
      · simp [PyDict.set, PyDict.get?, h₀, h₁, PyDict.get?_set_ne tl k k' v h]

/-- `update` with a dict lacking a key leaves that key's binding
unchanged. -/
theorem PyDict.get?_update_of_not_hasKey :
    ∀ (d₂ d : PyDict) (k : Str), d₂.hasKey k = false →
      (d.update d₂).get? k = d.get? k
  | .nil, d, k, _ => by simp [PyDict.update]
  | .cons k₂ v₂ tl, d, k, h => by
    simp only [PyDict.hasKey] at h
    by_cases hk : k₂ = k
    · simp [hk] at h
    · simp only [PyDict.update]
      rw [PyDict.get?_update_of_not_hasKey tl _ _ (by simpa [hk] using h),
        PyDict.get?_set_ne _ _ _ _ hk]

end Batchbox

namespace Batchbox

/-- C10: with `response_type='async'` but a task-id path that extracts
nothing truthy from the body, `parse_response` does not fail over the
missing task id: it falls through to synchronous extraction along the
configured response path, succeeding with the extracted images when the
path matches and failing with "No images found in response" when it
does not. -/
theorem parse_response_async_fallthrough
    (ec : EndpointConf) (mc : ModeConf) (data : PyVal) (text : Str) (tv : PyVal)
    (hfmt : ec.api_format.getD "openai".toList ≠ "gemini".toList)
    (hcands : pyContains data (.str "candidates".toList) = .ok false)
    (hasync : mc.response_type.getD "sync".toList = "async".toList)
    (htid : getNestedValue data (mc.task_id_path.getD "task_id".toList) = .ok tv)
    (htv : pyTruthy tv = false) :
    parseResponse ec mc (some data) text =
      .ok (match extractImagesFromPath data (mc.response_path.getD "data[0].url".toList) with
        | some e => { success := true, image_urls := e.urls, images := e.bytesList,
                      raw_response := data }
        | Option.none => { success := false,
                           error_message := "No images found in response".toList,
                           raw_response := data }) := by
  simp only [parseResponse, hcands, hasync, htid, htv, hfmt, bind, Except.bind,
    if_false, if_true]
  simp [hfmt, htv, pure, Except.pure]
  split <;> simp_all

/-- C10 witness: an async mode whose body has no task id but does carry
an image URL at the default `data[0].url` path. -/
theorem parse_response_async_fallthrough_witness :
    parseResponse {} { response_type := some "async".toList }
      (some (.dict (.cons "data".toList
        (.list (.cons (.dict (.cons "url".toList (.str "http://x/i.png".toList) .nil))
          .nil)) .nil))) [] =
      .ok { success := true, image_urls := [.str "http://x/i.png".toList],
            images := [],
            raw_response := .dict (.cons "data".toList
              (.list (.cons (.dict (.cons "url".toList (.str "http://x/i.png".toList) .nil))
                .nil)) .nil) } := by
  rw [parse_response_async_fallthrough {} { response_type := some "async".toList }
    (.dict (.cons "data".toList
      (.list (.cons (.dict (.cons "url".toList (.str "http://x/i.png".toList) .nil))
        .nil)) .nil)) [] PyVal.none
    (by decide) (by decide) (by decide) (by decide) (by decide)]
  rfl

end Batchbox

namespace Batchbox

/-- A key that looks up to a value is present. -/
theorem PyDict.hasKey_of_get? : ∀ (d : PyDict) (k : Str) (v : PyVal),
    d.get? k = some v → d.hasKey k = true
  | .nil, k, v, h => by simp [PyDict.get?] at h
  | .cons k' v' tl, k, v, h => by
    by_cases hk : k' = k
    · simp [PyDict.hasKey, hk]
    · simp only [PyDict.get?, if_neg hk] at h
      simp [PyDict.hasKey, hk, PyDict.hasKey_of_get? tl k v h]

/-- The value-scan of `_get_mapped_value` only ever selects a string
that is a key of the mapping table. -/
theorem scan_mapping_finds_key :
    ∀ (m : PyDict) (vals : List PyVal) (s : Str),
      scanParamsForMapping (.dict m) vals = .ok (.str s) → m.hasKey s = true
  | m, [], s, h => by simp [scanParamsForMapping, pure, Except.pure] at h
  | m, v :: rest, s, h => by
    match v with
    | .str s' =>
      simp only [scanParamsForMapping, pyContains, bind, Except.bind, pure, Except.pure] at h
      by_cases hk : m.hasKey s'
      · simp [hk] at h
        simp [← h, hk]
      · simp [hk] at h
        exact scan_mapping_finds_key m rest s h
    | .none | .bool _ | .int _ | .floatv _ | .bytes _ | .list _ | .dict _ =>
      simp only [scanParamsForMapping] at h
      exact scan_mapping_finds_key m rest s h

/-- C7: for `_map_X` / `_extract_X` with the mapping table configured,
the source value is `params[X]` when that key is present (the result
being the table's entry for it, or the raw source value when the table
has none), otherwise the scan over all parameter values picks the first
string that is a key of the table — so the scanned result is always the
mapped value. -/
theorem get_mapped_value_claim
    (vm params m : PyDict) (X name : Str)
    (hname : name = "_map_".toList ++ X ∨ name = "_extract_".toList ++ X)
    (hm : vm.get? name = some (.dict m)) :
    (∀ s, params.get? X = some (.str s) →
       getMappedValue vm name params = .ok ((m.get? s).getD (.str s)))
    ∧ (params.hasKey X = false →
       ∀ s, scanParamsForMapping (.dict m) params.values = .ok (.str s) →
         getMappedValue vm name params = .ok ((m.get? s).getD (.str s)))
    ∧ (∀ s, scanParamsForMapping (.dict m) params.values = .ok (.str s) →
         m.hasKey s = true) := by
  have hsw : ∀ (p r : Str), startsWith p (p ++ r) = true := by
    intro p r
    simp [startsWith, List.take_left]
  have hdr : ∀ (p r : Str), (p ++ r).drop p.length = r := by
    intro p r
    simp [List.drop_left]
  have hne : startsWith "_map_".toList ("_extract_".toList ++ X) = false := by
    simp [startsWith, List.take_append]
  refine ⟨?_, ?_, fun s h => scan_mapping_finds_key m params.values s h⟩
  · intro s hs
    have hkey := PyDict.hasKey_of_get? params X _ hs
    rcases hname with h | h <;> subst h
    · have h5 : ("_map_".toList ++ X).drop 5 = X := hdr "_map_".toList X
      simp only [getMappedValue, hm, hsw, h5, hkey, and_true, true_and, if_true,
        PyDict.getD, hs, Option.getD_some, bind, Except.bind]
      simp [pyGetMethod, pure, Except.pure]
    · have h9 : ("_extract_".toList ++ X).drop 9 = X := hdr "_extract_".toList X
      simp only [getMappedValue, hm, hsw, hne, h9, hkey, and_true, true_and,
        false_and, if_false, if_true, PyDict.getD, hs, Option.getD_some, bind, Except.bind]
      simp [pyGetMethod, pure, Except.pure]
  · intro hnokey s hscan
    have hscanKey := scan_mapping_finds_key m params.values s hscan
    rcases hname with h | h <;> subst h
    · have h5 : ("_map_".toList ++ X).drop 5 = X := hdr "_map_".toList X
      have hne2 : startsWith "_extract_".toList ("_map_".toList ++ X) = false := by
        simp [startsWith, List.take_append]
      simp only [getMappedValue, hm, hsw, hne2, h5, hnokey, and_false, false_and,
        and_true, if_false, bind, Except.bind, hscan]
      simp [pyGetMethod, pure, Except.pure, PyDict.getD]
    · have h9 : ("_extract_".toList ++ X).drop 9 = X := hdr "_extract_".toList X
      simp only [getMappedValue, hm, hsw, hne, h9, hnokey, and_false, false_and,
        and_true, if_false, bind, Except.bind, hscan]
      simp [pyGetMethod, pure, Except.pure, PyDict.getD]


/-- C7 witness: a direct `params['size']` lookup through `_map_size`
with `{"2K": "1792x1024"}`. -/
theorem get_mapped_value_claim_witness :
    getMappedValue
      (.cons ("_map_".toList ++ "size".toList)
        (.dict (.cons "2K".toList (.str "1792x1024".toList) .nil)) .nil)
      ("_map_".toList ++ "size".toList)
      (.cons "size".toList (.str "2K".toList) .nil)
      = .ok (.str "1792x1024".toList) := by
  rw [(get_mapped_value_claim
    (.cons ("_map_".toList ++ "size".toList)
      (.dict (.cons "2K".toList (.str "1792x1024".toList) .nil)) .nil)
    (.cons "size".toList (.str "2K".toList) .nil)
    (.cons "2K".toList (.str "1792x1024".toList) .nil)
    "size".toList ("_map_".toList ++ "size".toList)
    (Or.inl rfl) (by decide)).1 "2K".toList (by decide)]
  rfl

end Batchbox

namespace Batchbox

/-- C2: with `max_retries = 3` and every HTTP attempt returning 503,
`execute` makes exactly 4 calls (the initial attempt plus three
retries), sleeps the exponential-backoff delay
`initial_delay * exponential_base ^ attempt` capped at `max_delay`
between them, and terminates with a failed `APIResponse` (no
exception). -/
theorem execute_503_claim
    (env : Env) (pc : ProviderConf) (ec : EndpointConf) (mc : ModeConf)
    (params : PyDict) (ri : RequestInfo) (cfg : RetryConfig)
    (body : Nat → Option PyVal) (text : Nat → Str)
    (hbuild : buildRequest env pc ec mc params = .ok ri)
    (hdbg : multipartDebugCheck ri = .ok ())
    (hmr : cfg.max_retries = 3)
    (hall : ∀ k, env.http k = .resp 503 (body k) (text k)) :
    execute env pc ec mc params (some cfg) =
      { result := .ok { success := false
                        error_message := "HTTP 503: ".toList ++ (text 3).take 200
                        raw_response := .dict (.cons "status_code".toList (.int 503)
                          (.cons "text".toList (.str (text 3)) .nil)) }
        calls := 4
        delays := [calculateDelay 0 cfg, calculateDelay 1 cfg, calculateDelay 2 cfg] }
    ∧ ∀ k, calculateDelay k cfg
        = min (cfg.initial_delay * cfg.exponential_base ^ k) cfg.max_delay := by
  constructor
  · simp only [execute, hbuild, hdbg, hmr]
    simp [executeAttempts, hmr, hall 0, hall 1, hall 2, hall 3, executeFinish,
      RETRYABLE_STATUS_CODES]
    rfl
  · intro k
    rfl

/-- The environment of the C2 witness: every call answers 503. -/
def c2env : Env := {
  http := fun _ => .resp 503 Option.none "busy".toList
  poll := fun _ => .resp 200 Option.none []
  downloadAttempt := fun _ _ => Option.none
  ossEnabled := false, ossUpload := fun _ _ _ => Option.none
  filesAvailable := false, filesUpload := fun _ _ _ _ => Option.none
  accountOk := false, accountToken := [], resolveModelId := fun _ => []
  pilError := fun _ => Option.none, savePreview := fun _ _ => Option.none }

/-- An empty provider config for witnesses. -/
def c2pc : ProviderConf := { name := [], base_url := [], api_key := [] }

/-- C2 witness: the default retry configuration against an all-503
endpoint — 4 calls, delays 1 s, 2 s, 4 s, terminal HTTP-503 failure. -/
theorem execute_503_claim_witness :
    execute c2env c2pc {} {} .nil (some {}) =
      { result := .ok { success := false
                        error_message := "HTTP 503: busy".toList
                        raw_response := .dict (.cons "status_code".toList (.int 503)
                          (.cons "text".toList (.str "busy".toList) .nil)) }
        calls := 4
        delays := [1, 2, 4] } := by
  rw [(execute_503_claim c2env c2pc {} {} .nil
    { url := [], method := "POST".toList
      headers := [("Authorization".toList, "Bearer ".toList),
        ("Content-Type".toList, "application/json".toList)]
      jsonBody := some (.dict .nil) }
    {} (fun _ => Option.none) (fun _ => "busy".toList)
    (by decide) (by decide) rfl (fun k => rfl)).1]
  norm_num [calculateDelay]

end Batchbox

namespace Batchbox

/-- The attempt loop never lets an exception escape: whatever the HTTP
outcomes, its result is an `Except.ok` response. -/
theorem executeAttempts_result_ok (env : Env) (pc : ProviderConf)
    (ec : EndpointConf) (mc : ModeConf) (cfg : RetryConfig) :
    ∀ (fuel attempt : Nat) (le : Option Str),
      ∃ r, (executeAttempts env pc ec mc cfg attempt le fuel).1 = .ok r
  | 0, attempt, le => ⟨_, rfl⟩
  | fuel + 1, attempt, le => by
    cases h : env.http attempt with
    | resp s b t =>
      by_cases hr : s ∈ RETRYABLE_STATUS_CODES ∧ attempt < cfg.max_retries
      · obtain ⟨r, hr'⟩ := executeAttempts_result_ok env pc ec mc cfg fuel (attempt + 1) le
        refine ⟨r, ?_⟩
        simp only [executeAttempts, h, if_pos hr]
        exact hr'
      · exact ⟨executeFinish env pc ec mc s b t, by simp only [executeAttempts, h, if_neg hr]⟩
    | timeoutExn =>
      by_cases hr : attempt < cfg.max_retries
      · obtain ⟨r, hr'⟩ := executeAttempts_result_ok env pc ec mc cfg fuel (attempt + 1)
          (some ("Request timeout after ".toList ++ natRep ADAPTER_TIMEOUT_S ++ "s".toList))
        refine ⟨r, ?_⟩
        simp only [executeAttempts, h, if_pos hr]
        exact hr'
      · exact ⟨_, by simp only [executeAttempts, h, if_neg hr]; rfl⟩
    | connExn m =>
      by_cases hr : attempt < cfg.max_retries
      · obtain ⟨r, hr'⟩ := executeAttempts_result_ok env pc ec mc cfg fuel (attempt + 1)
          (some ("Connection error: ".toList ++ m))
        refine ⟨r, ?_⟩
        simp only [executeAttempts, h, if_pos hr]
        exact hr'
      · exact ⟨_, by simp only [executeAttempts, h, if_neg hr]; rfl⟩
    | otherExn m => exact ⟨_, by simp only [executeAttempts, h]; rfl⟩

/-- Running the attempt loop past `k` retryable outcomes: one call and
one backoff delay per skipped attempt, then the loop continues at
attempt `k` (with whatever `last_error` the retries left). -/
theorem executeAttempts_skip_retryable (env : Env) (pc : ProviderConf)
    (ec : EndpointConf) (mc : ModeConf) (cfg : RetryConfig) :
    ∀ (k attempt : Nat) (le : Option Str),
      (∀ j, j < k → retryableOutcome (env.http (attempt + j)) = true) →
      attempt + k ≤ cfg.max_retries →
      ∃ le₂,
        executeAttempts env pc ec mc cfg attempt le (cfg.max_retries + 1 - attempt) =
          ((executeAttempts env pc ec mc cfg (attempt + k) le₂
              (cfg.max_retries + 1 - (attempt + k))).1,
            (executeAttempts env pc ec mc cfg (attempt + k) le₂
              (cfg.max_retries + 1 - (attempt + k))).2.1 + k,
            (List.range k).map (fun j => calculateDelay (attempt + j) cfg) ++
              (executeAttempts env pc ec mc cfg (attempt + k) le₂
                (cfg.max_retries + 1 - (attempt + k))).2.2)
  | 0, attempt, le, _, _ => ⟨le, by simp⟩
  | k + 1, attempt, le, hret, hle => by
    have hfuel : cfg.max_retries + 1 - attempt = (cfg.max_retries - attempt) + 1 := by omega
    have hlt : attempt < cfg.max_retries := by omega
    have h0 := hret 0 (by omega)
    have step : ∃ le₂, executeAttempts env pc ec mc cfg attempt le (cfg.max_retries + 1 - attempt) =
        ((executeAttempts env pc ec mc cfg (attempt + 1) le₂ (cfg.max_retries - attempt)).1,
          (executeAttempts env pc ec mc cfg (attempt + 1) le₂ (cfg.max_retries - attempt)).2.1 + 1,
          calculateDelay attempt cfg ::
            (executeAttempts env pc ec mc cfg (attempt + 1) le₂ (cfg.max_retries - attempt)).2.2) := by
      rw [hfuel]
      cases h : env.http attempt with
      | resp s b t =>
        simp only [Nat.add_zero, retryableOutcome, h, decide_eq_true_eq] at h0
        refine ⟨le, ?_⟩
        simp [executeAttempts, h, h0, hlt]
      | timeoutExn =>
        refine ⟨some ("Request timeout after ".toList ++ natRep ADAPTER_TIMEOUT_S ++ "s".toList), ?_⟩
        simp only [executeAttempts, h, if_pos hlt]
      | connExn m =>
        refine ⟨some ("Connection error: ".toList ++ m), ?_⟩
        simp only [executeAttempts, h, if_pos hlt]
      | otherExn m => simp [retryableOutcome, h] at h0
    obtain ⟨le₂, hstep⟩ := step
    have hrest : ∀ j, j < k → retryableOutcome (env.http (attempt + 1 + j)) = true := by
      intro j hj
      have := hret (j + 1) (by omega)
      have harr : attempt + (j + 1) = attempt + 1 + j := by omega
      rw [harr] at this
      exact this
    obtain ⟨le₃, ih⟩ := executeAttempts_skip_retryable env pc ec mc cfg k (attempt + 1) le₂
      hrest (by omega)
    refine ⟨le₃, ?_⟩
    have hfe : cfg.max_retries + 1 - (attempt + 1) = cfg.max_retries - attempt := by omega
    rw [hfe] at ih
    have haddr : attempt + 1 + k = attempt + (k + 1) := by omega
    rw [haddr] at ih
    rw [hstep, ih]
    simp only [Prod.mk.injEq]
    refine ⟨trivial, by omega, ?_⟩
    rw [List.range_succ_eq_map, List.map_cons, List.map_map, List.cons_append, Nat.add_zero]
    congr 1
    congr 1
    refine List.map_congr_left fun j _ => ?_
    simp only [Function.comp]
    congr 1
    omega

/-- C9 (amended): once the request has been built and the pre-loop
diagnostics have passed, `execute` never raises: every attempt-loop
exception is converted to a failed `APIResponse` with a non-empty
message, and an exception other than `Timeout` / `ConnectionError` at
attempt `k` is terminal immediately — exactly `k+1` calls, no further
retry, message `"Request failed: ..."`. -/
theorem execute_loop_exceptions_converted
    (env : Env) (pc : ProviderConf) (ec : EndpointConf) (mc : ModeConf)
    (params : PyDict) (rc : Option RetryConfig) (ri : RequestInfo)
    (hbuild : buildRequest env pc ec mc params = .ok ri)
    (hdbg : multipartDebugCheck ri = .ok ()) :
    (∃ r, (execute env pc ec mc params rc).result = .ok r)
    ∧ (∀ k m, k ≤ (rc.getD {}).max_retries →
        (∀ j, j < k → retryableOutcome (env.http j) = true) →
        env.http k = .otherExn m →
        execute env pc ec mc params rc =
          { result := .ok { success := false
                            error_message := "Request failed: ".toList ++ m }
            calls := k + 1
            delays := (List.range k).map (fun j => calculateDelay j (rc.getD {})) }) := by
  constructor
  · obtain ⟨r, hr⟩ := executeAttempts_result_ok env pc ec mc (rc.getD {})
      ((rc.getD {}).max_retries + 1) 0 Option.none
    refine ⟨r, ?_⟩
    simp only [execute, hbuild, hdbg]
    exact hr
  · intro k m hk hret hexn
    obtain ⟨le₂, hskip⟩ := executeAttempts_skip_retryable env pc ec mc (rc.getD {}) k 0
      Option.none (by simpa using hret) (by omega)
    simp only [Nat.zero_add, Nat.sub_zero] at hskip
    have hfk : (rc.getD {}).max_retries + 1 - k = ((rc.getD {}).max_retries - k) + 1 := by
      omega
    rw [hfk] at hskip
    have hstep : executeAttempts env pc ec mc (rc.getD {}) k le₂
        (((rc.getD {}).max_retries - k) + 1) =
        (.ok { success := false, error_message := "Request failed: ".toList ++ m }, 1, []) := by
      simp only [executeAttempts, hexn]
    rw [hstep] at hskip
    simp only [execute, hbuild, hdbg]
    rw [hskip]
    simp [Nat.add_comm]

/-- C9 counterexample: with a string payload template and a configured
model name, `build_request` — which runs before the `try` — raises a
`TypeError` that escapes `execute` without any HTTP call being made. -/
theorem execute_raises_on_string_template :
    execute c2env c2pc { model_name := some "m".toList }
      { payload_template := some (.str "hello".toList) } .nil Option.none =
      { result := .error (.typeError "object does not support item assignment".toList)
        calls := 0
        delays := [] } := rfl

/-- The C9 witness environment: every call raises a non-transport
exception. -/
def c9env : Env := { c2env with http := fun _ => .otherExn "boom".toList }

/-- C9 witness: a non-transport exception on the first attempt is
converted and terminal — one call, no delays. -/
theorem execute_loop_exceptions_converted_witness :
    execute c9env c2pc {} {} .nil Option.none =
      { result := .ok { success := false
                        error_message := "Request failed: boom".toList }
        calls := 1
        delays := [] } := by
  rw [(execute_loop_exceptions_converted c9env c2pc {} {} .nil Option.none
    { url := [], method := "POST".toList
      headers := [("Authorization".toList, "Bearer ".toList),
        ("Content-Type".toList, "application/json".toList)]
      jsonBody := some (.dict .nil) }
    (by decide) (by decide)).2 0 "boom".toList (by decide)
    (fun j hj => absurd hj (by omega)) rfl]
  rfl


end Batchbox

namespace Batchbox

/-- Stable insertion permutes: `insertLe le x l` is `x :: l` up to
order. -/
theorem insertLe_perm {α : Type} (le : α → α → Bool) (x : α) :
    ∀ l : List α, List.Perm (insertLe le x l) (x :: l)
  | [] => by simp [insertLe]
  | y :: ys => by
    by_cases h : le x y
    · simp [insertLe, h]
    · simp only [insertLe, h, Bool.false_eq_true, if_false]
      exact ((insertLe_perm le x ys).cons y).trans (List.Perm.swap x y ys)

/-- `sortLe` permutes its input. -/
theorem sortLe_perm {α : Type} (le : α → α → Bool) :
    ∀ l : List α, List.Perm (sortLe le l) l
  | [] => by simp [sortLe]
  | x :: xs => by
    simpa [sortLe] using (insertLe_perm le x (sortLe le xs)).trans
      ((sortLe_perm le xs).cons x)

/-- Insertion preserves sortedness for a total transitive `le`. -/
theorem insertLe_pairwise {α : Type} (le : α → α → Bool)
    (htot : ∀ a b, le a b = true ∨ le b a = true)
    (htrans : ∀ a b c, le a b = true → le b c = true → le a c = true) (x : α) :
    ∀ l : List α, l.Pairwise (fun a b => le a b = true) →
      (insertLe le x l).Pairwise (fun a b => le a b = true)
  | [], _ => by simp [insertLe]
  | y :: ys, hp => by
    rcases List.pairwise_cons.mp hp with ⟨hy, hys⟩
    by_cases h : le x y
    · simp only [insertLe, h, if_true]
      refine List.pairwise_cons.mpr ⟨?_, hp⟩
      intro z hz
      rcases List.mem_cons.mp hz with rfl | hz'
      · exact h
      · exact htrans x y z h (hy z hz')
    · simp only [insertLe, h, Bool.false_eq_true, if_false]
      refine List.pairwise_cons.mpr ⟨?_, insertLe_pairwise le htot htrans x ys hys⟩
      intro z hz
      have hz' := (insertLe_perm le x ys).mem_iff.mp hz
      rcases List.mem_cons.mp hz' with rfl | hz₂
      · rcases htot z y with h' | h'
        · exact absurd h' (by simpa using h)
        · exact h'
      · exact hy z hz₂

/-- `sortLe` sorts, for a total transitive `le`. -/
theorem sortLe_pairwise {α : Type} (le : α → α → Bool)
    (htot : ∀ a b, le a b = true ∨ le b a = true)
    (htrans : ∀ a b c, le a b = true → le b c = true → le a c = true) :
    ∀ l : List α, (sortLe le l).Pairwise (fun a b => le a b = true)
  | [] => by simp [sortLe]
  | x :: xs => insertLe_pairwise le htot htrans x (sortLe le xs)
      (sortLe_pairwise le htot htrans xs)

end Batchbox

namespace Batchbox

/-- A resolved provider carries the name it was looked up by. -/
theorem getProviderConfig_name (cfg : Config) (n? : Option Str) (p : ProviderConf)
    (h : getProviderConfig cfg n? = some p) : n? = some p.name := by
  match n? with
  | Option.none => simp [getProviderConfig] at h
  | some n =>
    simp only [getProviderConfig, Option.bind_eq_bind, Option.some_bind] at h
    cases hf : (cfg.providers.find? fun e => e.1 = n).map Prod.snd with
    | none => rw [hf] at h; simp at h
    | some entry =>
      rw [hf] at h
      simp only [Option.map_some, Option.some_bind] at h
      cases h
      rfl

/-- When every alternative fails, the failover loop returns the
undifferentiated "All providers failed" response. -/
theorem tryAlternatives_all_fail (oracle : ExecOracle) (params : PyDict) :
    ∀ alts : List EndpointInfo,
      (∀ a ∈ alts, ∃ ra, oracle a params = .ok ra ∧ ra.success = false) →
      tryAlternatives oracle params alts = .ok allProvidersFailed
  | [], _ => rfl
  | a :: rest, h => by
    obtain ⟨ra, hra, hrs⟩ := h a (List.mem_cons_self a rest)
    simp only [tryAlternatives, hra, bind, Except.bind, hrs, Bool.false_eq_true, if_false]
    exact tryAlternatives_all_fail oracle params rest
      (fun b hb => h b (List.mem_cons_of_mem a hb))

/-- The failover loop returns the first successful response, in list
order. -/
theorem tryAlternatives_first_success (oracle : ExecOracle) (params : PyDict) :
    ∀ (alts : List EndpointInfo) (j : Nat) (a : EndpointInfo) (r : APIResponse),
      (∀ l al, l < j → alts.get? l = some al →
        ∃ rl, oracle al params = .ok rl ∧ rl.success = false) →
      alts.get? j = some a → oracle a params = .ok r → r.success = true →
      tryAlternatives oracle params alts = .ok r
  | [], j, a, r, _, hj, _, _ => by simp at hj
  | b :: rest, 0, a, r, _, hj, ho, hr => by
    simp only [List.get?] at hj
    cases hj
    simp [tryAlternatives, ho, bind, Except.bind, hr, pure, Except.pure]
  | b :: rest, j + 1, a, r, hpre, hj, ho, hr => by
    obtain ⟨rb, hrb, hrbs⟩ := hpre 0 b (by omega) rfl
    simp only [tryAlternatives, hrb, bind, Except.bind, hrbs, Bool.false_eq_true, if_false]
    exact tryAlternatives_first_success oracle params rest j a r
      (fun l al hl hal => hpre (l + 1) al (by omega) hal) hj ho hr

/-- A usable provider is the endpoint's configured provider and has a
non-empty API key. -/
theorem usableProvider_eq (cfg : Config) (ep : EndpointConf) (prov : ProviderConf)
    (h : usableProvider cfg ep = some prov) :
    getProviderConfig cfg ep.provider = some prov ∧ prov.api_key ≠ [] := by
  unfold usableProvider at h
  cases hg : getProviderConfig cfg ep.provider with
  | none => rw [hg] at h; simp at h
  | some p =>
    rw [hg] at h
    simp only [Option.bind_eq_bind, Option.some_bind] at h
    by_cases hk : p.api_key.isEmpty
    · simp [hk] at h
    · simp only [hk, Bool.false_eq_true, if_false, Option.some.injEq] at h
      subst h
      exact ⟨rfl, by simpa [List.isEmpty_iff] using hk⟩

/-- What one accepted failover candidate satisfies. -/
theorem alternativeCandidate_spec (cfg : Config) (mode : Str) (ex : Option Str)
    (ep : EndpointConf) (info : EndpointInfo)
    (h : alternativeCandidate cfg mode ex ep = some info) :
    ep.provider ≠ ex ∧ usableProvider cfg ep = some info.provider
      ∧ info.endpoint_config = ep := by
  unfold alternativeCandidate at h
  by_cases hex : ep.provider = ex
  · simp [hex] at h
  · rw [if_neg hex] at h
    cases hup : usableProvider cfg ep with
    | none => rw [hup] at h; simp at h
    | some prov =>
      rw [hup] at h
      cases hm : ep.getMode? mode with
      | none => rw [hm] at h; simp at h
      | some mconf =>
        rw [hm] at h
        simp only [Option.some.injEq] at h
        subst h
        exact ⟨hex, rfl, rfl⟩

/-- Every failover candidate's provider differs from the excluded
(failed) provider. -/
theorem alternatives_provider_ne (cfg : Config) (model mode : Str) (exName : Str) :
    ∀ info ∈ getAlternativeEndpoints cfg model mode (some exName),
      info.provider.name ≠ exName := by
  intro info hmem
  rw [getAlternativeEndpoints, List.mem_filterMap] at hmem
  obtain ⟨ep, _, hcand⟩ := hmem
  obtain ⟨hex, hup, _⟩ := alternativeCandidate_spec cfg mode (some exName) ep info hcand
  obtain ⟨hg, _⟩ := usableProvider_eq cfg ep info.provider hup
  have := getProviderConfig_name cfg ep.provider info.provider hg
  intro hcontra
  rw [hcontra] at this
  exact hex this

/-- A model's endpoints are sorted ascending by priority. -/
theorem getApiEndpoints_sorted (cfg : Config) (model : Str) :
    (getApiEndpoints cfg model).Pairwise
      (fun a b => priorityKey a ≤ priorityKey b) := by
  unfold getApiEndpoints
  cases (cfg.models.find? fun e => e.1 = model).map Prod.snd with
  | none => simp
  | some eps =>
    have := sortLe_pairwise (fun a b => decide (priorityKey a ≤ priorityKey b))
      (fun a b => by
        rcases le_total (priorityKey a) (priorityKey b) with h | h
        · exact Or.inl (by simpa using h)
        · exact Or.inr (by simpa using h))
      (fun a b c hab hbc => by
        simp only [decide_eq_true_eq] at hab hbc ⊢
        exact le_trans hab hbc)
      eps
    refine this.imp ?_
    intro a b h
    simpa using h

/-- The failover candidates inherit the ascending-priority order. -/
theorem alternatives_sorted (cfg : Config) (model mode : Str) (ex : Option Str) :
    (getAlternativeEndpoints cfg model mode ex).Pairwise
      (fun a b => priorityKey a.endpoint_config ≤ priorityKey b.endpoint_config) := by
  rw [getAlternativeEndpoints]
  have hp := getApiEndpoints_sorted cfg model
  rw [List.pairwise_filterMap]
  refine hp.imp ?_
  intro a b h x hx y hy
  obtain ⟨_, _, hxa⟩ := alternativeCandidate_spec cfg mode ex a x hx
  obtain ⟨_, _, hyb⟩ := alternativeCandidate_spec cfg mode ex b y hy
  rw [hxa, hyb]
  exact h

/-- C1: with no override and auto-failover enabled (priority
selection), after the primary endpoint fails `execute_with_failover`
runs the failover loop over exactly the candidates whose provider
differs from the primary's, listed in ascending priority; the loop
returns the first successful response, or the "All providers failed"
failure when none succeeds.  With an explicit override, a failure of
the selected endpoint is final — the result is the failed response
regardless of any alternative that would have succeeded. -/
theorem execute_with_failover_claim
    (cfg : Config) (oracle : ExecOracle) (rr : Nat) (model : Str)
    (params₀ : PyDict) (mode : Str) :
    (∀ info r₀,
      cfg.node_auto_endpoint_mode.getD "priority".toList ≠ "round_robin".toList →
      cfg.settings_auto_failover.getD true = true →
      getBestEndpoint cfg model mode = some info →
      oracle info (params₀.set "_model_display_name".toList (.str model)) = .ok r₀ →
      r₀.success = false →
      (executeWithFailover cfg oracle rr model params₀ mode Option.none =
          tryAlternatives oracle (params₀.set "_model_display_name".toList (.str model))
            (getAlternativeEndpoints cfg model mode (some info.provider.name))
        ∧ (∀ a ∈ getAlternativeEndpoints cfg model mode (some info.provider.name),
            a.provider.name ≠ info.provider.name)
        ∧ (getAlternativeEndpoints cfg model mode (some info.provider.name)).Pairwise
            (fun a b => priorityKey a.endpoint_config ≤ priorityKey b.endpoint_config)))
    ∧ (∀ (alts : List EndpointInfo) (params : PyDict) (j : Nat) (a : EndpointInfo)
        (r : APIResponse),
        (∀ l al, l < j → alts.get? l = some al →
          ∃ rl, oracle al params = .ok rl ∧ rl.success = false) →
        alts.get? j = some a → oracle a params = .ok r → r.success = true →
        tryAlternatives oracle params alts = .ok r)
    ∧ (∀ (alts : List EndpointInfo) (params : PyDict),
        (∀ a ∈ alts, ∃ ra, oracle a params = .ok ra ∧ ra.success = false) →
        tryAlternatives oracle params alts = .ok allProvidersFailed)
    ∧ (∀ name info r₀,
        getAdapter cfg rr model mode (some name) = some info →
        oracle info (params₀.set "_model_display_name".toList (.str model)) = .ok r₀ →
        r₀.success = false →
        executeWithFailover cfg oracle rr model params₀ mode (some name)
          = .ok allProvidersFailed) := by
  refine ⟨?_, fun alts params j a r h1 h2 h3 h4 =>
      tryAlternatives_first_success oracle params alts j a r h1 h2 h3 h4,
    fun alts params h => tryAlternatives_all_fail oracle params alts h, ?_⟩
  · intro info r₀ hmode hfo hbest horacle hfail
    have hadapter : getAdapter cfg rr model mode Option.none = some info := by
      simp only [getAdapter]
      rw [if_neg hmode]
      exact hbest
    refine ⟨?_, alternatives_provider_ne cfg model mode info.provider.name,
      alternatives_sorted cfg model mode (some info.provider.name)⟩
    simp only [executeWithFailover, hadapter, horacle, hfail, hfo, bind, Except.bind,
      Option.isSome_none, Bool.false_eq_true, if_false, Bool.true_eq_false]
    simp [hfail, pure, Except.pure]
  · intro name info r₀ hsel horacle hfail
    simp only [executeWithFailover, hsel, horacle, hfail, bind, Except.bind,
      Option.isSome_some, if_true]
    simp [hfail, pure, Except.pure]

/-- The C1 witness configuration: providers A (priority 1) and B
(priority 2), both usable. -/
def c1cfg : Config := {
  providers := [("A".toList, { base_url := some "http://a".toList, api_key := some "ka".toList }),
                ("B".toList, { base_url := some "http://b".toList, api_key := some "kb".toList })]
  models := [("m".toList,
    [{ provider := some "B".toList, priority := some 2,
       modes := [("text2img".toList, { endpoint := some "/t".toList })] },
     { provider := some "A".toList, priority := some 1,
       modes := [("text2img".toList, { endpoint := some "/t".toList })] }])] }

/-- The C1 witness oracle: provider A always fails, B always
succeeds. -/
def c1orcl : ExecOracle := fun info _ =>
  .ok (if info.provider.name = "A".toList then
        { success := false, error_message := "boom".toList }
      else { success := true, error_message := "fromB".toList })

/-- Provider A's endpoint entry. -/
def c1epA : EndpointConf where
  provider := some "A".toList
  priority := some 1
  modes := [("text2img".toList, { endpoint := some "/t".toList })]

/-- The selection the priority strategy makes for the witness
configuration. -/
def c1infoA : EndpointInfo := {
  provider := { name := "A".toList, base_url := "http://a".toList, api_key := "ka".toList }
  config := { endpoint := some "/t".toList }
  endpoint_config := c1epA }

/-- C1 witness: the spec's two-endpoint scenario — failover on gives
B's success; overriding to A gives a final failure despite B. -/
theorem execute_with_failover_claim_witness :
    executeWithFailover c1cfg c1orcl 0 "m".toList .nil "text2img".toList Option.none =
        .ok { success := true, error_message := "fromB".toList }
    ∧ executeWithFailover c1cfg c1orcl 0 "m".toList .nil "text2img".toList
        (some "A".toList) = .ok allProvidersFailed := by
  constructor
  · rw [((execute_with_failover_claim c1cfg c1orcl 0 "m".toList .nil "text2img".toList).1
      c1infoA { success := false, error_message := "boom".toList }
      (by decide) (by decide) (by decide) rfl rfl).1]
    rfl
  · exact (execute_with_failover_claim c1cfg c1orcl 0 "m".toList .nil
      "text2img".toList).2.2.2 "A".toList c1infoA
      { success := false, error_message := "boom".toList } (by decide) rfl rfl


/-- C5: amended per-item seed derivation. Each batch item i executes through the
failover path with item-specific params. If seed > 0, item i's params carry
seed + i (even when extra_params also supplies a "seed": the increment branch
overwrites it). If seed = 0 and extra_params has no "seed" key, every item
executes with seed 0 as claimed; but when extra_params supplies a "seed" key
its value leaks into every item (see the counterexample), so the claim's
unconditional "every item executes with seed 0" is corrected. -/
theorem per_item_seed_derivation
    (cfg : Config) (oracle : ExecOracle) (env : Env) (rrOf : Nat → Nat)
    (model prompt : Str) (seed : Int) (extra : Option PyDict)
    (imgs : Option (List Str)) (mode : Str) (override : Option Str) (i : Nat) :
    (processItem cfg oracle env rrOf model (genBaseParams prompt seed extra imgs)
        mode override seed i =
      match executeWithFailover cfg oracle (rrOf i) model
          (itemParams prompt seed extra imgs i) mode override with
      | .error e => .error e
      | .ok r => .ok (if r.success then itemImagesFold env i r.images
          else ([], "Batch ".toList ++ natRep (i + 1) ++ " failed: ".toList
            ++ r.error_message ++ "\n".toList)))
    ∧ (0 < seed →
        (itemParams prompt seed extra imgs i).get? "seed".toList
          = some (.int (seed + i)))
    ∧ (seed = 0 → (extra.getD .nil).hasKey "seed".toList = false →
        (itemParams prompt seed extra imgs i).get? "seed".toList
          = some (.int 0)) := by
  refine ⟨?_, ?_, ?_⟩
  · cases h : executeWithFailover cfg oracle (rrOf i) model
        (itemParams prompt seed extra imgs i) mode override with
    | error e =>
      simp only [processItem, itemParams] at h ⊢
      rw [h]
      rfl
    | ok r =>
      simp only [processItem, itemParams] at h ⊢
      rw [h]
      by_cases hs : r.success <;> simp [hs, bind, Except.bind, pure, Except.pure]
  · intro hpos
    have hcs : (0 : Int) < seed + i := by positivity
    simp only [itemParams]
    rw [if_pos hpos, if_pos hcs, PyDict.get?_set]
  · intro hz hnk
    subst hz
    simp only [itemParams]
    norm_num
    simp only [genBaseParams]
    cases extra with
    | none =>
      split
      · simp [PyDict.get?]
      · rw [PyDict.get?_set_ne _ _ _ _ (by decide)]
        simp [PyDict.get?]
    | some d =>
      simp only [Option.getD] at hnk
      have hupd : ((PyDict.cons "prompt".toList (.str prompt)
          (PyDict.cons "seed".toList (.int 0) .nil)).update d).get? "seed".toList
          = some (.int 0) := by
        rw [PyDict.get?_update_of_not_hasKey d _ _ hnk]
        simp [PyDict.get?]
      split
      · exact hupd
      · rw [PyDict.get?_set_ne _ _ _ _ (by decide)]
        exact hupd

/-- Environment for the C5 counterexample: previews save successfully. -/
def c5env : Env := { c2env with
  pilError := fun _ => Option.none
  savePreview := fun _ _ => some (.str "prev".toList) }

def c5orcl42 : ExecOracle := fun _ p =>
  .ok { success := decide (p.get? "seed".toList = some (.int 42)), images := [[1]] }

def c5orclZero : ExecOracle := fun _ p =>
  .ok { success := decide (p.get? "seed".toList = some (.int 0)), images := [[1]] }

/-- C5 counterexample: with seed = 0 and extra_params = {"seed": 42}, the
generated batch succeeds against an oracle that only accepts seed 42 and fails
against an oracle that only accepts seed 0 — so items do NOT execute with the
original seed 0, refuting the claim's seed = 0 branch as stated. -/
theorem generate_seed_zero_extra_seed_leak :
    ((generate c1cfg c5orcl42 c5env (fun _ => 0) "m".toList "p".toList 0 1
        (some (.cons "seed".toList (.int 42) .nil)) Option.none Option.none).map
      GenResult.success = .ok true)
    ∧ ((generate c1cfg c5orclZero c5env (fun _ => 0) "m".toList "p".toList 0 1
        (some (.cons "seed".toList (.int 42) .nil)) Option.none Option.none).map
      GenResult.success = .ok false) := by
  constructor
  · rfl
  · rfl

theorem per_item_seed_derivation_witness :
    (itemParams "p".toList 100 Option.none Option.none 2).get? "seed".toList
      = some (.int 102) := by
  rw [(per_item_seed_derivation c1cfg c5orcl42 c5env (fun _ => 0) "m".toList
    "p".toList 100 Option.none Option.none "text2img".toList Option.none 2).2.1
    (by norm_num)]
  norm_num


theorem takeWhile_all_cons_append (p : Char → Bool) :
    ∀ (w : Str) (b : Char) (r : Str), (∀ c ∈ w, p c = true) → p b = false →
      (w ++ b :: r).takeWhile p = w
  | [], b, r, _, hb => by simp [List.takeWhile, hb]
  | a :: w, b, r, hall, hb => by
    have ha : p a = true := hall a (by simp)
    simp only [List.cons_append, List.takeWhile, ha, List.append_eq]
    rw [takeWhile_all_cons_append p w b r (fun c hc => hall c (by simp [hc])) hb]

theorem dropWhile_all_cons_append (p : Char → Bool) :
    ∀ (w : Str) (b : Char) (r : Str), (∀ c ∈ w, p c = true) → p b = false →
      (w ++ b :: r).dropWhile p = b :: r
  | [], b, r, _, hb => by simp [List.dropWhile, hb]
  | a :: w, b, r, hall, hb => by
    have ha : p a = true := hall a (by simp)
    simp only [List.cons_append, List.dropWhile, ha, List.append_eq]
    exact dropWhile_all_cons_append p w b r (fun c hc => hall c (by simp [hc])) hb

theorem subVarsAux_bracefree (vm params : PyDict) :
    ∀ (s : Str) (n : Nat), (∀ c ∈ s, c ≠ lbrace) →
      subVarsAux vm params n s = .ok s
  | _, 0, _ => rfl
  | [], _ + 1, _ => rfl
  | c :: rest, n + 1, h => by
    have hc : c ≠ lbrace := h c (by simp)
    simp only [subVarsAux, if_neg hc]
    rw [subVarsAux_bracefree vm params rest n (fun x hx => h x (by simp [hx]))]
    rfl

theorem subVarsAux_passthrough (vm params : PyDict) :
    ∀ (pre : Str) (k : Nat) (rest : Str), (∀ c ∈ pre, c ≠ lbrace) →
      subVarsAux vm params (pre.length + k) (pre ++ rest)
        = (subVarsAux vm params k rest).map (fun t => pre ++ t)
  | [], k, rest, _ => by
    cases h : subVarsAux vm params k rest <;> simp [h, Except.map]
  | c :: pre, k, rest, h => by
    have hc : c ≠ lbrace := h c (by simp)
    have ih := subVarsAux_passthrough vm params pre k rest
      (fun x hx => h x (by simp [hx]))
    simp only [List.cons_append, List.length_cons]
    rw [Nat.add_right_comm]
    show subVarsAux vm params (pre.length + k + 1) (c :: (pre ++ rest)) = _
    simp only [subVarsAux, if_neg hc, ih]
    cases hx : subVarsAux vm params k rest <;>
      simp [hx, Except.map, bind, Except.bind, pure, Except.pure]

theorem subVarsAux_match_step (vm params : PyDict)
    (fuel : Nat) (w rest : Str) (hw : w ≠ []) (hwc : w.all isWordChar = true) :
    subVarsAux vm params (fuel + 1)
        (lbrace :: lbrace :: (w ++ rbrace :: rbrace :: rest))
      = (do
          let v ← getValue vm w params
          let repl := if v = PyVal.none then [] else pyStr v
          let tail ← subVarsAux vm params fuel rest
          return repl ++ tail) := by
  have hall : ∀ c ∈ w, isWordChar c = true := by
    intro c hc; exact List.all_eq_true.mp hwc c hc
  have hrb : isWordChar rbrace = false := by decide
  have htw : (w ++ rbrace :: rbrace :: rest).takeWhile isWordChar = w :=
    takeWhile_all_cons_append isWordChar w rbrace (rbrace :: rest) hall hrb
  have hdw : (w ++ rbrace :: rbrace :: rest).dropWhile isWordChar
      = rbrace :: rbrace :: rest :=
    dropWhile_all_cons_append isWordChar w rbrace (rbrace :: rest) hall hrb
  cases w with
  | nil => exact absurd rfl hw
  | cons w0 w =>
    simp only [subVarsAux, if_pos rfl, htw, hdw, List.append_eq]
    simp


theorem fullVarMatch_braces (w : Str) (hw : w ≠ [])
    (hwc : w.all isWordChar = true) :
    fullVarMatch? ([lbrace, lbrace] ++ w ++ [rbrace, rbrace]) = some w := by
  have hlen : ([lbrace, lbrace] ++ w ++ [rbrace, rbrace]).length = w.length + 4 := by
    simp
  have hwpos : 0 < w.length := List.length_pos.mpr hw
  have hinner : ((([lbrace, lbrace] ++ w ++ [rbrace, rbrace]).drop 2).take
      (([lbrace, lbrace] ++ w ++ [rbrace, rbrace]).length - 4)) = w := by
    rw [hlen]
    have h2 : ([lbrace, lbrace] ++ w ++ [rbrace, rbrace]).drop 2
        = w ++ [rbrace, rbrace] := by
      rw [List.append_assoc]
      exact List.drop_left [lbrace, lbrace] _
    rw [h2]
    simp [List.take_left]
  have hend : ([lbrace, lbrace] ++ w ++ [rbrace, rbrace]).drop
      (([lbrace, lbrace] ++ w ++ [rbrace, rbrace]).length - 2) = [rbrace, rbrace] := by
    rw [hlen]
    have : w.length + 4 - 2 = ([lbrace, lbrace] ++ w).length := by simp
    rw [this, List.drop_left]
  simp only [fullVarMatch?]
  rw [if_pos]
  · rw [hinner]
  · refine ⟨by rw [hlen]; omega, by simp, hend, ?_⟩
    rw [hinner]; exact hwc

theorem fullVarMatch_none_of_head (c : Char) (t : Str) (hc : c ≠ lbrace) :
    fullVarMatch? (c :: t) = Option.none := by
  simp only [fullVarMatch?]
  rw [if_neg]
  rintro ⟨-, htake, -⟩
  cases t <;> simp_all [List.take]

/-- C6: string and dict rendering modes of TemplateEngine.render. A string that
is entirely one {{var}} reference renders to the raw typed value of
getValue (for a plain variable name present in params, the stored value itself,
of any type, unstringified); a {{var}} reference embedded in other
text renders with the substituted value stringified by str(); and dict
rendering drops a key whose rendered value is None while keeping any other key
with its rendered value. -/
theorem template_render_claim
    (vm params : PyDict) (w pre post : Str) (v rv : PyVal)
    (k : Str) (tval : PyVal) (tl : PyDict)
    (hw : w ≠ []) (hwc : w.all isWordChar = true) :
    (render vm params (.str ([lbrace, lbrace] ++ w ++ [rbrace, rbrace]))
        = getValue vm w params)
    ∧ (startsWith "_".toList w = false → params.get? w = some v →
        render vm params (.str ([lbrace, lbrace] ++ w ++ [rbrace, rbrace]))
          = .ok v)
    ∧ (pre ≠ [] → (∀ c ∈ pre, c ≠ lbrace) → (∀ c ∈ post, c ≠ lbrace) →
        getValue vm w params = .ok v → v ≠ PyVal.none →
        render vm params
            (.str (pre ++ [lbrace, lbrace] ++ w ++ [rbrace, rbrace] ++ post))
          = .ok (.str (pre ++ pyStr v ++ post)))
    ∧ (render vm params tval = .ok PyVal.none →
        renderDict vm params (.cons k tval tl) = renderDict vm params tl)
    ∧ (render vm params tval = .ok rv → rv ≠ PyVal.none →
        renderDict vm params (.cons k tval tl)
          = (renderDict vm params tl).map (PyDict.cons k rv)) := by
  refine ⟨?_, ?_, ?_, ?_, ?_⟩
  · simp only [render, renderString, fullVarMatch_braces w hw hwc]
  · intro hns hget
    simp only [render, renderString, fullVarMatch_braces w hw hwc]
    have hne : w ≠ "_chat_content".toList := by
      intro heq; subst heq; revert hns; decide
    simp only [getValue, if_neg hne, hns, Bool.false_eq_true, if_false, hget,
      Option.getD]
  · intro hpre hprebf hpostbf hget hvn
    cases pre with
    | nil => exact absurd rfl hpre
    | cons p0 pre =>
      have hp0 : p0 ≠ lbrace := hprebf p0 (by simp)
      have hfm : fullVarMatch? ((p0 :: pre) ++ [lbrace, lbrace] ++ w
          ++ [rbrace, rbrace] ++ post) = Option.none := by
        simp only [List.cons_append]
        exact fullVarMatch_none_of_head p0 _ hp0
      simp only [render, renderString, hfm]
      have hlen : ((p0 :: pre) ++ [lbrace, lbrace] ++ w ++ [rbrace, rbrace]
          ++ post).length
          = (p0 :: pre).length + (w.length + post.length + 3 + 1) := by
        simp; omega
      have harr : (p0 :: pre) ++ [lbrace, lbrace] ++ w ++ [rbrace, rbrace] ++ post
          = (p0 :: pre) ++ (lbrace :: lbrace :: (w ++ rbrace :: rbrace :: post)) := by
        simp
      rw [hlen, harr,
        subVarsAux_passthrough vm params (p0 :: pre) _ _ hprebf,
        subVarsAux_match_step vm params _ w post hw hwc, hget,
        subVarsAux_bracefree vm params post _ hpostbf]
      simp [bind, Except.bind, pure, Except.pure, Except.map, if_neg hvn]
  · intro hren
    simp only [renderDict, hren, bind, Except.bind]
    cases hr : renderDict vm params tl <;> simp [pure, Except.pure]
  · intro hren hrvn
    simp only [renderDict, hren, bind, Except.bind]
    cases hr : renderDict vm params tl <;>
      simp [Except.map, pure, Except.pure, if_neg hrvn]


theorem template_render_claim_witness :
    render .nil (.cons "x".toList (.list (.cons (.int 1) .nil)) .nil)
        (.str ([lbrace, lbrace] ++ "x".toList ++ [rbrace, rbrace]))
      = .ok (.list (.cons (.int 1) .nil))
    ∧ render .nil (.cons "x".toList (.int 7) .nil)
        (.str ("a".toList ++ [lbrace, lbrace] ++ "x".toList ++ [rbrace, rbrace]
          ++ "b".toList))
      = .ok (.str ("a".toList ++ pyStr (.int 7) ++ "b".toList))
    ∧ renderDict .nil .nil
        (.cons "k".toList (.str ([lbrace, lbrace] ++ "q".toList ++ [rbrace, rbrace]))
          .nil)
      = renderDict .nil .nil .nil := by
  refine ⟨?_, ?_, ?_⟩
  · exact (template_render_claim .nil
      (.cons "x".toList (.list (.cons (.int 1) .nil)) .nil)
      "x".toList [] [] (.list (.cons (.int 1) .nil)) .none "k".toList .none .nil
      (by decide) (by decide)).2.1 (by decide) (by decide)
  · exact (template_render_claim .nil (.cons "x".toList (.int 7) .nil)
      "x".toList "a".toList "b".toList (.int 7) .none "k".toList .none .nil
      (by decide) (by decide)).2.2.1 (by decide) (by decide) (by decide)
      (by decide) (by decide)
  · exact (template_render_claim .nil .nil "q".toList [] [] .none .none
      "k".toList (.str ([lbrace, lbrace] ++ "q".toList ++ [rbrace, rbrace])) .nil
      (by decide) (by decide)).2.2.2.1 (by decide)


/-- One iteration of the polling loop, stated through its decision
classifier. -/
theorem pollLoop_step (env : Env) (mc : ModeConf) (url : Str)
    (timeout pollIdx elapsed fuel : Nat) (h : elapsed < timeout) :
    pollLoop env mc url timeout pollIdx elapsed (fuel + 1)
      = match pollDecisionOf mc (env.poll pollIdx) with
        | .indecisive =>
          let inner := pollLoop env mc url timeout (pollIdx + 1) (elapsed + 2) fuel
          (inner.1, { time := elapsed + 2, url := url } :: inner.2)
        | .success data =>
          match extractImagesFromPath data
              (mc.response_path.getD "data.data.data[*].url".toList) with
          | some e =>
            ({ success := true, image_urls := e.urls, images := e.bytesList
               raw_response := data }, [{ time := elapsed + 2, url := url }])
          | Option.none =>
            ({ success := false
               error_message := "No images in completed task".toList
               raw_response := data }, [{ time := elapsed + 2, url := url }])
        | .failure data =>
          ({ success := false
             error_message := "Task failed: ".toList ++ pyStr data
             raw_response := data },
            [{ time := elapsed + 2, url := url }]) := by
  simp only [pollLoop, if_pos h, pollDecisionOf]
  cases env.poll pollIdx <;> dsimp only
  case resp status body txt =>
    split
    · rfl
    · cases body <;> dsimp only
      case some data =>
        cases getNestedValue data (mc.status_path.getD "data.status".toList) <;>
          dsimp only
        case ok statusVal =>
          split <;> split <;> first
            | rfl
            | (split <;> rfl)


/-- A run of indecisive iterations: one request every 2 seconds, each at
the polling URL, leaving the loop at the next index and clock. -/
theorem pollLoop_skip (env : Env) (mc : ModeConf) (url : Str) (timeout : Nat) :
    ∀ (n pollIdx elapsed fuel : Nat),
      (∀ i < n, pollDecisionOf mc (env.poll (pollIdx + i)) = .indecisive) →
      elapsed + 2 * n ≤ timeout →
      pollLoop env mc url timeout pollIdx elapsed (n + fuel)
        = ((pollLoop env mc url timeout (pollIdx + n) (elapsed + 2 * n) fuel).1,
          ((List.range n).map
              (fun i => { time := elapsed + 2 * (i + 1), url := url } : Nat → PollRecord))
            ++ (pollLoop env mc url timeout (pollIdx + n) (elapsed + 2 * n) fuel).2)
  | 0, pollIdx, elapsed, fuel, _, _ => by simp
  | n + 1, pollIdx, elapsed, fuel, hind, hle => by
    have h0 : pollDecisionOf mc (env.poll pollIdx) = .indecisive := by
      have := hind 0 (by omega); simpa using this
    have helapsed : elapsed < timeout := by omega
    have hstep := pollLoop_step env mc url timeout pollIdx elapsed (n + fuel) helapsed
    have hrw : n + 1 + fuel = n + fuel + 1 := by omega
    rw [hrw, hstep, h0]
    have ih := pollLoop_skip env mc url timeout n (pollIdx + 1) (elapsed + 2) fuel
      (fun i hi => by
        have := hind (i + 1) (by omega)
        simpa [Nat.add_assoc, Nat.add_comm 1 i] using this)
      (by omega)
    rw [ih]
    have hidx : pollIdx + 1 + n = pollIdx + (n + 1) := by omega
    have hel : elapsed + 2 + 2 * n = elapsed + 2 * (n + 1) := by omega
    rw [hidx, hel]
    dsimp only
    refine congrArg (Prod.mk _) ?_
    rw [List.range_succ_eq_map]
    simp only [List.map_cons, List.map_map, List.cons_append, Function.comp]
    refine congrArg₂ _ ?_ (congrArg₂ _ ?_ rfl)
    · refine congrArg₂ _ ?_ rfl
      omega
    · refine List.map_congr_left fun i _ => ?_
      refine congrArg₂ _ ?_ rfl
      omega


/-- Appending the decisive request to an indecisive prefix gives the full
schedule. -/
theorem poll_trace_snoc (u : Str) (n : Nat) :
    (List.range n).map
        (fun i => ({ time := 2 * (i + 1), url := u } : PollRecord))
      ++ [{ time := 2 * n + 2, url := u }]
    = (List.range (n + 1)).map
        (fun i => ({ time := 2 * (i + 1), url := u } : PollRecord)) := by
  rw [List.range_succ, List.map_append]
  simp only [List.map_cons, List.map_nil]
  refine congrArg₂ _ rfl (congrArg₂ _ ?_ rfl)
  refine congrArg₂ _ ?_ rfl
  omega

/-- C8: amended polling behaviour of _poll_for_result with the default 600 s
timeout. After n indecisive polls (one every 2 s, each at the task-id-templated
polling URL), a poll whose status — extracted via the configured status path,
then str()-ed, stripped and upper-cased — equals the configured success value
(likewise normalized, hence case-insensitively) yields the success result with
the images extracted via the configured response path when extraction finds
any, and otherwise a failed APIResponse "No images in completed task"; a status
in the HARD-CODED failure vocabulary FAILURE/FAILED/ERROR (not configurable)
yields a failed APIResponse; and 300 indecisive polls exhaust the 600 s window
and yield the polling-timeout failure. -/
theorem poll_for_result_claim
    (env : Env) (pc : ProviderConf) (mc : ModeConf) (taskId : Str)
    (n : Nat) (data : PyVal)
    (hind : ∀ i < n, pollDecisionOf mc (env.poll i) = .indecisive) :
    (2 * n < 600 → pollDecisionOf mc (env.poll n) = .success data →
      pollForResult env pc mc taskId 600
        = (match extractImagesFromPath data
              (mc.response_path.getD "data.data.data[*].url".toList) with
          | some e =>
            { success := true, image_urls := e.urls, images := e.bytesList
              raw_response := data }
          | Option.none =>
            { success := false
              error_message := "No images in completed task".toList
              raw_response := data },
          (List.range (n + 1)).map
            fun i => { time := 2 * (i + 1), url := pollUrlOf pc mc taskId }))
    ∧ (2 * n < 600 → pollDecisionOf mc (env.poll n) = .failure data →
      pollForResult env pc mc taskId 600
        = ({ success := false
             error_message := "Task failed: ".toList ++ pyStr data
             raw_response := data },
           (List.range (n + 1)).map
             fun i => { time := 2 * (i + 1), url := pollUrlOf pc mc taskId }))
    ∧ ((∀ i < 300, pollDecisionOf mc (env.poll i) = .indecisive) →
      pollForResult env pc mc taskId 600
        = ({ success := false
             error_message := "Polling timeout after 600s".toList },
           (List.range 300).map
             fun i => { time := 2 * (i + 1), url := pollUrlOf pc mc taskId }))
    ∧ (∀ (status : Nat) (txt sv : Str) (dta : PyVal),
        getNestedValue dta (mc.status_path.getD "data.status".toList)
          = .ok (.str sv) →
        pollDecisionOf mc (.resp status (some dta) txt)
          = if status ≠ 200 then .indecisive
            else if pyUpper (pyStrip sv)
                = pyUpper (pyStrip (mc.success_value.getD "SUCCESS".toList)) then
              .success dta
            else if pyUpper (pyStrip sv) ∈ POLL_FAILURE_VALUES then .failure dta
            else .indecisive) := by
  refine ⟨?_, ?_, ?_, ?_⟩
  · intro hlt hdec
    have hfuel : (600 : Nat) / 2 + 1 = n + (300 - n + 1) := by omega
    simp only [pollForResult, hfuel]
    rw [pollLoop_skip env mc _ 600 n 0 0 (300 - n + 1)
      (by simpa using hind) (by omega)]
    simp only [Nat.zero_add]
    rw [pollLoop_step env mc _ 600 n (2 * n) (300 - n) hlt, hdec]
    dsimp only
    cases hx : extractImagesFromPath data
        (mc.response_path.getD "data.data.data[*].url".toList) <;>
      rw [poll_trace_snoc]
  · intro hlt hdec
    have hfuel : (600 : Nat) / 2 + 1 = n + (300 - n + 1) := by omega
    simp only [pollForResult, hfuel]
    rw [pollLoop_skip env mc _ 600 n 0 0 (300 - n + 1)
      (by simpa using hind) (by omega)]
    simp only [Nat.zero_add]
    rw [pollLoop_step env mc _ 600 n (2 * n) (300 - n) hlt, hdec]
    dsimp only
    rw [poll_trace_snoc]
  · intro hall
    have hfuel : (600 : Nat) / 2 + 1 = 300 + 1 := by norm_num
    simp only [pollForResult, hfuel]
    rw [pollLoop_skip env mc _ 600 300 0 0 1 (by simpa using hall) (by omega)]
    simp only [Nat.zero_add]
    rw [show pollLoop env mc (pollUrlOf pc mc taskId) 600 300 600 1
        = ({ success := false
             error_message := "Polling timeout after 600s".toList }, []) from rfl]
    simp
  · intro status txt sv dta hget
    simp only [pollDecisionOf, hget]
    split
    · rfl
    · simp only [reduceCtorEq, if_false]
      rfl


/-- A polling body whose status is " failed " (tests strip + upper). -/
def c8data : PyVal :=
  .dict (.cons "data".toList
    (.dict (.cons "status".toList (.str " failed ".toList) .nil)) .nil)

def c8env : Env := { c2env with
  poll := fun i => if i = 0 then .timeoutExn else .resp 200 (some c8data) [] }

def c8pc : ProviderConf :=
  { name := "p".toList, base_url := "http://h".toList, api_key := "k".toList }

theorem poll_for_result_claim_witness :
    pollForResult c8env c8pc {} "t".toList 600
      = ({ success := false
           error_message := "Task failed: ".toList ++ pyStr c8data
           raw_response := c8data },
         (List.range 2).map
           fun i => { time := 2 * (i + 1), url := pollUrlOf c8pc {} "t".toList }) :=
  (poll_for_result_claim c8env c8pc {} "t".toList 1 c8data
    (fun i hi => by interval_cases i; rfl)).2.1 (by norm_num) (by rfl)


def c8sdata : PyVal :=
  .dict (.cons "data".toList
    (.dict (.cons "status".toList (.str "SUCCESS".toList) .nil)) .nil)

def c8senv : Env := { c2env with poll := fun _ => .resp 200 (some c8sdata) [] }

/-- C8 counterexample: a poll with a success status whose response path
extracts no images returns a FAILED APIResponse, not a success result. -/
theorem poll_success_status_without_images :
    pollDecisionOf {} (c8senv.poll 0) = .success c8sdata
    ∧ (pollForResult c8senv c8pc {} "t".toList 600).1.success = false
    ∧ (pollForResult c8senv c8pc {} "t".toList 600).1.error_message
        = "No images in completed task".toList := by
  refine ⟨rfl, rfl, rfl⟩


/-- The mode string `generate` selects: img2img when any input images were
given, else text2img. -/
def genMode (imagesBase64 : Option (List Str)) : Str :=
  if (match imagesBase64 with
      | some imgs => !imgs.isEmpty
      | Option.none => false) then "img2img".toList else "text2img".toList

/-- The previews one collected entry contributes. -/
def fragPrev : Nat × Except PyExn (List PyVal × Str) → List PyVal
  | (_, .ok (previews, _)) => previews
  | (_, .error _) => []

/-- The log fragment one collected entry contributes. -/
def fragLog : Nat × Except PyExn (List PyVal × Str) → Str
  | (_, .ok (_, log)) => log
  | (_, .error e) => "Batch error: ".toList ++ pyExnMsg e ++ "\n".toList

/-- The collection fold concatenates the per-entry previews and log
fragments in order. -/
theorem gather_foldl_collect :
    ∀ (l : List (Nat × Except PyExn (List PyVal × Str))) (acc : List PyVal × Str),
      l.foldl
        (fun (acc : List PyVal × Str) r =>
          match r.2 with
          | .ok (previews, log) => (acc.1 ++ previews, acc.2 ++ log)
          | .error e =>
            (acc.1, acc.2 ++ "Batch error: ".toList ++ pyExnMsg e ++ "\n".toList))
        acc
      = (acc.1 ++ (l.map fragPrev).flatten, acc.2 ++ (l.map fragLog).flatten)
  | [], acc => by simp
  | x :: l, acc => by
    rw [List.foldl_cons, gather_foldl_collect l]
    rcases x with ⟨i, r⟩
    cases r with
    | ok pl =>
      rcases pl with ⟨p, lg⟩
      simp [fragPrev, fragLog]
    | error e =>
      simp [fragPrev, fragLog]


theorem fragPrev_processItem (cfg : Config) (oracle : ExecOracle) (env : Env)
    (rrOf : Nat → Nat) (model : Str) (params : PyDict) (mode : Str)
    (override : Option Str) (seed : Int) (i : Nat) :
    fragPrev (i, processItem cfg oracle env rrOf model params mode override seed i)
      = itemPreviews cfg oracle env rrOf model params mode override seed i := by
  unfold fragPrev itemPreviews
  cases processItem cfg oracle env rrOf model params mode override seed i with
  | ok pl => cases pl; rfl
  | error e => rfl

theorem fragLog_processItem (cfg : Config) (oracle : ExecOracle) (env : Env)
    (rrOf : Nat → Nat) (model : Str) (params : PyDict) (mode : Str)
    (override : Option Str) (seed : Int) (i : Nat) :
    fragLog (i, processItem cfg oracle env rrOf model params mode override seed i)
      = itemLog cfg oracle env rrOf model params mode override seed i := by
  unfold fragLog itemLog
  cases processItem cfg oracle env rrOf model params mode override seed i with
  | ok pl => cases pl; rfl
  | error e => rfl

/-- `generate` in terms of the per-item outcomes: sort by the gather key,
flatten previews and logs, then aggregate. -/
theorem generate_eq (cfg : Config) (oracle : ExecOracle) (env : Env)
    (rrOf : Nat → Nat) (model prompt : Str) (seed : Int) (n : Nat)
    (extraParams : Option PyDict) (imagesBase64 : Option (List Str))
    (override : Option Str) :
    generate cfg oracle env rrOf model prompt seed n extraParams imagesBase64
        override
      = (let srs := sortLe (fun a b => decide (gatherKey a ≤ gatherKey b))
            ((List.range n).map fun i => (i, processItem cfg oracle env rrOf model
              (genBaseParams prompt seed extraParams imagesBase64)
              (genMode imagesBase64) override seed i))
         let previews := (srs.map fragPrev).flatten
         let log := (srs.map fragLog).flatten
         if previews.isEmpty then
           .ok { success := false
                 error := some ("Generation failed.\n".toList ++ log) }
         else do
           let paramsHash ← computeParamsHash model prompt n seed extraParams
           return { success := true
                    preview_images := previews
                    response_info := some (if log.isEmpty then "Success".toList
                      else log)
                    params_hash := some paramsHash }) := by
  simp only [generate, genMode, gather_foldl_collect, List.nil_append]
  rfl


/-- C3: aggregation of independent batch items. Items are independent (the
aggregate is a pure function of the per-item outcomes, each computed from its
own inputs): when every item yields no previews the aggregate reports
success=False, with every item's failure line an infix of the aggregated log;
when at least one item yields previews (and the content hash serializes) the
aggregate reports success=True, its preview list nonempty and containing each
item's previews, together with a response log containing each item's failure
line. -/
theorem generate_aggregation_claim
    (cfg : Config) (oracle : ExecOracle) (env : Env) (rrOf : Nat → Nat)
    (model prompt : Str) (seed : Int) (n : Nat)
    (extraParams : Option PyDict) (imagesBase64 : Option (List Str))
    (override : Option Str) (h : Str) :
    ((∀ i < n, itemPreviews cfg oracle env rrOf model
        (genBaseParams prompt seed extraParams imagesBase64)
        (genMode imagesBase64) override seed i = []) →
      ∃ log, (∀ i < n, List.IsInfix (itemLog cfg oracle env rrOf model
          (genBaseParams prompt seed extraParams imagesBase64)
          (genMode imagesBase64) override seed i) log) ∧
        generate cfg oracle env rrOf model prompt seed n extraParams
            imagesBase64 override
          = .ok { success := false
                  error := some ("Generation failed.\n".toList ++ log) })
    ∧ ((∃ i, i < n ∧ itemPreviews cfg oracle env rrOf model
          (genBaseParams prompt seed extraParams imagesBase64)
          (genMode imagesBase64) override seed i ≠ []) →
        computeParamsHash model prompt n seed extraParams = .ok h →
        ∃ previews log, previews ≠ [] ∧
          (∀ i < n, List.IsInfix (itemPreviews cfg oracle env rrOf model
              (genBaseParams prompt seed extraParams imagesBase64)
              (genMode imagesBase64) override seed i) previews ∧
            List.IsInfix (itemLog cfg oracle env rrOf model
              (genBaseParams prompt seed extraParams imagesBase64)
              (genMode imagesBase64) override seed i) log) ∧
          generate cfg oracle env rrOf model prompt seed n extraParams
              imagesBase64 override
            = .ok { success := true
                    preview_images := previews
                    response_info := some (if log.isEmpty then "Success".toList
                      else log)
                    params_hash := some h }) := by
  have hmem : ∀ i < n,
      (i, processItem cfg oracle env rrOf model
        (genBaseParams prompt seed extraParams imagesBase64)
        (genMode imagesBase64) override seed i)
      ∈ sortLe (fun a b => decide (gatherKey a ≤ gatherKey b))
          ((List.range n).map fun i => (i, processItem cfg oracle env rrOf model
            (genBaseParams prompt seed extraParams imagesBase64)
            (genMode imagesBase64) override seed i)) := by
    intro i hi
    refine (sortLe_perm _ _).mem_iff.mpr ?_
    exact List.mem_map_of_mem _ (List.mem_range.mpr hi)
  have hrev : ∀ x ∈ sortLe (fun a b => decide (gatherKey a ≤ gatherKey b))
      ((List.range n).map fun i => (i, processItem cfg oracle env rrOf model
        (genBaseParams prompt seed extraParams imagesBase64)
        (genMode imagesBase64) override seed i)),
      ∃ i, i < n ∧ x = (i, processItem cfg oracle env rrOf model
        (genBaseParams prompt seed extraParams imagesBase64)
        (genMode imagesBase64) override seed i) := by
    intro x hx
    have hx' := (sortLe_perm _ _).mem_iff.mp hx
    obtain ⟨i, hi, rfl⟩ := List.mem_map.mp hx'
    exact ⟨i, List.mem_range.mp hi, rfl⟩
  constructor
  · intro hall
    refine ⟨((sortLe (fun a b => decide (gatherKey a ≤ gatherKey b))
        ((List.range n).map fun i => (i, processItem cfg oracle env rrOf model
          (genBaseParams prompt seed extraParams imagesBase64)
          (genMode imagesBase64) override seed i))).map fragLog).flatten,
      ?_, ?_⟩
    · intro i hi
      rw [← fragLog_processItem cfg oracle env rrOf model
        (genBaseParams prompt seed extraParams imagesBase64)
        (genMode imagesBase64) override seed i]
      exact List.infix_of_mem_flatten
        (List.mem_map_of_mem fragLog (hmem i hi))
    · rw [generate_eq]
      have hprev : ((sortLe (fun a b => decide (gatherKey a ≤ gatherKey b))
          ((List.range n).map fun i => (i, processItem cfg oracle env rrOf model
            (genBaseParams prompt seed extraParams imagesBase64)
            (genMode imagesBase64) override seed i))).map fragPrev).flatten
          = [] := by
        refine List.flatten_eq_nil_iff.mpr ?_
        intro l hl
        obtain ⟨x, hx, rfl⟩ := List.mem_map.mp hl
        obtain ⟨i, hi, rfl⟩ := hrev x hx
        rw [fragPrev_processItem]
        exact hall i hi
      simp only [hprev, List.isEmpty_nil, if_true]
  · rintro ⟨i₀, hi₀, hne₀⟩ hhash
    refine ⟨((sortLe (fun a b => decide (gatherKey a ≤ gatherKey b))
        ((List.range n).map fun i => (i, processItem cfg oracle env rrOf model
          (genBaseParams prompt seed extraParams imagesBase64)
          (genMode imagesBase64) override seed i))).map fragPrev).flatten,
      ((sortLe (fun a b => decide (gatherKey a ≤ gatherKey b))
        ((List.range n).map fun i => (i, processItem cfg oracle env rrOf model
          (genBaseParams prompt seed extraParams imagesBase64)
          (genMode imagesBase64) override seed i))).map fragLog).flatten,
      ?_, ?_, ?_⟩
    · intro hnil
      refine hne₀ ?_
      rw [← fragPrev_processItem cfg oracle env rrOf model
        (genBaseParams prompt seed extraParams imagesBase64)
        (genMode imagesBase64) override seed i₀]
      exact List.flatten_eq_nil_iff.mp hnil _
        (List.mem_map_of_mem fragPrev (hmem i₀ hi₀))
    · intro i hi
      exact ⟨by
          rw [← fragPrev_processItem cfg oracle env rrOf model
            (genBaseParams prompt seed extraParams imagesBase64)
            (genMode imagesBase64) override seed i]
          exact List.infix_of_mem_flatten
            (List.mem_map_of_mem fragPrev (hmem i hi)),
        by
          rw [← fragLog_processItem cfg oracle env rrOf model
            (genBaseParams prompt seed extraParams imagesBase64)
            (genMode imagesBase64) override seed i]
          exact List.infix_of_mem_flatten
            (List.mem_map_of_mem fragLog (hmem i hi))⟩
    · rw [generate_eq]
      have hne : ((sortLe (fun a b => decide (gatherKey a ≤ gatherKey b))
          ((List.range n).map fun i => (i, processItem cfg oracle env rrOf model
            (genBaseParams prompt seed extraParams imagesBase64)
            (genMode imagesBase64) override seed i))).map fragPrev).flatten
          ≠ [] := by
        intro hnil
        refine hne₀ ?_
        rw [← fragPrev_processItem cfg oracle env rrOf model
          (genBaseParams prompt seed extraParams imagesBase64)
          (genMode imagesBase64) override seed i₀]
        exact List.flatten_eq_nil_iff.mp hnil _
          (List.mem_map_of_mem fragPrev (hmem i₀ hi₀))
      have hempty : (((sortLe (fun a b => decide (gatherKey a ≤ gatherKey b))
          ((List.range n).map fun i => (i, processItem cfg oracle env rrOf model
            (genBaseParams prompt seed extraParams imagesBase64)
            (genMode imagesBase64) override seed i))).map fragPrev).flatten).isEmpty
          = false := by
        simpa [List.isEmpty_iff] using hne
      simp only [hempty, if_false, hhash, bind, Except.bind]
      rfl


/-- An executor whose every call reports a failed APIResponse. -/
def c3orcl : ExecOracle := fun _ _ =>
  .ok { success := false, error_message := "no".toList }

theorem generate_aggregation_claim_witness :
    ∃ log, (∀ i < 1, List.IsInfix (itemLog c1cfg c3orcl c5env (fun _ => 0)
        "m".toList (genBaseParams "p".toList 0 Option.none Option.none)
        (genMode Option.none) Option.none 0 i) log) ∧
      generate c1cfg c3orcl c5env (fun _ => 0) "m".toList "p".toList 0 1
          Option.none Option.none Option.none
        = .ok { success := false
                error := some ("Generation failed.\n".toList ++ log) } :=
  (generate_aggregation_claim c1cfg c3orcl c5env (fun _ => 0) "m".toList
    "p".toList 0 1 Option.none Option.none Option.none []).1 (by decide)


/-- Every character code point fits in six hex digits. -/
theorem char_toNat_lt (c : Char) : c.toNat < 16777216 := by
  have h := c.valid
  rcases h with h | h
  · exact Nat.lt_trans h (by norm_num)
  · exact Nat.lt_trans h.2 (by norm_num)

theorem char_toNat_injective (c d : Char) (h : c.toNat = d.toNat) : c = d := by
  have := congrArg Char.ofNat h
  rwa [Char.ofNat_toNat, Char.ofNat_toNat] at this

theorem digitChar_toNat (d : Nat) (h : d < 10) : (digitChar d).toNat = 48 + d := by
  interval_cases d <;> decide

theorem hexDigitVal_hexDigitChar (d : Nat) (h : d < 16) :
    hexDigitVal (hexDigitChar d) = d := by
  interval_cases d <;> decide

theorem natToHexW_length : ∀ (w n : Nat), (natToHexW w n).length = w
  | 0, _ => rfl
  | w + 1, n => by
    simp [natToHexW, natToHexW_length w]

theorem hexVal_append_digit (s : Str) (c : Char) :
    hexVal (s ++ [c]) = hexVal s * 16 + hexDigitVal c := by
  simp [hexVal, List.foldl_append]

theorem hexVal_natToHexW : ∀ (w n : Nat), n < 16 ^ w →
    hexVal (natToHexW w n) = n
  | 0, n, h => by
    simp [natToHexW, hexVal]
    omega
  | w + 1, n, h => by
    rw [natToHexW, hexVal_append_digit,
      hexVal_natToHexW w (n / 16) (by
        have : 16 ^ (w + 1) = 16 ^ w * 16 := by ring
        omega),
      hexDigitVal_hexDigitChar (n % 16) (Nat.mod_lt _ (by norm_num))]
    omega

/-- The fingerprint stand-in is injective. -/
theorem md5Hex_inj : ∀ (s₁ s₂ : Str), md5Hex s₁ = md5Hex s₂ → s₁ = s₂
  | [], [], _ => rfl
  | [], c :: s₂, h => by
    exfalso
    simp only [md5Hex, List.map_nil, List.flatten_nil, List.map_cons,
      List.flatten_cons] at h
    have := congrArg List.length h
    simp [natToHexW_length] at this
    omega
  | c :: s₁, [], h => by
    exfalso
    simp only [md5Hex, List.map_nil, List.flatten_nil, List.map_cons,
      List.flatten_cons] at h
    have := congrArg List.length h
    simp [natToHexW_length] at this
  | c₁ :: s₁, c₂ :: s₂, h => by
    simp only [md5Hex, List.map_cons, List.flatten_cons] at h
    have hlen : (natToHexW 6 c₁.toNat).length = (natToHexW 6 c₂.toNat).length := by
      rw [natToHexW_length, natToHexW_length]
    obtain ⟨hhd, htl⟩ := List.append_inj h hlen
    have hc : c₁ = c₂ := by
      refine char_toNat_injective c₁ c₂ ?_
      have h₁ := hexVal_natToHexW 6 c₁.toNat (by
        have := char_toNat_lt c₁; norm_num; omega)
      have h₂ := hexVal_natToHexW 6 c₂.toNat (by
        have := char_toNat_lt c₂; norm_num; omega)
      rw [← h₁, ← h₂, hhd]
    have hs : s₁ = s₂ := md5Hex_inj s₁ s₂ (by
      simpa [md5Hex] using htl)
    rw [hc, hs]


theorem digitsVal_append_digit (s : Str) (c : Char) :
    digitsVal (s ++ [c]) = digitsVal s * 10 + (c.toNat - 48) := by
  simp [digitsVal, List.foldl_append]

theorem natRepAux_val : ∀ (fuel n : Nat), n < fuel →
    digitsVal (natRepAux fuel n) = n
  | fuel + 1, n, h => by
    rw [natRepAux]
    split
    · rename_i h10
      simp [digitsVal, digitChar_toNat n h10]
    · rename_i h10
      push_neg at h10
      rw [digitsVal_append_digit,
        natRepAux_val fuel (n / 10) (by omega),
        digitChar_toNat (n % 10) (Nat.mod_lt _ (by norm_num))]
      omega

/-- Decimal rendering round-trips. -/
theorem digitsVal_natRep (n : Nat) : digitsVal (natRep n) = n :=
  natRepAux_val (n + 1) n (Nat.lt_succ_self n)

theorem natRep_inj (m n : Nat) (h : natRep m = natRep n) : m = n := by
  rw [← digitsVal_natRep m, ← digitsVal_natRep n, h]

theorem natRepAux_all_digits : ∀ (fuel n : Nat), ∀ c ∈ natRepAux fuel n,
    isDigitChar c = true
  | 0, n, c, hc => by simp [natRepAux] at hc
  | fuel + 1, n, c, hc => by
    rw [natRepAux] at hc
    split at hc
    · rename_i h10
      simp at hc
      subst hc
      interval_cases n <;> decide
    · rename_i h10
      push_neg at h10
      rcases List.mem_append.mp hc with h | h
      · exact natRepAux_all_digits fuel (n / 10) c h
      · simp at h
        subst h
        have : n % 10 < 10 := Nat.mod_lt _ (by norm_num)
        interval_cases hw : (n % 10) <;> decide

theorem natRep_ne_nil (n : Nat) : natRep n ≠ [] := by
  rw [natRep, natRepAux]
  split <;> simp

/-- Integer rendering is injective. -/
theorem intRep_inj (a b : Int) (h : intRep a = intRep b) : a = b := by
  unfold intRep at h
  by_cases ha : a < 0 <;> by_cases hb : b < 0
  · rw [if_pos ha, if_pos hb] at h
    have htl : natRep a.natAbs = natRep b.natAbs := by
      have := congrArg List.tail h
      simpa using this
    have := natRep_inj _ _ htl
    omega
  · rw [if_pos ha, if_neg hb] at h
    exfalso
    have hmem : '-' ∈ natRep b.natAbs := by
      rw [← h]; simp
    have := natRepAux_all_digits _ _ '-' hmem
    simp [isDigitChar] at this
  · rw [if_neg ha, if_pos hb] at h
    exfalso
    have hmem : '-' ∈ natRep a.natAbs := by
      rw [h]; simp
    have := natRepAux_all_digits _ _ '-' hmem
    simp [isDigitChar] at this
  · rw [if_neg ha, if_neg hb] at h
    have := natRep_inj _ _ h
    omega


/-- Changing only the model changes the hashed string. -/
theorem paramsStr_cancel_model (m₁ m₂ p : Str) (bc : Nat) (sd : Int) (e : Str)
    (h : paramsStrOf m₁ p bc sd e = paramsStrOf m₂ p bc sd e) : m₁ = m₂ := by
  unfold paramsStrOf at h
  simp only [List.append_assoc, List.cons_append] at h
  exact List.append_cancel_right h

theorem paramsStr_cancel_prompt (m p₁ p₂ : Str) (bc : Nat) (sd : Int) (e : Str)
    (h : paramsStrOf m p₁ bc sd e = paramsStrOf m p₂ bc sd e) : p₁ = p₂ := by
  unfold paramsStrOf at h
  simp only [List.append_assoc, List.cons_append] at h
  have h₁ := List.append_cancel_left h
  simp only [List.cons.injEq, true_and] at h₁
  exact List.append_cancel_right h₁

theorem paramsStr_cancel_batch (m p : Str) (bc₁ bc₂ : Nat) (sd : Int) (e : Str)
    (h : paramsStrOf m p bc₁ sd e = paramsStrOf m p bc₂ sd e) : bc₁ = bc₂ := by
  unfold paramsStrOf at h
  simp only [List.append_assoc, List.cons_append] at h
  have h₁ := List.append_cancel_left h
  simp only [List.cons.injEq, true_and] at h₁
  have h₂ := List.append_cancel_left h₁
  simp only [List.cons.injEq, true_and] at h₂
  exact natRep_inj _ _ (List.append_cancel_right h₂)

theorem paramsStr_cancel_seed (m p : Str) (bc : Nat) (sd₁ sd₂ : Int) (e : Str)
    (h : paramsStrOf m p bc sd₁ e = paramsStrOf m p bc sd₂ e) : sd₁ = sd₂ := by
  unfold paramsStrOf at h
  simp only [List.append_assoc, List.cons_append] at h
  have h₁ := List.append_cancel_left h
  simp only [List.cons.injEq, true_and] at h₁
  have h₂ := List.append_cancel_left h₁
  simp only [List.cons.injEq, true_and] at h₂
  have h₃ := List.append_cancel_left h₂
  simp only [List.cons.injEq, true_and] at h₃
  exact intRep_inj _ _ (List.append_cancel_right h₃)

theorem paramsStr_cancel_extra (m p : Str) (bc : Nat) (sd : Int) (e₁ e₂ : Str)
    (h : paramsStrOf m p bc sd e₁ = paramsStrOf m p bc sd e₂) : e₁ = e₂ := by
  unfold paramsStrOf at h
  simp only [List.append_assoc, List.cons_append] at h
  have h₁ := List.append_cancel_left h
  simp only [List.cons.injEq, true_and] at h₁
  have h₂ := List.append_cancel_left h₁
  simp only [List.cons.injEq, true_and] at h₂
  have h₃ := List.append_cancel_left h₂
  simp only [List.cons.injEq, true_and] at h₃
  have h₄ := List.append_cancel_left h₃
  simp only [List.cons.injEq, true_and] at h₄
  exact h₄


/-- `strLe` is total. -/
theorem strLe_total : ∀ (a b : Str), strLe a b = true ∨ strLe b a = true
  | [], b => by left; cases b <;> rfl
  | a :: as, [] => by right; rfl
  | a :: as, b :: bs => by
    by_cases hab : a = b
    · subst hab
      simpa [strLe] using strLe_total as bs
    · rcases lt_trichotomy a b with h | h | h
      · left; simp [strLe, hab, h]
      · exact absurd h hab
      · right
        have hba : b ≠ a := fun e => hab e.symm
        simp [strLe, hba, h]

/-- `strLe` is transitive. -/
theorem strLe_trans : ∀ (a b c : Str),
    strLe a b = true → strLe b c = true → strLe a c = true
  | [], _, c, _, _ => by cases c <;> rfl
  | a :: as, [], _, h, _ => by simp [strLe] at h
  | a :: as, b :: bs, [], _, h => by simp [strLe] at h
  | a :: as, b :: bs, c :: cs, h₁, h₂ => by
    by_cases hab : a = b <;> by_cases hbc : b = c
    · subst hab; subst hbc
      simp only [strLe, if_pos rfl] at h₁ h₂ ⊢
      exact strLe_trans as bs cs h₁ h₂
    · subst hab
      simpa [strLe, hbc] using h₂
    · subst hbc
      simpa [strLe, hab] using h₁
    · simp only [strLe, if_neg hab] at h₁
      simp only [strLe, if_neg hbc] at h₂
      have hlt : a < c := lt_trans (of_decide_eq_true h₁) (of_decide_eq_true h₂)
      have hac : a ≠ c := ne_of_lt hlt
      simp [strLe, hac, hlt]

/-- `strLe` is antisymmetric. -/
theorem strLe_antisymm : ∀ (a b : Str),
    strLe a b = true → strLe b a = true → a = b
  | [], [], _, _ => rfl
  | [], b :: bs, _, h => by simp [strLe] at h
  | a :: as, [], h, _ => by simp [strLe] at h
  | a :: as, b :: bs, h₁, h₂ => by
    by_cases hab : a = b
    · subst hab
      simp only [strLe, if_pos rfl] at h₁ h₂
      rw [strLe_antisymm as bs h₁ h₂]
    · exfalso
      have hba : b ≠ a := fun e => hab e.symm
      simp only [strLe, if_neg hab] at h₁
      simp only [strLe, if_neg hba] at h₂
      exact absurd (lt_trans (of_decide_eq_true h₁) (of_decide_eq_true h₂))
        (lt_irrefl a)

/-- Two sorted permutations of each other agree, given antisymmetry on
their elements. -/
theorem sorted_perm_unique {α : Type} (le : α → α → Bool) :
    ∀ (l₁ l₂ : List α), List.Perm l₁ l₂ →
      l₁.Pairwise (fun a b => le a b = true) →
      l₂.Pairwise (fun a b => le a b = true) →
      (∀ a ∈ l₁, ∀ b ∈ l₂, le a b = true → le b a = true → a = b) →
      l₁ = l₂
  | [], l₂, hperm, _, _, _ => by
    rw [List.Perm.nil_eq hperm]
  | a :: t₁, [], hperm, _, _, _ => by
    exact absurd hperm.symm (by simp)
  | a :: t₁, b :: t₂, hperm, hp₁, hp₂, hanti => by
    by_cases hab : a = b
    · subst hab
      have htail := hperm.cons_inv
      rw [sorted_perm_unique le t₁ t₂ htail
        (List.pairwise_cons.mp hp₁).2 (List.pairwise_cons.mp hp₂).2
        (fun x hx y hy => hanti x (by simp [hx]) y (by simp [hy]))]
    · exfalso
      have hain : a ∈ b :: t₂ := hperm.mem_iff.mp (by simp)
      have hbin : b ∈ a :: t₁ := hperm.symm.mem_iff.mp (by simp)
      have hat₂ : a ∈ t₂ := by
        rcases List.mem_cons.mp hain with h | h
        · exact absurd h hab
        · exact h
      have hbt₁ : b ∈ t₁ := by
        rcases List.mem_cons.mp hbin with h | h
        · exact absurd h.symm hab
        · exact h
      have hle₁ : le a b = true := (List.pairwise_cons.mp hp₁).1 b hbt₁
      have hle₂ : le b a = true := (List.pairwise_cons.mp hp₂).1 a hat₂
      exact hab (hanti a (by simp) b (by simp) hle₁ hle₂)

theorem PyDict.get?_mem_toList : ∀ (d : PyDict) (k : Str) (v : PyVal),
    d.get? k = some v → (k, v) ∈ d.toList
  | .nil, k, v, h => by simp [PyDict.get?] at h
  | .cons k' v' tl, k, v, h => by
    simp only [PyDict.get?] at h
    by_cases he : k' = k
    · subst he
      rw [if_pos rfl] at h
      simp only [Option.some.injEq] at h
      subst h
      simp [PyDict.toList]
    · rw [if_neg he] at h
      simp only [PyDict.toList, List.mem_cons]
      exact Or.inr (PyDict.get?_mem_toList tl k v h)

theorem PyDict.mem_toList_get? : ∀ (d : PyDict) (k : Str) (v : PyVal),
    (d.toList.map Prod.fst).Nodup → (k, v) ∈ d.toList → d.get? k = some v
  | .cons k' v' tl, k, v, hnd, hmem => by
    simp only [PyDict.toList, List.mem_cons] at hmem
    simp only [PyDict.toList, List.map_cons, List.nodup_cons] at hnd
    rcases hmem with h | h
    · rw [Prod.mk.injEq] at h
      simp [PyDict.get?, h.1, h.2]
    · have hk : k' ≠ k := by
        intro he
        subst he
        exact hnd.1 (List.mem_map.mpr ⟨(k', v), h, rfl⟩)
      simp only [PyDict.get?, if_neg hk]
      exact PyDict.mem_toList_get? tl k v hnd.2 h

theorem PyDict.toList_perm_of_get?_eq (d₁ d₂ : PyDict)
    (hnd₁ : (d₁.toList.map Prod.fst).Nodup) (hnd₂ : (d₂.toList.map Prod.fst).Nodup)
    (hmap : ∀ k, d₁.get? k = d₂.get? k) :
    List.Perm d₁.toList d₂.toList := by
  refine List.perm_of_nodup_nodup_toFinset_eq hnd₁.of_map hnd₂.of_map ?_
  ext x
  rcases x with ⟨k, v⟩
  simp only [List.mem_toFinset]
  constructor
  · intro h
    refine PyDict.get?_mem_toList d₂ k v ?_
    rw [← hmap k]
    exact PyDict.mem_toList_get? d₁ k v hnd₁ h
  · intro h
    refine PyDict.get?_mem_toList d₁ k v ?_
    rw [hmap k]
    exact PyDict.mem_toList_get? d₂ k v hnd₂ h


/-- The serialization of one scalar value (total form of `jsonSer` on
scalars). -/
def scalarSer : PyVal → Str
  | .none => "null".toList
  | .bool true => "true".toList
  | .bool false => "false".toList
  | .int n => intRep n
  | .str s => jsonStrLit s
  | _ => []

def serEntry (kv : Str × PyVal) : Str × Str := (kv.1, scalarSer kv.2)

theorem jsonSer_scalar (v : PyVal) (h : scalarOK v = true) :
    jsonSer v = .ok (scalarSer v) := by
  cases v <;> simp [scalarOK] at h <;> try rfl
  rename_i b
  cases b <;> rfl

theorem jsonSerEntries_scalar : ∀ (d : PyDict),
    (∀ kv ∈ d.toList, scalarOK kv.2 = true) →
    jsonSerEntries d = .ok (d.toList.map serEntry)
  | .nil, _ => rfl
  | .cons k v tl, h => by
    have hv : scalarOK v = true := h (k, v) (by simp [PyDict.toList])
    have htl := jsonSerEntries_scalar tl
      (fun kv hkv => h kv (by simp [PyDict.toList, hkv]))
    simp [jsonSerEntries, jsonSer_scalar v hv, htl, bind, Except.bind,
      PyDict.toList, serEntry, pure, Except.pure]

theorem PyDict.popKey_toList_sublist : ∀ (d : PyDict) (k : Str),
    ((d.popKey k).toList).Sublist d.toList
  | .nil, _ => by simp [PyDict.popKey, PyDict.toList]
  | .cons k' v tl, k => by
    simp only [PyDict.popKey]
    split
    · exact (List.sublist_cons_self _ _)
    · exact List.Sublist.cons₂ _ (PyDict.popKey_toList_sublist tl k)

theorem PyDict.get?_popKey_ne : ∀ (d : PyDict) (k₀ k : Str), k₀ ≠ k →
    (d.popKey k₀).get? k = d.get? k
  | .nil, _, _, _ => rfl
  | .cons k' v tl, k₀, k, hne => by
    simp only [PyDict.popKey]
    split
    · rename_i he
      subst he
      simp only [PyDict.get?, if_neg hne]
    · simp only [PyDict.get?]
      split
      · rfl
      · exact PyDict.get?_popKey_ne tl k₀ k hne

theorem PyDict.get?_eq_none_of_not_mem_keys : ∀ (d : PyDict) (k : Str),
    k ∉ d.toList.map Prod.fst → d.get? k = Option.none
  | .nil, _, _ => rfl
  | .cons k' v tl, k, h => by
    simp only [PyDict.toList, List.map_cons, List.mem_cons] at h
    push_neg at h
    simp only [PyDict.get?, if_neg (Ne.symm h.1)]
    exact PyDict.get?_eq_none_of_not_mem_keys tl k h.2

theorem PyDict.get?_popKey_self : ∀ (d : PyDict) (k : Str),
    (d.toList.map Prod.fst).Nodup → (d.popKey k).get? k = Option.none
  | .nil, _, _ => rfl
  | .cons k' v tl, k, hnd => by
    simp only [PyDict.toList, List.map_cons, List.nodup_cons] at hnd
    simp only [PyDict.popKey]
    split
    · rename_i he
      subst he
      exact PyDict.get?_eq_none_of_not_mem_keys tl k' hnd.1
    · rename_i he
      simp only [PyDict.get?, if_neg he]
      exact PyDict.get?_popKey_self tl k hnd.2

/-- Canonical serialization ignores dict key order (equal maps with
duplicate-free keys serialize identically). -/
theorem jsonSer_dict_congr (d₁ d₂ : PyDict)
    (hsc₁ : ∀ kv ∈ d₁.toList, scalarOK kv.2 = true)
    (hnd₁ : (d₁.toList.map Prod.fst).Nodup)
    (hnd₂ : (d₂.toList.map Prod.fst).Nodup)
    (hmap : ∀ k, d₁.get? k = d₂.get? k) :
    jsonSer (.dict d₁) = jsonSer (.dict d₂) := by
  have hperm := PyDict.toList_perm_of_get?_eq d₁ d₂ hnd₁ hnd₂ hmap
  have hsc₂ : ∀ kv ∈ d₂.toList, scalarOK kv.2 = true := fun kv hkv =>
    hsc₁ kv (hperm.mem_iff.mpr hkv)
  simp only [jsonSer, jsonSerEntries_scalar d₁ hsc₁, jsonSerEntries_scalar d₂ hsc₂,
    bind, Except.bind]
  suffices hs : sortLe (fun a b => strLe a.1 b.1) (d₁.toList.map serEntry)
      = sortLe (fun a b => strLe a.1 b.1) (d₂.toList.map serEntry) by
    rw [hs]
  have htot : ∀ (a b : Str × Str), strLe a.1 b.1 = true ∨ strLe b.1 a.1 = true :=
    fun a b => strLe_total a.1 b.1
  have htrans : ∀ (a b c : Str × Str), strLe a.1 b.1 = true →
      strLe b.1 c.1 = true → strLe a.1 c.1 = true :=
    fun a b c => strLe_trans a.1 b.1 c.1
  refine sorted_perm_unique _ _ _
    (((sortLe_perm _ _).trans (hperm.map serEntry)).trans (sortLe_perm _ _).symm)
    (sortLe_pairwise _ htot htrans _) (sortLe_pairwise _ htot htrans _) ?_
  intro a ha b hb hab hba
  have ha' := (sortLe_perm _ _).mem_iff.mp ha
  have hb' := (sortLe_perm _ _).mem_iff.mp hb
  obtain ⟨⟨ka, va⟩, hkva, rfl⟩ := List.mem_map.mp ha'
  obtain ⟨⟨kb, vb⟩, hkvb, rfl⟩ := List.mem_map.mp hb'
  have hk : ka = kb := strLe_antisymm _ _ hab hba
  subst hk
  have h₁ : d₁.get? ka = some va := PyDict.mem_toList_get? d₁ ka va hnd₁ hkva
  have h₂ : d₂.get? ka = some vb := PyDict.mem_toList_get? d₂ ka vb hnd₂ hkvb
  rw [hmap ka, h₂] at h₁
  simp only [Option.some.injEq] at h₁
  rw [h₁]

/-- `_compute_params_hash` through the seed-stripped serialization. -/
theorem computeParamsHash_some (m p : Str) (bc : Nat) (sd : Int) (d : PyDict) :
    computeParamsHash m p bc sd (some d)
      = (jsonSer (.dict (d.popKey "seed".toList))).map
          (fun e => md5Hex (paramsStrOf m p bc sd e)) := by
  have hbase : (if pyTruthy (.dict d) then d else .nil) = d := by
    cases d <;> simp [pyTruthy, PyDict.toList]
  simp only [computeParamsHash, hbase]
  cases hj : jsonSer (.dict (d.popKey "seed".toList)) <;>
    simp [hj, bind, Except.bind, Except.map, pure, Except.pure]


/-- Key-order invariance of the content hash. -/
theorem computeParamsHash_key_order (m p : Str) (bc : Nat) (sd : Int)
    (d₁ d₂ : PyDict)
    (hsc₁ : ∀ kv ∈ d₁.toList, scalarOK kv.2 = true)
    (hnd₁ : (d₁.toList.map Prod.fst).Nodup)
    (hnd₂ : (d₂.toList.map Prod.fst).Nodup)
    (hmap : ∀ k, d₁.get? k = d₂.get? k) :
    computeParamsHash m p bc sd (some d₁) = computeParamsHash m p bc sd (some d₂) := by
  rw [computeParamsHash_some, computeParamsHash_some]
  rw [jsonSer_dict_congr (d₁.popKey "seed".toList) (d₂.popKey "seed".toList)
    (fun kv hkv => hsc₁ kv ((PyDict.popKey_toList_sublist d₁ _).subset hkv))
    (hnd₁.sublist ((PyDict.popKey_toList_sublist d₁ _).map Prod.fst))
    (hnd₂.sublist ((PyDict.popKey_toList_sublist d₂ _).map Prod.fst))
    (fun k => by
      by_cases hk : "seed".toList = k
      · subst hk
        rw [PyDict.get?_popKey_self d₁ _ hnd₁, PyDict.get?_popKey_self d₂ _ hnd₂]
      · rw [PyDict.get?_popKey_ne d₁ _ _ hk, PyDict.get?_popKey_ne d₂ _ _ hk,
          hmap k])]


/-- String-literal escaping round-trips. -/
theorem parseStrBody_jsonEscape : ∀ (s r : Str),
    parseStrBody (jsonEscape s ++ '"' :: r) = some (s, r)
  | [], r => rfl
  | c :: rest, r => by
    by_cases hc : c = '"' ∨ c = '\\'
    · simp only [jsonEscape, if_pos hc, List.cons_append]
      simp only [parseStrBody, parseStrBody_jsonEscape rest r, Option.bind_eq_bind,
        Option.some_bind]
    · simp only [jsonEscape, if_neg hc, List.cons_append]
      push_neg at hc
      rw [parseStrBody.eq_def]
      split
      · rename_i heq
        simp at heq
      · rename_i heq
        rw [List.cons.injEq] at heq
        exact absurd heq.1 hc.1
      · rename_i x rest₂ heq
        rw [List.cons.injEq] at heq
        exact absurd heq.1 hc.2
      · rename_i heq
        rw [List.cons.injEq] at heq
        exact absurd heq.1 hc.2
      · rename_i c₂ rest₂ hne₁ hne₂ hne₃ heq
        rw [List.cons.injEq] at heq
        obtain ⟨rfl, hrest⟩ := heq
        rw [← hrest, parseStrBody_jsonEscape rest r]
        rfl


theorem takeWhile_all (p : Char → Bool) : ∀ (w : Str),
    (∀ c ∈ w, p c = true) → w.takeWhile p = w
  | [], _ => rfl
  | a :: w, h => by
    have ha : p a = true := h a (by simp)
    simp only [List.takeWhile, ha]
    rw [takeWhile_all p w (fun c hc => h c (by simp [hc]))]

theorem dropWhile_all (p : Char → Bool) : ∀ (w : Str),
    (∀ c ∈ w, p c = true) → w.dropWhile p = []
  | [], _ => rfl
  | a :: w, h => by
    have ha : p a = true := h a (by simp)
    simp only [List.dropWhile, ha]
    exact dropWhile_all p w (fun c hc => h c (by simp [hc]))

theorem parseNatMunch_natRep (n : Nat) (r : Str)
    (hr : ∀ c ∈ r.head?, isDigitChar c = false) :
    parseNatMunch (natRep n ++ r) = some (n, r) := by
  have hall : ∀ c ∈ natRep n, isDigitChar c = true :=
    fun c hc => natRepAux_all_digits _ _ c hc
  have htw : (natRep n ++ r).takeWhile isDigitChar = natRep n := by
    cases r with
    | nil => rw [List.append_nil]; exact takeWhile_all _ _ hall
    | cons b r' =>
      exact takeWhile_all_cons_append _ _ _ _ hall (hr b rfl)
  have hdw : (natRep n ++ r).dropWhile isDigitChar = r := by
    cases r with
    | nil => rw [List.append_nil]; exact dropWhile_all _ _ hall
    | cons b r' =>
      exact dropWhile_all_cons_append _ _ _ _ hall (hr b rfl)
  simp only [parseNatMunch, htw, hdw]
  rw [if_neg (by simpa [List.isEmpty_iff] using natRep_ne_nil n)]
  rw [digitsVal_natRep]


theorem natRep_head (n : Nat) :
    ∃ c cs, natRep n = c :: cs ∧ isDigitChar c = true := by
  cases h : natRep n with
  | nil => exact absurd h (natRep_ne_nil n)
  | cons c cs =>
    refine ⟨c, cs, rfl, ?_⟩
    exact natRepAux_all_digits _ _ c (h ▸ List.mem_cons_self c cs)

theorem parseScalar_natRep (m : Nat) (r : Str)
    (hr : ∀ c ∈ r.head?, isDigitChar c = false) :
    parseScalar (natRep m ++ r) = some (.int (m : Int), r) := by
  obtain ⟨c, cs, hrep, hdig⟩ := natRep_head m
  rw [parseScalar.eq_def]
  split
  · rename_i heq
    rw [hrep] at heq
    simp only [List.cons_append, List.cons.injEq] at heq
    rw [heq.1] at hdig
    exact absurd hdig (by decide)
  · rename_i heq
    rw [hrep] at heq
    simp only [List.cons_append, List.cons.injEq] at heq
    rw [heq.1] at hdig
    exact absurd hdig (by decide)
  · rename_i heq
    rw [hrep] at heq
    simp only [List.cons_append, List.cons.injEq] at heq
    rw [heq.1] at hdig
    exact absurd hdig (by decide)
  · rename_i x heq
    rw [hrep] at heq
    simp only [List.cons_append, List.cons.injEq] at heq
    rw [heq.1] at hdig
    exact absurd hdig (by decide)
  · rename_i x heq
    rw [hrep] at heq
    simp only [List.cons_append, List.cons.injEq] at heq
    rw [heq.1] at hdig
    exact absurd hdig (by decide)
  · rw [parseNatMunch_natRep m r hr]
    rfl

theorem parseScalar_scalarSer (v : PyVal) (r : Str) (hv : scalarOK v = true)
    (hr : ∀ c ∈ r.head?, isDigitChar c = false) :
    parseScalar (scalarSer v ++ r) = some (v, r) := by
  cases v with
  | none => rfl
  | bool b => cases b <;> rfl
  | int n =>
    by_cases hn : n < 0
    · have : scalarSer (.int n) = '-' :: natRep n.natAbs := by
        simp [scalarSer, intRep, hn]
      rw [this, List.cons_append]
      have hmatch : parseScalar ('-' :: (natRep n.natAbs ++ r))
          = (do
              let (k, r') ← parseNatMunch (natRep n.natAbs ++ r)
              some (.int (-(k : Int)), r')) := rfl
      rw [hmatch, parseNatMunch_natRep _ r hr]
      simp only [Option.bind_eq_bind, Option.some_bind, Option.some.injEq,
        Prod.mk.injEq]
      constructor
      · congr 1
        omega
      · trivial
    · have : scalarSer (.int n) = natRep n.natAbs := by
        simp [scalarSer, intRep, hn]
      rw [this, parseScalar_natRep _ r hr]
      have : ((n.natAbs : Nat) : Int) = n := by omega
      rw [this]
  | str s =>
    have : scalarSer (.str s) ++ r = '"' :: (jsonEscape s ++ '"' :: r) := by
      simp [scalarSer, jsonStrLit]
    rw [this]
    have hmatch : parseScalar ('"' :: (jsonEscape s ++ '"' :: r))
        = (do
            let (t, r') ← parseStrBody (jsonEscape s ++ '"' :: r)
            some (.str t, r')) := rfl
    rw [hmatch, parseStrBody_jsonEscape s r]
    rfl
  | floatv l => simp [scalarOK] at hv
  | bytes b => simp [scalarOK] at hv
  | list l => simp [scalarOK] at hv
  | dict d => simp [scalarOK] at hv


/-- One serialized dict entry. -/
def entRender (kv : Str × PyVal) : Str :=
  jsonStrLit kv.1 ++ ':' :: scalarSer kv.2

def entStr (es : List (Str × PyVal)) : Str := joinComma (es.map entRender)

/-- The canonical serialization of an entry list. -/
def serDictStr (es : List (Str × PyVal)) : Str :=
  lbrace :: entStr es ++ [rbrace]

theorem parseEntries_round : ∀ (es : List (Str × PyVal)) (fuel : Nat) (r : Str),
    es ≠ [] → (∀ kv ∈ es, scalarOK kv.2 = true) → es.length ≤ fuel →
    parseEntries fuel (entStr es ++ rbrace :: r) = some (es, r)
  | [], _, _, hne, _, _ => absurd rfl hne
  | [(k, v)], fuel, r, _, hsc, hfuel => by
    cases fuel with
    | zero => simp at hfuel
    | succ f =>
      have hv : scalarOK v = true := hsc (k, v) (by simp)
      have hshape : entStr [(k, v)] ++ rbrace :: r
          = '"' :: (jsonEscape k ++ '"' :: (':' :: (scalarSer v ++ rbrace :: r))) := by
        simp [entStr, joinComma, entRender, jsonStrLit, List.append_assoc]
      rw [hshape]
      have hmatch : parseEntries (f + 1)
          ('"' :: (jsonEscape k ++ '"' :: (':' :: (scalarSer v ++ rbrace :: r))))
          = (do
              let (k₀, r₁) ← parseStrBody
                (jsonEscape k ++ '"' :: (':' :: (scalarSer v ++ rbrace :: r)))
              match r₁ with
              | ':' :: r₂ => do
                let (v₀, r₃) ← parseScalar r₂
                match r₃ with
                | ',' :: r₄ => do
                  let (es, r₅) ← parseEntries f r₄
                  some ((k₀, v₀) :: es, r₅)
                | c :: r₄ =>
                  if c = rbrace then some ([(k₀, v₀)], r₄) else Option.none
                | [] => Option.none
              | _ => Option.none) := rfl
      rw [hmatch, parseStrBody_jsonEscape]
      simp only [Option.bind_eq_bind, Option.some_bind]
      rw [parseScalar_scalarSer v (rbrace :: r) hv (by intro c hc; simp at hc; rw [← hc]; decide)]
      simp only [Option.some_bind]
      rfl
  | (k, v) :: kv₂ :: tl, fuel, r, _, hsc, hfuel => by
    cases fuel with
    | zero => simp at hfuel
    | succ f =>
      have hv : scalarOK v = true := hsc (k, v) (by simp)
      have hshape : entStr ((k, v) :: kv₂ :: tl) ++ rbrace :: r
          = '"' :: (jsonEscape k ++ '"' :: (':' :: (scalarSer v
              ++ ',' :: (entStr (kv₂ :: tl) ++ rbrace :: r)))) := by
        simp [entStr, joinComma, entRender, jsonStrLit, List.append_assoc]
      rw [hshape]
      have hmatch : parseEntries (f + 1)
          ('"' :: (jsonEscape k ++ '"' :: (':' :: (scalarSer v
            ++ ',' :: (entStr (kv₂ :: tl) ++ rbrace :: r)))))
          = (do
              let (k₀, r₁) ← parseStrBody
                (jsonEscape k ++ '"' :: (':' :: (scalarSer v
                  ++ ',' :: (entStr (kv₂ :: tl) ++ rbrace :: r))))
              match r₁ with
              | ':' :: r₂ => do
                let (v₀, r₃) ← parseScalar r₂
                match r₃ with
                | ',' :: r₄ => do
                  let (es, r₅) ← parseEntries f r₄
                  some ((k₀, v₀) :: es, r₅)
                | c :: r₄ =>
                  if c = rbrace then some ([(k₀, v₀)], r₄) else Option.none
                | [] => Option.none
              | _ => Option.none) := rfl
      rw [hmatch, parseStrBody_jsonEscape]
      simp only [Option.bind_eq_bind, Option.some_bind]
      rw [parseScalar_scalarSer v (',' :: (entStr (kv₂ :: tl) ++ rbrace :: r)) hv
        (by intro c hc; simp at hc; rw [← hc]; decide)]
      simp only [Option.some_bind]
      rw [parseEntries_round (kv₂ :: tl) f r (by simp)
        (fun kv hkv => hsc kv (by simp [hkv]))
        (by simpa using Nat.lt_of_succ_le hfuel)]
      rfl


theorem entStr_length : ∀ (es : List (Str × PyVal)),
    es.length ≤ (entStr es).length
  | [] => by simp [entStr, joinComma]
  | [kv] => by
    simp [entStr, joinComma, entRender, jsonStrLit]
  | kv :: kv₂ :: tl => by
    have ih := entStr_length (kv₂ :: tl)
    simp only [entStr, List.map_cons, joinComma, List.length_cons,
      List.length_append] at ih ⊢
    omega

/-- The decoder inverts the canonical serialization of scalar entry
lists. -/
theorem parseDict_round : ∀ (es : List (Str × PyVal)),
    (∀ kv ∈ es, scalarOK kv.2 = true) →
    parseDict (serDictStr es) = some es
  | [], _ => rfl
  | (k, v) :: tl, hsc => by
    obtain ⟨Y, hY⟩ : ∃ Y, entStr ((k, v) :: tl) = '"' :: Y := by
      cases tl with
      | nil => exact ⟨_, rfl⟩
      | cons kv₂ tl₂ => exact ⟨_, rfl⟩
    have hlen : ((k, v) :: tl).length ≤ ('"' :: (Y ++ [rbrace])).length := by
      have h1 := entStr_length ((k, v) :: tl)
      rw [hY] at h1
      simp only [List.length_cons, List.length_append] at h1 ⊢
      omega
    have hround := parseEntries_round ((k, v) :: tl)
      ('"' :: (Y ++ [rbrace])).length [] (by simp) hsc hlen
    have hin : entStr ((k, v) :: tl) ++ rbrace :: ([] : Str)
        = '"' :: (Y ++ [rbrace]) := by
      rw [hY, List.cons_append]
    rw [hin] at hround
    have hm : parseDict (lbrace :: ('"' :: (Y ++ [rbrace])))
        = (if ('"' : Char) = rbrace ∧ Y ++ [rbrace] = [] then some []
           else match parseEntries ('"' :: (Y ++ [rbrace])).length
               ('"' :: (Y ++ [rbrace])) with
             | some (es, r₂) => if r₂ = [] then some es else Option.none
             | Option.none => Option.none) := rfl
    have hgoal : serDictStr ((k, v) :: tl) = lbrace :: ('"' :: (Y ++ [rbrace])) := by
      simp only [serDictStr, List.cons_append, hY]
    rw [hgoal, hm, if_neg (by simp), hround]
    rfl


theorem insertLe_map {α β : Type} (le₁ : α → α → Bool) (le₂ : β → β → Bool)
    (f : α → β) (hcomm : ∀ a b, le₂ (f a) (f b) = le₁ a b) (x : α) :
    ∀ (l : List α), insertLe le₂ (f x) (l.map f) = (insertLe le₁ x l).map f
  | [] => rfl
  | y :: ys => by
    simp only [List.map_cons, insertLe, hcomm x y]
    split
    · simp
    · simp only [List.map_cons]
      rw [insertLe_map le₁ le₂ f hcomm x ys]

theorem sortLe_map {α β : Type} (le₁ : α → α → Bool) (le₂ : β → β → Bool)
    (f : α → β) (hcomm : ∀ a b, le₂ (f a) (f b) = le₁ a b) :
    ∀ (l : List α), sortLe le₂ (l.map f) = (sortLe le₁ l).map f
  | [] => rfl
  | x :: xs => by
    simp only [List.map_cons, sortLe]
    rw [sortLe_map le₁ le₂ f hcomm xs, insertLe_map le₁ le₂ f hcomm]

/-- `jsonSer` on a scalar dict is the canonical serialization of its
key-sorted entries. -/
theorem jsonSer_dict_scalar (d : PyDict)
    (hsc : ∀ kv ∈ d.toList, scalarOK kv.2 = true) :
    jsonSer (.dict d)
      = .ok (serDictStr (sortLe (fun a b => strLe a.1 b.1) d.toList)) := by
  simp only [jsonSer, jsonSerEntries_scalar d hsc, bind, Except.bind]
  rw [sortLe_map (fun (a b : Str × PyVal) => strLe a.1 b.1)
    (fun (a b : Str × Str) => strLe a.1 b.1) serEntry (fun a b => rfl)]
  rw [List.map_map]
  rfl

theorem PyDict.get?_eq_of_toList_perm (d₁ d₂ : PyDict)
    (hnd₁ : (d₁.toList.map Prod.fst).Nodup) (hnd₂ : (d₂.toList.map Prod.fst).Nodup)
    (hperm : List.Perm d₁.toList d₂.toList) (k : Str) :
    d₁.get? k = d₂.get? k := by
  cases h₁ : d₁.get? k with
  | some v =>
    exact (PyDict.mem_toList_get? d₂ k v hnd₂
      (hperm.mem_iff.mp (PyDict.get?_mem_toList d₁ k v h₁))).symm
  | none =>
    cases h₂ : d₂.get? k with
    | none => rfl
    | some w =>
      have := PyDict.mem_toList_get? d₁ k w hnd₁
        (hperm.mem_iff.mpr (PyDict.get?_mem_toList d₂ k w h₂))
      rw [h₁] at this
      exact absurd this (by simp)

/-- Canonical serialization determines the key-value map of a scalar
duplicate-free dict. -/
theorem jsonSer_dict_inj (d₁ d₂ : PyDict)
    (hsc₁ : ∀ kv ∈ d₁.toList, scalarOK kv.2 = true)
    (hsc₂ : ∀ kv ∈ d₂.toList, scalarOK kv.2 = true)
    (hnd₁ : (d₁.toList.map Prod.fst).Nodup)
    (hnd₂ : (d₂.toList.map Prod.fst).Nodup)
    (h : jsonSer (.dict d₁) = jsonSer (.dict d₂)) (k : Str) :
    d₁.get? k = d₂.get? k := by
  rw [jsonSer_dict_scalar d₁ hsc₁, jsonSer_dict_scalar d₂ hsc₂] at h
  simp only [Except.ok.injEq] at h
  have hp₁ := parseDict_round (sortLe (fun a b => strLe a.1 b.1) d₁.toList)
    (fun kv hkv => hsc₁ kv ((sortLe_perm _ _).mem_iff.mp hkv))
  have hp₂ := parseDict_round (sortLe (fun a b => strLe a.1 b.1) d₂.toList)
    (fun kv hkv => hsc₂ kv ((sortLe_perm _ _).mem_iff.mp hkv))
  rw [h] at hp₁
  rw [hp₂] at hp₁
  simp only [Option.some.injEq] at hp₁
  exact PyDict.get?_eq_of_toList_perm d₁ d₂ hnd₁ hnd₂
    (((sortLe_perm _ _).symm.trans (hp₁ ▸ (sortLe_perm _ _))).symm.symm) k


/-- C4: the content hash _compute_params_hash. Key-order invariance: with the
same model, prompt, batch_count and seed, two extra_params dicts that are equal
as key-value maps (JSON-scalar values, duplicate-free keys) hash identically.
Sensitivity: with everything else held fixed, changing the model, the prompt,
the batch_count, the seed, or the seed-stripped extra_params contents at any
key (scalar values, duplicate-free keys) changes the hash. Hashing is modelled
by the injective fingerprint stand-in `md5Hex` (see the module docstring). -/
theorem params_hash_claim
    (model model₂ prompt prompt₂ : Str) (bc bc₂ : Nat) (sd sd₂ : Int)
    (d₁ d₂ : PyDict) (key : Str) (h₁ h₂ : Str) :
    ((∀ kv ∈ d₁.toList, scalarOK kv.2 = true) →
      (d₁.toList.map Prod.fst).Nodup → (d₂.toList.map Prod.fst).Nodup →
      (∀ k, d₁.get? k = d₂.get? k) →
      computeParamsHash model prompt bc sd (some d₁)
        = computeParamsHash model prompt bc sd (some d₂))
    ∧ (computeParamsHash model prompt bc sd (some d₁) = .ok h₁ →
      computeParamsHash model₂ prompt bc sd (some d₁) = .ok h₂ →
      model ≠ model₂ → h₁ ≠ h₂)
    ∧ (computeParamsHash model prompt bc sd (some d₁) = .ok h₁ →
      computeParamsHash model prompt₂ bc sd (some d₁) = .ok h₂ →
      prompt ≠ prompt₂ → h₁ ≠ h₂)
    ∧ (computeParamsHash model prompt bc sd (some d₁) = .ok h₁ →
      computeParamsHash model prompt bc₂ sd (some d₁) = .ok h₂ →
      bc ≠ bc₂ → h₁ ≠ h₂)
    ∧ (computeParamsHash model prompt bc sd (some d₁) = .ok h₁ →
      computeParamsHash model prompt bc sd₂ (some d₁) = .ok h₂ →
      sd ≠ sd₂ → h₁ ≠ h₂)
    ∧ ((∀ kv ∈ d₁.toList, scalarOK kv.2 = true) →
      (∀ kv ∈ d₂.toList, scalarOK kv.2 = true) →
      (d₁.toList.map Prod.fst).Nodup → (d₂.toList.map Prod.fst).Nodup →
      computeParamsHash model prompt bc sd (some d₁) = .ok h₁ →
      computeParamsHash model prompt bc sd (some d₂) = .ok h₂ →
      (d₁.popKey "seed".toList).get? key ≠ (d₂.popKey "seed".toList).get? key →
      h₁ ≠ h₂) := by
  refine ⟨?_, ?_, ?_, ?_, ?_, ?_⟩
  · exact fun hsc hnd₁ hnd₂ hmap =>
      computeParamsHash_key_order model prompt bc sd d₁ d₂ hsc hnd₁ hnd₂ hmap
  · intro ha hb hne heq
    rw [computeParamsHash_some] at ha hb
    cases hj : jsonSer (.dict (d₁.popKey "seed".toList)) with
    | error e => rw [hj] at ha; exact absurd ha (by simp [Except.map])
    | ok e =>
      rw [hj] at ha hb
      simp only [Except.map, Except.ok.injEq] at ha hb
      rw [← ha, ← hb] at heq
      exact hne (paramsStr_cancel_model _ _ _ _ _ _ (md5Hex_inj _ _ heq))
  · intro ha hb hne heq
    rw [computeParamsHash_some] at ha hb
    cases hj : jsonSer (.dict (d₁.popKey "seed".toList)) with
    | error e => rw [hj] at ha; exact absurd ha (by simp [Except.map])
    | ok e =>
      rw [hj] at ha hb
      simp only [Except.map, Except.ok.injEq] at ha hb
      rw [← ha, ← hb] at heq
      exact hne (paramsStr_cancel_prompt _ _ _ _ _ _ (md5Hex_inj _ _ heq))
  · intro ha hb hne heq
    rw [computeParamsHash_some] at ha hb
    cases hj : jsonSer (.dict (d₁.popKey "seed".toList)) with
    | error e => rw [hj] at ha; exact absurd ha (by simp [Except.map])
    | ok e =>
      rw [hj] at ha hb
      simp only [Except.map, Except.ok.injEq] at ha hb
      rw [← ha, ← hb] at heq
      exact hne (paramsStr_cancel_batch _ _ _ _ _ _ (md5Hex_inj _ _ heq))
  · intro ha hb hne heq
    rw [computeParamsHash_some] at ha hb
    cases hj : jsonSer (.dict (d₁.popKey "seed".toList)) with
    | error e => rw [hj] at ha; exact absurd ha (by simp [Except.map])
    | ok e =>
      rw [hj] at ha hb
      simp only [Except.map, Except.ok.injEq] at ha hb
      rw [← ha, ← hb] at heq
      exact hne (paramsStr_cancel_seed _ _ _ _ _ _ (md5Hex_inj _ _ heq))
  · intro hsc₁ hsc₂ hnd₁ hnd₂ ha hb hkey heq
    rw [computeParamsHash_some] at ha hb
    have hsc₁' : ∀ kv ∈ (d₁.popKey "seed".toList).toList, scalarOK kv.2 = true :=
      fun kv hkv => hsc₁ kv ((PyDict.popKey_toList_sublist d₁ _).subset hkv)
    have hsc₂' : ∀ kv ∈ (d₂.popKey "seed".toList).toList, scalarOK kv.2 = true :=
      fun kv hkv => hsc₂ kv ((PyDict.popKey_toList_sublist d₂ _).subset hkv)
    have hnd₁' := hnd₁.sublist
      ((PyDict.popKey_toList_sublist d₁ "seed".toList).map Prod.fst)
    have hnd₂' := hnd₂.sublist
      ((PyDict.popKey_toList_sublist d₂ "seed".toList).map Prod.fst)
    rw [jsonSer_dict_scalar _ hsc₁'] at ha
    rw [jsonSer_dict_scalar _ hsc₂'] at hb
    simp only [Except.map, Except.ok.injEq] at ha hb
    rw [← ha, ← hb] at heq
    have hser := paramsStr_cancel_extra _ _ _ _ _ _ (md5Hex_inj _ _ heq)
    refine hkey (jsonSer_dict_inj _ _ hsc₁' hsc₂' hnd₁' hnd₂' ?_ key)
    rw [jsonSer_dict_scalar _ hsc₁', jsonSer_dict_scalar _ hsc₂', hser]


/-- Two enumerations of the same two-entry parameter dict. -/
def c4dA : PyDict :=
  .cons "b".toList (.int 1) (.cons "a".toList (.str "x".toList) .nil)

def c4dB : PyDict :=
  .cons "a".toList (.str "x".toList) (.cons "b".toList (.int 1) .nil)

theorem params_hash_claim_witness :
    computeParamsHash "m".toList "p".toList 2 7 (some c4dA)
      = computeParamsHash "m".toList "p".toList 2 7 (some c4dB) := by
  refine (params_hash_claim "m".toList "m".toList "p".toList "p".toList 2 2 7 7
    c4dA c4dB [] [] []).1 (by decide) (by decide) (by decide) ?_
  intro k
  by_cases h1 : "b".toList = k
  · rw [← h1]; decide
  · by_cases h2 : "a".toList = k
    · rw [← h2]; decide
    · have h1' : ¬((['b'] : Str) = k) := by simpa using h1
      have h2' : ¬((['a'] : Str) = k) := by simpa using h2
      simp [c4dA, c4dB, PyDict.get?, h1', h2']


end Batchbox
